import Mathlib

/-!
# dktop: the panel cursors, the filters and the controller's merge step

A shallow embedding of `internal/ui/containers.go`, `internal/ui/images.go`
and the message handling of `internal/ui/app.go`.

Modelling conventions.

* Go `int` is a 64-bit two's complement integer.  Fields of that type are
  `Int`; an operation whose operands are not bounded by a slice length is
  wrapped with `wrap64`.  `len(s) - 1`, `selected++` under the guard
  `selected < len - 1` and `selected--` under the guard `selected > 0` cannot
  leave the range, so they are plain integer arithmetic.
* Go `uint64` fields are `Nat`, sums of them are reduced modulo `2^64`.
* Go `float64` is a type parameter `F` with the operations the code uses
  (`+` and the zero value), so nothing is assumed about rounding.
* Go strings are `String` (valid UTF-8).  `strings.ToLower` maps every rune
  through `unicode.ToLower`; that table belongs to the Go library and is the
  parameter `lower`.  `strings.Contains` is contiguous-substring search.
-/

namespace Dktop

/-! ## Machine integers and strings -/

/-- Two's complement wrap-around of a Go `int` (64 bits). -/
def wrap64 (x : Int) : Int := (x + 2 ^ 63) % 2 ^ 64 - 2 ^ 63

/-- Wrap-around of a Go `uint64`. -/
def wrapU64 (x : Nat) : Nat := x % 2 ^ 64

/-- Go `len` of a slice, as an `int`. -/
def len {α : Type} (s : List α) : Int := (s.length : Int)

/-- Go `strings.ToLower` on a valid UTF-8 string: rune-wise `unicode.ToLower`. -/
def ToLower (lower : Char → Char) (s : String) : String := ⟨s.data.map lower⟩

/-- Substring search on rune lists: does `sub` occur contiguously in the first argument. -/
def containsChars : List Char → List Char → Bool
  | [], sub => sub.isEmpty
  | c :: rest, sub => sub.isPrefixOf (c :: rest) || containsChars rest sub

/-- Go `strings.Contains`. -/
def Contains (s substr : String) : Bool := containsChars s.data substr.data

/-! ## Data model (`internal/docker/client.go`) -/

/-- Go `docker.ContainerInfo`; `Created` is the Unix time in seconds. -/
structure ContainerInfo (F : Type) where
  ID : String
  Name : String
  Image : String
  Status : String
  State : String
  Ports : String
  Created : Int
  CPUPerc : F
  MemUsage : Nat
  MemLimit : Nat
  MemPerc : F
  NetRx : Nat
  NetTx : Nat
  Autostart : Bool
deriving DecidableEq, Repr

/-- Go `docker.ImageInfo`. -/
structure ImageInfo where
  ID : String
  Tags : List String
  Size : Int
  Created : Int
deriving DecidableEq, Repr

/-! ## Containers panel (`internal/ui/containers.go`) -/

/-- Go `ui.ContainersPanel`. -/
structure ContainersPanel (F : Type) where
  width : Int
  height : Int
  containers : List (ContainerInfo F)
  selected : Int
  offset : Int
  active : Bool
  filter : String
deriving DecidableEq, Repr

/-- Go `NewContainersPanel`: the zero value of the struct. -/
def NewContainersPanel {F : Type} : ContainersPanel F :=
  { width := 0, height := 0, containers := [], selected := 0, offset := 0,
    active := false, filter := "" }

namespace ContainersPanel

variable {F : Type}

/-- Go `ContainersPanel.SetSize`. -/
def SetSize (p : ContainersPanel F) (width height : Int) : ContainersPanel F :=
  { p with width := width, height := height }

/-- Go `ContainersPanel.SetActive`. -/
def SetActive (p : ContainersPanel F) (active : Bool) : ContainersPanel F :=
  { p with active := active }

/-- Go `ContainersPanel.Update`: store the list, then clamp `selected` against the
length of the stored (unfiltered) list. -/
def Update (p : ContainersPanel F) (containers : List (ContainerInfo F)) :
    ContainersPanel F :=
  let p1 := { p with containers := containers }
  let p2 := if p1.selected ≥ len p1.containers then
      { p1 with selected := len p1.containers - 1 } else p1
  if p2.selected < 0 then { p2 with selected := 0 } else p2

/-- Go `ContainersPanel.SetFilter`. -/
def SetFilter (p : ContainersPanel F) (filter : String) : ContainersPanel F :=
  { p with filter := filter, selected := 0, offset := 0 }

/-- The condition of the `if` inside the loop of `GetFiltered`; `filterLower` is
the lower-cased filter. -/
def rowMatches (lower : Char → Char) (filterLower : String) (c : ContainerInfo F) : Bool :=
  Contains (ToLower lower c.Name) filterLower ||
  Contains (ToLower lower c.Image) filterLower ||
  Contains (ToLower lower c.ID) filterLower

/-- Go `ContainersPanel.GetFiltered`: the loop appends every matching container. -/
def GetFiltered (lower : Char → Char) (p : ContainersPanel F) : List (ContainerInfo F) :=
  if p.filter = "" then p.containers
  else
    let filterLower := ToLower lower p.filter
    p.containers.foldl
      (fun filtered c => if rowMatches lower filterLower c then filtered ++ [c] else filtered) []

/-- Go `ContainersPanel.MoveUp`. -/
def MoveUp (p : ContainersPanel F) : ContainersPanel F :=
  if p.selected > 0 then
    let p1 := { p with selected := p.selected - 1 }
    if p1.selected < p1.offset then { p1 with offset := p1.selected } else p1
  else p

/-- Go `ContainersPanel.MoveDown`; `visibleRows` is `height - 5` with no lower bound. -/
def MoveDown (lower : Char → Char) (p : ContainersPanel F) : ContainersPanel F :=
  let filtered := GetFiltered lower p
  if p.selected < len filtered - 1 then
    let p1 := { p with selected := p.selected + 1 }
    let visibleRows := wrap64 (p1.height - 5)
    if p1.selected ≥ wrap64 (p1.offset + visibleRows) then
      { p1 with offset := wrap64 (wrap64 (p1.selected - visibleRows) + 1) }
    else p1
  else p

/-- Go `ContainersPanel.GetSelected`: `nil` is `none`. -/
def GetSelected (lower : Char → Char) (p : ContainersPanel F) : Option (ContainerInfo F) :=
  let filtered := GetFiltered lower p
  if 0 ≤ p.selected ∧ p.selected < len filtered then filtered[p.selected.toNat]? else none

/-- The row count `View` draws: `height - 5`, raised to 1. -/
def viewRows (p : ContainersPanel F) : Int :=
  let visibleRows := wrap64 (p.height - 5)
  if visibleRows < 1 then 1 else visibleRows

end ContainersPanel

/-- One call of the containers panel's interface. -/
inductive ContainersOp (F : Type) where
  | setSize (width height : Int)
  | update (containers : List (ContainerInfo F))
  | setFilter (filter : String)
  | moveUp
  | moveDown
deriving DecidableEq, Repr

namespace ContainersPanel

variable {F : Type}

/-- Perform one call. -/
def step (lower : Char → Char) (p : ContainersPanel F) : ContainersOp F → ContainersPanel F
  | .setSize w h => p.SetSize w h
  | .update l => p.Update l
  | .setFilter f => p.SetFilter f
  | .moveUp => p.MoveUp
  | .moveDown => p.MoveDown lower

/-- Perform a sequence of calls, first to last. -/
def run (lower : Char → Char) (p : ContainersPanel F) (ops : List (ContainersOp F)) :
    ContainersPanel F :=
  ops.foldl (step lower) p

end ContainersPanel

/-! ## Images panel (`internal/ui/images.go`) -/

/-- Go `ui.ImagesPanel`. -/
structure ImagesPanel where
  width : Int
  height : Int
  images : List ImageInfo
  selected : Int
  offset : Int
  active : Bool
  filter : String
deriving DecidableEq, Repr

/-- Go `NewImagesPanel`: the zero value of the struct. -/
def NewImagesPanel : ImagesPanel :=
  { width := 0, height := 0, images := [], selected := 0, offset := 0,
    active := false, filter := "" }

namespace ImagesPanel

/-- Go `ImagesPanel.SetSize`. -/
def SetSize (p : ImagesPanel) (width height : Int) : ImagesPanel :=
  { p with width := width, height := height }

/-- Go `ImagesPanel.SetActive`. -/
def SetActive (p : ImagesPanel) (active : Bool) : ImagesPanel :=
  { p with active := active }

/-- Go `ImagesPanel.Update`. -/
def Update (p : ImagesPanel) (images : List ImageInfo) : ImagesPanel :=
  let p1 := { p with images := images }
  let p2 := if p1.selected ≥ len p1.images then
      { p1 with selected := len p1.images - 1 } else p1
  if p2.selected < 0 then { p2 with selected := 0 } else p2

/-- Go `ImagesPanel.SetFilter`. -/
def SetFilter (p : ImagesPanel) (filter : String) : ImagesPanel :=
  { p with filter := filter, selected := 0, offset := 0 }

/-- The inner loop of `GetFiltered` over the tags of one image: at the first
matching tag the image is appended and the loop is left (`break`). -/
def tagLoop (lower : Char → Char) (filterLower : String) (img : ImageInfo)
    (filtered : List ImageInfo) : List String → List ImageInfo
  | [] => filtered
  | tag :: rest =>
    if Contains (ToLower lower tag) filterLower then filtered ++ [img]
    else tagLoop lower filterLower img filtered rest

/-- The body of the outer loop of `GetFiltered` for one image: the tag loop,
followed by the separate test of the id. -/
def imageStep (lower : Char → Char) (filterLower : String) (filtered : List ImageInfo)
    (img : ImageInfo) : List ImageInfo :=
  let filtered1 := tagLoop lower filterLower img filtered img.Tags
  if Contains (ToLower lower img.ID) filterLower then filtered1 ++ [img] else filtered1

/-- Go `ImagesPanel.GetFiltered`. -/
def GetFiltered (lower : Char → Char) (p : ImagesPanel) : List ImageInfo :=
  if p.filter = "" then p.images
  else p.images.foldl (imageStep lower (ToLower lower p.filter)) []

/-- Go `ImagesPanel.MoveUp`. -/
def MoveUp (p : ImagesPanel) : ImagesPanel :=
  if p.selected > 0 then
    let p1 := { p with selected := p.selected - 1 }
    if p1.selected < p1.offset then { p1 with offset := p1.selected } else p1
  else p

/-- Go `ImagesPanel.MoveDown`. -/
def MoveDown (lower : Char → Char) (p : ImagesPanel) : ImagesPanel :=
  let filtered := GetFiltered lower p
  if p.selected < len filtered - 1 then
    let p1 := { p with selected := p.selected + 1 }
    let visibleRows := wrap64 (p1.height - 5)
    if p1.selected ≥ wrap64 (p1.offset + visibleRows) then
      { p1 with offset := wrap64 (wrap64 (p1.selected - visibleRows) + 1) }
    else p1
  else p

/-- Go `ImagesPanel.GetSelected`. -/
def GetSelected (lower : Char → Char) (p : ImagesPanel) : Option ImageInfo :=
  let filtered := GetFiltered lower p
  if 0 ≤ p.selected ∧ p.selected < len filtered then filtered[p.selected.toNat]? else none

end ImagesPanel

/-! ## Logs panel (`internal/ui/logs.go`) -/

/-- Split a rune list at every occurrence of `sep`. -/
def splitChars (sep : Char) : List Char → List (List Char)
  | [] => [[]]
  | c :: rest =>
    if c = sep then [] :: splitChars sep rest
    else
      match splitChars sep rest with
      | [] => [[c]]
      | l :: ls => (c :: l) :: ls

/-- Go `strings.Split(s, "\n")`. -/
def SplitLines (s : String) : List String :=
  (splitChars (Char.ofNat 10) s.data).map String.mk

/-- Go `ui.LogsPanel`. -/
structure LogsPanel where
  width : Int
  height : Int
  logs : List String
  containerName : String
  active : Bool
  offset : Int
  autoScroll : Bool
deriving DecidableEq, Repr

/-- Go `NewLogsPanel`. -/
def NewLogsPanel : LogsPanel :=
  { width := 0, height := 0, logs := [], containerName := "", active := false,
    offset := 0, autoScroll := true }

namespace LogsPanel

/-- Go `LogsPanel.SetSize`. -/
def SetSize (p : LogsPanel) (width height : Int) : LogsPanel :=
  { p with width := width, height := height }

/-- Go `LogsPanel.SetActive`. -/
def SetActive (p : LogsPanel) (active : Bool) : LogsPanel :=
  { p with active := active }

/-- Go `LogsPanel.SetContainerName`. -/
def SetContainerName (p : LogsPanel) (name : String) : LogsPanel :=
  if p.containerName ≠ name then
    { p with containerName := name, logs := [], offset := 0, autoScroll := true }
  else p

/-- The auto-scroll block shared by `Update` and `AppendLog`. -/
def autoScrollStep (p : LogsPanel) : LogsPanel :=
  if p.autoScroll then
    let visibleLines := wrap64 (p.height - 4)
    if len p.logs > visibleLines then { p with offset := wrap64 (len p.logs - visibleLines) }
    else p
  else p

/-- Go `LogsPanel.Update`. -/
def Update (p : LogsPanel) (logs : String) : LogsPanel :=
  autoScrollStep { p with logs := SplitLines logs }

/-- Go `LogsPanel.AppendLog`. -/
def AppendLog (p : LogsPanel) (line : String) : LogsPanel :=
  let p1 := { p with logs := p.logs ++ [line] }
  let p2 := if len p1.logs > 1000 then
      { p1 with logs := p1.logs.drop (p1.logs.length - 1000) } else p1
  autoScrollStep p2

/-- Go `LogsPanel.ScrollUp`. -/
def ScrollUp (p : LogsPanel) : LogsPanel :=
  if p.offset > 0 then { p with offset := p.offset - 1, autoScroll := false } else p

/-- Go `LogsPanel.ScrollDown`. -/
def ScrollDown (p : LogsPanel) : LogsPanel :=
  let visibleLines := wrap64 (p.height - 4)
  let maxOffset0 := wrap64 (len p.logs - visibleLines)
  let maxOffset := if maxOffset0 < 0 then 0 else maxOffset0
  let p1 := if p.offset < maxOffset then { p with offset := p.offset + 1 } else p
  if p1.offset ≥ maxOffset then { p1 with autoScroll := true } else p1

/-- Go `LogsPanel.ScrollToBottom`. -/
def ScrollToBottom (p : LogsPanel) : LogsPanel :=
  let visibleLines := wrap64 (p.height - 4)
  let p1 := if len p.logs > visibleLines then
      { p with offset := wrap64 (len p.logs - visibleLines) } else p
  { p1 with autoScroll := true }

end LogsPanel

/-! ## System snapshot and stats panel (`internal/docker/client.go`, `internal/ui/stats.go`) -/

/-- Go `docker.SystemStats`. -/
structure SystemStats (F : Type) where
  Containers : Int
  ContainersRunning : Int
  ContainersPaused : Int
  ContainersStopped : Int
  Images : Int
  MemoryUsage : Nat
  MemoryLimit : Nat
  CPUUsage : F
deriving DecidableEq, Repr

/-- Go `ui.StatsPanel`.  The two sparklines are objects of the charting library;
of each one the model keeps the size it was given and the values pushed into it,
oldest first. -/
structure StatsPanel (F : Type) where
  width : Int
  height : Int
  stats : Option (SystemStats F)
  active : Bool
  graphWidth : Int
  cpuPushed : List F
  memPushed : List F
  initialized : Bool
deriving DecidableEq, Repr

/-- Go `NewStatsPanel`. -/
def NewStatsPanel {F : Type} : StatsPanel F :=
  { width := 0, height := 0, stats := none, active := false, graphWidth := 0,
    cpuPushed := [], memPushed := [], initialized := false }

namespace StatsPanel

variable {F : Type}

/-- Go `StatsPanel.SetSize`: creates the sparklines on the first call, resizes
them afterwards. -/
def SetSize (p : StatsPanel F) (width height : Int) : StatsPanel F :=
  let graphWidth0 := wrap64 (width - 8)
  let graphWidth := if graphWidth0 < 10 then 10 else graphWidth0
  { p with width := width, height := height, graphWidth := graphWidth, initialized := true }

/-- Go `StatsPanel.SetActive`. -/
def SetActive (p : StatsPanel F) (active : Bool) : StatsPanel F :=
  { p with active := active }

/-- Go `StatsPanel.Update`. -/
def Update [Zero F] [Mul F] [Div F] [NatCast F] (p : StatsPanel F)
    (stats : Option (SystemStats F)) : StatsPanel F :=
  let p1 := { p with stats := stats }
  match stats with
  | some s =>
    if p1.initialized then
      let memPerc : F :=
        if s.MemoryLimit > 0 then
          ((s.MemoryUsage : F) / (s.MemoryLimit : F)) * ((100 : Nat) : F)
        else 0
      { p1 with cpuPushed := p1.cpuPushed ++ [s.CPUUsage], memPushed := p1.memPushed ++ [memPerc] }
    else p1
  | none => p1

end StatsPanel

/-! ## Configuration (`internal/config/config.go`) -/

/-- Go `config.Config`. -/
structure Config where
  RefreshRate : Int
  DefaultView : String
  AutostartList : List String
  LogLines : Int
deriving DecidableEq, Repr

namespace Config

/-- Go `Config.IsAutostart`. -/
def IsAutostart (c : Config) (containerID : String) : Bool :=
  c.AutostartList.any (fun id => id = containerID)

/-- Go `Config.AddAutostart`. -/
def AddAutostart (c : Config) (containerID : String) : Config :=
  if c.AutostartList.any (fun id => id = containerID) then c
  else { c with AutostartList := c.AutostartList ++ [containerID] }

/-- Go `Config.RemoveAutostart`: removes the first occurrence. -/
def RemoveAutostart (c : Config) (containerID : String) : Config :=
  { c with AutostartList := c.AutostartList.erase containerID }

end Config

/-! ## Controller (`internal/ui/app.go`) -/

/-- Go `ui.Panel`. -/
inductive Panel where
  | PanelStats
  | PanelImages
  | PanelContainers
  | PanelLogs
deriving DecidableEq, Repr

/-- Go `ui.Mode`. -/
inductive Mode where
  | ModeNormal
  | ModeFilter
  | ModePullImage
deriving DecidableEq, Repr

/-- The part of the text-input widget (`textinput.Model`) the controller touches. -/
structure TextInput where
  value : String
  focus : Bool
deriving DecidableEq, Repr

namespace TextInput

/-- Widget method `Value`. -/
def Value (t : TextInput) : String := t.value

/-- Widget method `Focus`. -/
def Focus (t : TextInput) : TextInput := { t with focus := true }

/-- Widget method `Blur`. -/
def Blur (t : TextInput) : TextInput := { t with focus := false }

/-- Widget method `SetValue`, used by the controller with the empty string only. -/
def SetValue (t : TextInput) (s : String) : TextInput := { t with value := s }

end TextInput

/-- The messages `App.Update` receives.  A key press is given by its `String()`;
an error by its text; `other` is any message the switch has no case for. -/
inductive Msg (F : Type) where
  | windowSize (width height : Int)
  | key (k : String)
  | tick
  | containers (list : List (ContainerInfo F))
  | containerStats (id : String) (stats : ContainerInfo F)
  | images (list : List ImageInfo)
  | systemStats (stats : Option (SystemStats F))
  | logs (text : String)
  | err (e : String)
  | other
deriving DecidableEq, Repr

/-- The commands the controller hands to the runtime, each a closure in the
source; a command is given by the collaborator call it performs and the
arguments it captured.  `input` is a command returned by the text-input widget. -/
inductive Cmd where
  | tick
  | fetchContainers
  | fetchImages
  | fetchSystemStats
  | fetchContainerStats (id : String)
  | fetchLogs (id : String) (lines : Int)
  | startContainer (id : String)
  | stopContainer (id : String)
  | restartContainer (id : String)
  | removeContainer (id : String) (force : Bool)
  | removeImage (id : String) (force : Bool)
  | setRestartPolicy (id : String) (policy : String)
  | pullImage (ref : String)
  | quit
  | blink
  | input (c : Nat)
deriving DecidableEq, Repr

/-- Go `ui.App`, without the rendered logo and the client handle. -/
structure App (F : Type) where
  width : Int
  height : Int
  statsPanel : StatsPanel F
  imagesPanel : ImagesPanel
  containersPanel : ContainersPanel F
  logsPanel : LogsPanel
  helpBarWidth : Int
  activePanel : Panel
  mode : Mode
  filterInput : TextInput
  pullInput : TextInput
  err : Option String
  config : Config
  containers : List (ContainerInfo F)
  images : List ImageInfo
  systemStats : Option (SystemStats F)
  refreshInterval : Int
deriving DecidableEq, Repr

/-- Go `NewApp`; the refresh interval is kept in milliseconds. -/
def NewApp {F : Type} (cfg : Config) : App F :=
  { width := 0, height := 0, statsPanel := NewStatsPanel, imagesPanel := NewImagesPanel,
    containersPanel := NewContainersPanel, logsPanel := NewLogsPanel, helpBarWidth := 0,
    activePanel := .PanelContainers, mode := .ModeNormal,
    filterInput := { value := "", focus := false },
    pullInput := { value := "", focus := false },
    err := none, config := cfg, containers := [], images := [], systemStats := none,
    refreshInterval := cfg.RefreshRate }

namespace App

variable {F : Type}

/-- Go `App.updatePanelActive`. -/
def updatePanelActive (a : App F) : App F :=
  { a with
    statsPanel := a.statsPanel.SetActive (decide (a.activePanel = .PanelStats)),
    imagesPanel := a.imagesPanel.SetActive (decide (a.activePanel = .PanelImages)),
    containersPanel := a.containersPanel.SetActive (decide (a.activePanel = .PanelContainers)),
    logsPanel := a.logsPanel.SetActive (decide (a.activePanel = .PanelLogs)) }

/-- The height `updatePanelSizes` leaves for the containers and logs panels together. -/
def remainingHeight (a : App F) : Int :=
  let bannerHeight := 6
  let topHeight := 17
  let helpHeight := 1
  let r := wrap64 (wrap64 (wrap64 (a.height - bannerHeight) - topHeight) - helpHeight)
  if r < 2 then 2 else r

/-- The height `updatePanelSizes` gives the containers panel. -/
def containerHeight (a : App F) : Int :=
  let remaining := remainingHeight a
  let containerCount0 := len a.containers
  let containerCount := if containerCount0 < 1 then 1 else containerCount0
  let containerHeight0 := containerCount + 5
  let minLogsHeight := if 5 > remaining - 1 then remaining - 1 else 5
  let maxContainerHeight := remaining - minLogsHeight
  let containerHeight1 :=
    if containerHeight0 > maxContainerHeight then maxContainerHeight else containerHeight0
  if containerHeight1 < 1 then 1 else containerHeight1

/-- The height `updatePanelSizes` gives the logs panel. -/
def logsHeight (a : App F) : Int :=
  let l := remainingHeight a - containerHeight a
  if l < 1 then 1 else l

/-- Go `App.updatePanelSizes`; Go's `/` on `int` truncates toward zero. -/
def updatePanelSizes (a : App F) : App F :=
  let topHeight := 17
  let statsWidth := Int.tdiv a.width 2
  let imagesWidth := a.width - statsWidth
  updatePanelActive
    { a with
      statsPanel := a.statsPanel.SetSize statsWidth topHeight,
      imagesPanel := a.imagesPanel.SetSize imagesWidth topHeight,
      containersPanel := a.containersPanel.SetSize a.width (containerHeight a),
      logsPanel := a.logsPanel.SetSize a.width (logsHeight a),
      helpBarWidth := a.width }

/-- Go `App.fetchLogs`: names the logs panel after the selected container and
returns the fetch command, or returns `nil` when nothing is selected. -/
def fetchLogs (lower : Char → Char) (a : App F) : App F × Option Cmd :=
  match a.containersPanel.GetSelected lower with
  | none => (a, none)
  | some selected =>
    ({ a with logsPanel := a.logsPanel.SetContainerName selected.Name },
      some (.fetchLogs selected.ID 100))

/-- Go `App.startSelectedContainer`. -/
def startSelectedContainer (lower : Char → Char) (a : App F) : Option Cmd :=
  match a.containersPanel.GetSelected lower with
  | none => none
  | some selected =>
    if selected.State = "running" then none else some (.startContainer selected.ID)

/-- Go `App.stopSelectedContainer`. -/
def stopSelectedContainer (lower : Char → Char) (a : App F) : Option Cmd :=
  match a.containersPanel.GetSelected lower with
  | none => none
  | some selected =>
    if selected.State ≠ "running" then none else some (.stopContainer selected.ID)

/-- Go `App.restartSelectedContainer`. -/
def restartSelectedContainer (lower : Char → Char) (a : App F) : Option Cmd :=
  match a.containersPanel.GetSelected lower with
  | none => none
  | some selected => some (.restartContainer selected.ID)

/-- Go `App.deleteSelectedContainer`: `force` is `selected.State == "running"`. -/
def deleteSelectedContainer (lower : Char → Char) (a : App F) : Option Cmd :=
  match a.containersPanel.GetSelected lower with
  | none => none
  | some selected =>
    some (.removeContainer selected.ID (decide (selected.State = "running")))

/-- Go `App.deleteSelectedImage`. -/
def deleteSelectedImage (lower : Char → Char) (a : App F) : Option Cmd :=
  match a.imagesPanel.GetSelected lower with
  | none => none
  | some selected => some (.removeImage selected.ID false)

/-- Go `App.toggleAutostart`; the policy is read from the configuration as the
toggle leaves it. -/
def toggleAutostart (lower : Char → Char) (a : App F) : App F × Option Cmd :=
  match a.containersPanel.GetSelected lower with
  | none => (a, none)
  | some selected =>
    let config :=
      if a.config.IsAutostart selected.Name then a.config.RemoveAutostart selected.Name
      else a.config.AddAutostart selected.Name
    let policy := if config.IsAutostart selected.Name then "always" else "no"
    ({ a with config := config }, some (.setRestartPolicy selected.ID policy))

/-- Go `App.pullImage`. -/
def pullImage (imageName : String) : Option Cmd :=
  if imageName = "" then none else some (.pullImage imageName)

/-- Go `App.cyclePanel`. -/
def cyclePanel (a : App F) : App F :=
  let next : Panel :=
    match a.activePanel with
    | .PanelContainers => .PanelImages
    | .PanelImages => .PanelLogs
    | .PanelLogs => .PanelContainers
    | .PanelStats => .PanelStats
  updatePanelActive { a with activePanel := next }

/-- Go `App.handleDown`. -/
def handleDown (lower : Char → Char) (a : App F) : App F :=
  match a.activePanel with
  | .PanelContainers => { a with containersPanel := a.containersPanel.MoveDown lower }
  | .PanelImages => { a with imagesPanel := a.imagesPanel.MoveDown lower }
  | .PanelLogs => { a with logsPanel := a.logsPanel.ScrollDown }
  | .PanelStats => a

/-- Go `App.handleUp`. -/
def handleUp (a : App F) : App F :=
  match a.activePanel with
  | .PanelContainers => { a with containersPanel := a.containersPanel.MoveUp }
  | .PanelImages => { a with imagesPanel := a.imagesPanel.MoveUp }
  | .PanelLogs => { a with logsPanel := a.logsPanel.ScrollUp }
  | .PanelStats => a

/-- Go `App.handleKeyPress`. -/
def handleKeyPress (lower : Char → Char) (a : App F) (k : String) : App F × Option Cmd :=
  if a.mode = .ModeFilter then
    if k = "enter" then
      let filter := a.filterInput.Value
      let a1 :=
        if a.activePanel = .PanelContainers then
          { a with containersPanel := a.containersPanel.SetFilter filter }
        else if a.activePanel = .PanelImages then
          { a with imagesPanel := a.imagesPanel.SetFilter filter }
        else a
      ({ a1 with mode := .ModeNormal, filterInput := a1.filterInput.Blur }, none)
    else if k = "esc" then
      ({ a with mode := .ModeNormal, filterInput := (a.filterInput.Blur).SetValue "" }, none)
    else (a, none)
  else if a.mode = .ModePullImage then
    if k = "enter" then
      let imageName := a.pullInput.Value
      ({ a with mode := .ModeNormal, pullInput := (a.pullInput.Blur).SetValue "" },
        pullImage imageName)
    else if k = "esc" then
      ({ a with mode := .ModeNormal, pullInput := (a.pullInput.Blur).SetValue "" }, none)
    else (a, none)
  else if k = "q" ∨ k = "ctrl+c" then (a, some .quit)
  else if k = "tab" then (cyclePanel a, none)
  else if k = "j" ∨ k = "down" then (handleDown lower a, none)
  else if k = "k" ∨ k = "up" then (handleUp a, none)
  else if k = "s" then
    if a.activePanel = .PanelContainers then (a, startSelectedContainer lower a) else (a, none)
  else if k = "x" then
    if a.activePanel = .PanelContainers then (a, stopSelectedContainer lower a) else (a, none)
  else if k = "r" then
    if a.activePanel = .PanelContainers then (a, restartSelectedContainer lower a) else (a, none)
  else if k = "d" then
    if a.activePanel = .PanelContainers then (a, deleteSelectedContainer lower a)
    else if a.activePanel = .PanelImages then (a, deleteSelectedImage lower a)
    else (a, none)
  else if k = "a" then
    if a.activePanel = .PanelContainers then toggleAutostart lower a else (a, none)
  else if k = "p" then
    if a.activePanel = .PanelImages then
      ({ a with mode := .ModePullImage, pullInput := a.pullInput.Focus }, some .blink)
    else (a, none)
  else if k = "enter" then
    if a.activePanel = .PanelContainers then
      fetchLogs lower (updatePanelActive { a with activePanel := .PanelLogs })
    else (a, none)
  else if k = "esc" then
    if a.activePanel = .PanelLogs then
      (updatePanelActive { a with activePanel := .PanelContainers }, none)
    else (a, none)
  else if k = "/" then
    ({ a with mode := .ModeFilter, filterInput := a.filterInput.Focus }, some .blink)
  else if k = "G" then
    if a.activePanel = .PanelLogs then ({ a with logsPanel := a.logsPanel.ScrollToBottom }, none)
    else (a, none)
  else (a, none)

/-- The loop of the `containerStatsMsg` case: the first entry whose id is `id`
takes the six measured fields of `stats`, then the loop is left (`break`). -/
def patchStats (id : String) (stats : ContainerInfo F) :
    List (ContainerInfo F) → List (ContainerInfo F)
  | [] => []
  | c :: rest =>
    if c.ID = id then
      { c with CPUPerc := stats.CPUPerc, MemUsage := stats.MemUsage, MemLimit := stats.MemLimit,
               MemPerc := stats.MemPerc, NetRx := stats.NetRx, NetTx := stats.NetTx } :: rest
    else c :: patchStats id stats rest

/-- The loop of the `systemStatsMsg` case: `totalCPU` and `totalMem` over the
containers whose state is `running`, in list order. -/
def runningTotals [Zero F] [Add F] (containers : List (ContainerInfo F)) : F × Nat :=
  containers.foldl
    (fun (acc : F × Nat) c =>
      if c.State = "running" then (acc.1 + c.CPUPerc, wrapU64 (acc.2 + c.MemUsage)) else acc)
    (0, 0)

/-- The stats fetches of the `tickMsg` case: one per running container. -/
def tickStatsCmds (containers : List (ContainerInfo F)) : List Cmd :=
  containers.foldl
    (fun cmds c => if c.State = "running" then cmds ++ [.fetchContainerStats c.ID] else cmds) []

/-- The `switch` of `App.Update`. -/
def dispatch [Zero F] [Add F] [Mul F] [Div F] [NatCast F] (lower : Char → Char) (a : App F) :
    Msg F → App F × List Cmd
  | .windowSize width height =>
    (updatePanelSizes { a with width := width, height := height }, [])
  | .key k =>
    let r := handleKeyPress lower a k
    (r.1, r.2.toList)
  | .tick =>
    let cmds := [Cmd.tick, Cmd.fetchContainers, Cmd.fetchSystemStats] ++ tickStatsCmds a.containers
    if a.activePanel = .PanelLogs ∨ a.activePanel = .PanelContainers then
      let r := fetchLogs lower a
      (r.1, cmds ++ r.2.toList)
    else (a, cmds)
  | .containers list =>
    let a1 := { a with containers := list, containersPanel := a.containersPanel.Update list }
    ({ updatePanelSizes a1 with err := none }, [])
  | .containerStats id stats =>
    let containers := patchStats id stats a.containers
    ({ a with containers := containers,
              containersPanel := a.containersPanel.Update containers }, [])
  | .images list =>
    ({ a with images := list, imagesPanel := a.imagesPanel.Update list }, [])
  | .systemStats stats =>
    let stats1 :=
      match stats with
      | some s =>
        let totals := runningTotals a.containers
        some { s with CPUUsage := totals.1, MemoryUsage := totals.2 }
      | none => none
    ({ a with systemStats := stats1, statsPanel := a.statsPanel.Update stats1 }, [])
  | .logs text => ({ a with logsPanel := a.logsPanel.Update text }, [])
  | .err e => ({ a with err := some e }, [])
  | .other => (a, [])

/-- Go `App.Update`: the switch, then the message is forwarded to the text input
of the mode the controller is in afterwards.  `inputUpdate` is the widget's own
`Update`, which returns the new widget and possibly a command. -/
def Update [Zero F] [Add F] [Mul F] [Div F] [NatCast F] (lower : Char → Char)
    (inputUpdate : TextInput → Msg F → TextInput × Option Nat) (a : App F) (msg : Msg F) :
    App F × List Cmd :=
  let r := dispatch lower a msg
  let a1 := r.1
  let cmds := r.2
  if a1.mode = .ModeFilter then
    let u := inputUpdate a1.filterInput msg
    ({ a1 with filterInput := u.1 }, cmds ++ (u.2.map Cmd.input).toList)
  else if a1.mode = .ModePullImage then
    let u := inputUpdate a1.pullInput msg
    ({ a1 with pullInput := u.1 }, cmds ++ (u.2.map Cmd.input).toList)
  else (a1, cmds)

end App

/-! ## Cursor window of the containers panel -/

namespace ContainersPanel

variable {F : Type}

/-- The scroll window holds the selection: `offset <= selected < offset + visible_rows`,
with the row count of `View`. -/
def windowOK (p : ContainersPanel F) : Prop :=
  p.offset ≤ p.selected ∧ p.selected < p.offset + viewRows p

instance (p : ContainersPanel F) : Decidable (windowOK p) := by
  unfold windowOK
  infer_instance

/-- The calls that do not pull the window away from the selection: a resize after
which the window still reaches the selection, a list longer than the offset (or
any list while the offset is 0), a move down at a height of at least 6 whose
window end `offset + height - 5` is a Go `int`, and every filter change and move up. -/
def keepsWindow (p : ContainersPanel F) : ContainersOp F → Prop
  | .setSize w h => p.selected < p.offset + viewRows (p.SetSize w h)
  | .update l => p.offset < len l ∨ p.offset = 0
  | .setFilter _ => True
  | .moveUp => True
  | .moveDown => 6 ≤ p.height ∧ p.offset + (p.height - 5) < 2 ^ 63

instance (p : ContainersPanel F) (op : ContainersOp F) : Decidable (keepsWindow p op) := by
  cases op <;> unfold keepsWindow <;> infer_instance

/-- Every call of the sequence satisfies `keepsWindow` in the state it is made in. -/
def keepsWindowAll (lower : Char → Char) : ContainersPanel F → List (ContainersOp F) → Prop
  | _, [] => True
  | p, op :: rest => keepsWindow p op ∧ keepsWindowAll lower (step lower p op) rest

end ContainersPanel

/-! ## The aggregates as the specification words them -/

/-- The containers of a list whose state is `running`, in list order. -/
def runningContainers {F : Type} (l : List (ContainerInfo F)) : List (ContainerInfo F) :=
  l.filter (fun c => decide (c.State = "running"))

/-- The specification's aggregate memory: the sum of `MemUsage` over the running
containers, as a natural number. -/
def specRunningMem {F : Type} (l : List (ContainerInfo F)) : Nat :=
  ((runningContainers l).map (fun c => c.MemUsage)).sum

/-- The specification's aggregate CPU: `CPUPerc` of the running containers added
up in list order, starting from the zero value. -/
def specRunningCPU {F : Type} [Zero F] [Add F] (l : List (ContainerInfo F)) : F :=
  ((runningContainers l).map (fun c => c.CPUPerc)).foldl (fun x y => x + y) 0

/-- The fields a per-container stats message may not touch agree, and an entry
with another id is untouched altogether. -/
def statsFrame {F : Type} (id : String) (c c' : ContainerInfo F) : Prop :=
  c'.ID = c.ID ∧ c'.Name = c.Name ∧ c'.Image = c.Image ∧ c'.Status = c.Status ∧
  c'.State = c.State ∧ c'.Ports = c.Ports ∧ c'.Created = c.Created ∧
  c'.Autostart = c.Autostart ∧ (c.ID ≠ id → c' = c)

/-! ## Sample data -/

/-- A container record with the given identity, image and state and no measurements. -/
def sampleContainer (id name image state : String) : ContainerInfo ℚ :=
  { ID := id, Name := name, Image := image, Status := "", State := state, Ports := "",
    Created := 0, CPUPerc := 0, MemUsage := 0, MemLimit := 0, MemPerc := 0, NetRx := 0,
    NetTx := 0, Autostart := false }

/-- An image record with the given id and tags. -/
def sampleImage (id : String) (tags : List String) : ImageInfo :=
  { ID := id, Tags := tags, Size := 0, Created := 0 }

/-- A text-input widget that ignores the message and returns no command. -/
def idleInput : TextInput → Msg ℚ → TextInput × Option Nat := fun t _ => (t, none)

/-- The default configuration (`config.DefaultConfig`). -/
def DefaultConfig : Config :=
  { RefreshRate := 1000, DefaultView := "containers", AutostartList := [], LogLines := 100 }

/-- A system snapshot as `GetSystemStats` returns it: counts and the memory limit,
usage fields zero. -/
def sampleSystemStats : SystemStats ℚ :=
  { Containers := 1, ContainersRunning := 1, ContainersPaused := 0, ContainersStopped := 0,
    Images := 0, MemoryUsage := 0, MemoryLimit := 1000, CPUUsage := 0 }

namespace App

/-- Handle a sequence of messages, first to last, dropping the commands. -/
def runMsgs {F : Type} [Zero F] [Add F] [Mul F] [Div F] [NatCast F] (lower : Char → Char)
    (inputUpdate : TextInput → Msg F → TextInput × Option Nat) (a : App F)
    (msgs : List (Msg F)) : App F :=
  msgs.foldl (fun s m => (Update lower inputUpdate s m).1) a

end App

/-! ## Autostart marking (`App.fetchContainers`) -/

/-- The test `fetchContainers` uses to mark a container as autostart: the list
holds its id or its name. -/
def countsAsAutostart {F : Type} (cfg : Config) (c : ContainerInfo F) : Bool :=
  cfg.IsAutostart c.ID || cfg.IsAutostart c.Name

/-- The marking loop of `fetchContainers` over a freshly listed slice. -/
def markAutostart {F : Type} (cfg : Config) (containers : List (ContainerInfo F)) :
    List (ContainerInfo F) :=
  containers.map (fun c => { c with Autostart := countsAsAutostart cfg c })

/-! ## Ranges -/

/-- The value is a Go `int`. -/
def isInt64 (x : Int) : Prop := -2 ^ 63 ≤ x ∧ x < 2 ^ 63

instance (x : Int) : Decidable (isInt64 x) := by
  unfold isInt64
  infer_instance

/-- A containers panel of height 7 (two visible rows) holding three containers,
with the cursor on the second row. -/
def twoRowPanel : ContainersPanel ℚ :=
  ContainersPanel.run Char.toLower NewContainersPanel
    [.setSize 80 7,
     .update [sampleContainer "a1" "web" "nginx" "running",
              sampleContainer "b2" "db" "postgres" "running",
              sampleContainer "c3" "cache" "redis" "exited"],
     .moveDown]

/-! ## Log framing (`internal/docker/helpers.go`) -/

/-- A Go string taken as its bytes, each entry a value from 0 to 255. -/
abbrev Bytes := List Nat

/-- The bytes of a string (its UTF-8 encoding). -/
def bytesOf (s : String) : Bytes := s.toUTF8.data.toList.map (fun b => b.toNat)

/-- Split a byte string at every occurrence of the byte `sep`. -/
def splitBytes (sep : Nat) : Bytes → List Bytes
  | [] => [[]]
  | b :: rest =>
    if b = sep then [] :: splitBytes sep rest
    else
      match splitBytes sep rest with
      | [] => [[b]]
      | l :: ls => (b :: l) :: ls

/-- Go `stripLogHeaders`: split at newlines, drop the first 8 bytes of every line
longer than 8 bytes, keep shorter non-empty lines whole, drop empty lines, join
with newlines. -/
def stripLogHeaders (logs : Bytes) : Bytes :=
  let lines := splitBytes 10 logs
  let result := lines.foldl
    (fun result line =>
      if line.length > 8 then result ++ [line.drop 8]
      else if line.length > 0 then result ++ [line]
      else result) []
  List.intercalate [10] result

/-- The frame of the multiplexed log stream as the specification describes it: the
stream id byte, three zero bytes, the payload length as 4 big-endian bytes, then
the payload. -/
def logFrame (stream : Nat) (payload : Bytes) : Bytes :=
  [stream, 0, 0, 0,
    payload.length / 2 ^ 24 % 256, payload.length / 2 ^ 16 % 256,
    payload.length / 2 ^ 8 % 256, payload.length % 256] ++ payload

/-- Every line, with its trailing newline, in a frame of its own; the frames
concatenated. -/
def frameLines (stream : Nat) (lines : List Bytes) : Bytes :=
  (lines.map (fun line => logFrame stream (line ++ [10]))).flatten

/-! ## Line truncation in `LogsPanel.View` (`internal/ui/logs.go`) -/

/-- Go slice expression `s[:k]` on a string: a run-time panic, here `none`, unless
`0 <= k <= len(s)`. -/
def sliceTo (s : Bytes) (k : Int) : Option Bytes :=
  if 0 ≤ k ∧ k ≤ len s then some (s.take k.toNat) else none

/-- Go index expression `s[i]` on a slice: a panic, here `none`, outside the bounds. -/
def indexAt {α : Type} (s : List α) (i : Int) : Option α :=
  if 0 ≤ i ∧ i < len s then s[i.toNat]? else none

namespace LogsPanel

/-- The truncation of one line in the loop of `View`: a line longer than
`maxWidth = width - 6` is cut at `maxWidth - 3` and gets three dots. -/
def truncateLine (p : LogsPanel) (line : Bytes) : Option Bytes :=
  let maxWidth := wrap64 (p.width - 6)
  if len line > maxWidth then
    (sliceTo line (wrap64 (maxWidth - 3))).map (fun s => s ++ [46, 46, 46])
  else some line

/-- The rows the loop of `View` builds, before colouring: the lines from `offset`
on, at most `visibleLines` of them, each truncated; no rows when the panel shows
a placeholder. -/
def viewRows (p : LogsPanel) : Option (List Bytes) :=
  if len p.logs = 0 ∨ p.containerName = "" then some []
  else
    let visibleLines0 := wrap64 (p.height - 4)
    let visibleLines := if visibleLines0 < 1 then 1 else visibleLines0
    let stop := min (len p.logs) (wrap64 (p.offset + visibleLines))
    ((List.range (stop - p.offset).toNat).map (fun (k : Nat) => p.offset + (k : Int))).mapM
      (fun i => (indexAt p.logs i).bind (fun line => truncateLine p (bytesOf line)))

end LogsPanel

/-- A text-input widget that, while it has the focus, appends the character of a
one-character key press to its value, as the text input of the widget library
does for printable keys, and ignores every other message. -/
def typingInput : TextInput → Msg ℚ → TextInput × Option Nat
  | t, .key k => if t.focus ∧ k.length = 1 then ({ t with value := t.value ++ k }, none)
                 else (t, none)
  | t, _ => (t, none)

/-- A logs panel of height 6 (two visible lines) showing four lines of container
`web`, scrolled up by one line from the bottom. -/
def scrolledLogs : LogsPanel :=
  (((NewLogsPanel.SetSize 80 6).SetContainerName "web").Update "a\nb\nc\nd").ScrollUp

/-- A controller after a resize, a list of two running containers and their
stats: 80 and 70 percent CPU, 1500 and 500 bytes of memory. -/
def measuredApp : App ℚ :=
  App.runMsgs Char.toLower idleInput (NewApp DefaultConfig)
    [.windowSize 120 50,
     .containers [sampleContainer "a1" "web" "nginx" "running",
                  sampleContainer "b2" "db" "postgres" "running"],
     .containerStats "a1" { sampleContainer "a1" "web" "nginx" "running" with
        CPUPerc := 80, MemUsage := 1500 },
     .containerStats "b2" { sampleContainer "b2" "db" "postgres" "running" with
        CPUPerc := 70, MemUsage := 500 }]

/-! ## Text graphs (`internal/theme/theme.go`)

Samples are `float64` in the source.  Here the sample type `F` is a linear ordered
field with a floor function: comparisons, subtraction, division and
multiplication are exact, rounding is not modelled.  The conversion `int(f)` is
truncation toward zero.  A grid is its two dimensions and the rune at each
position; reading or writing outside the dimensions is a run-time panic in Go and
`none` here. -/

namespace Theme

/-- The blank rune. -/
def blank : Char := Char.ofNat 32

/-- The rune `─` (U+2500). -/
def glyphFlat : Char := Char.ofNat 0x2500

/-- The rune `│` (U+2502). -/
def glyphBar : Char := Char.ofNat 0x2502

/-- The rune `╭` (U+256D). -/
def glyphArcDownRight : Char := Char.ofNat 0x256D

/-- The rune `╮` (U+256E). -/
def glyphArcDownLeft : Char := Char.ofNat 0x256E

/-- The rune `╯` (U+256F). -/
def glyphArcUpLeft : Char := Char.ofNat 0x256F

/-- The rune `╰` (U+2570). -/
def glyphArcUpRight : Char := Char.ofNat 0x2570

/-- The slice `blocks` of `RenderLineGraph`: blank, then the eight block runes
U+2581 to U+2588. -/
def blocks : List Char :=
  [blank, Char.ofNat 0x2581, Char.ofNat 0x2582, Char.ofNat 0x2583, Char.ofNat 0x2584,
   Char.ofNat 0x2585, Char.ofNat 0x2586, Char.ofNat 0x2587, Char.ofNat 0x2588]

/-- A grid of runes: `cell y x` is `grid[y][x]`, row 0 on top. -/
structure Grid where
  height : Int
  width : Int
  cell : Int → Int → Char

/-- The grid `make` and the initialising loops produce: every rune is `c`. -/
def newGrid (height width : Int) (c : Char) : Grid :=
  { height := height, width := width, cell := fun _ _ => c }

namespace Grid

/-- The position lies inside the grid. -/
def inside (g : Grid) (y x : Int) : Prop := 0 ≤ y ∧ y < g.height ∧ 0 ≤ x ∧ x < g.width

instance (g : Grid) (y x : Int) : Decidable (g.inside y x) := by
  unfold inside
  infer_instance

/-- Read `grid[y][x]`. -/
def get (g : Grid) (y x : Int) : Option Char :=
  if g.inside y x then some (g.cell y x) else none

/-- Write `grid[y][x] = c`. -/
def set (g : Grid) (y x : Int) (c : Char) : Option Grid :=
  if g.inside y x then
    some { g with cell := fun y1 x1 => if y1 = y ∧ x1 = x then c else g.cell y1 x1 }
  else none

/-- The runes of row `y`, the argument of `string(grid[i])` in the rendering loops. -/
def rowRunes (g : Grid) (y : Int) : List Char :=
  (List.range g.width.toNat).map (fun (x : Nat) => g.cell y (x : Int))

/-- The rows the rendering loops write, top row first, up to colouring. -/
def render (g : Grid) : List (List Char) :=
  (List.range g.height.toNat).map (fun (y : Nat) => g.rowRunes (y : Int))

end Grid

/-- Run a loop body over the values of the loop variable, stopping at a panic. -/
def foldOpt {α β : Type} (f : β → α → Option β) : β → List α → Option β
  | b, [] => some b
  | b, a :: rest =>
    match f b a with
    | none => none
    | some b1 => foldOpt f b1 rest

/-- The values of `for v := lo; v <= hi; v++`. -/
def upTo (lo hi : Int) : List Int :=
  (List.range (hi + 1 - lo).toNat).map (fun (k : Nat) => lo + (k : Int))

/-- The values of `for v := hi; v >= lo; v--`. -/
def downTo (hi lo : Int) : List Int :=
  (List.range (hi + 1 - lo).toNat).map (fun (k : Nat) => hi - (k : Int))

/-- The body of the three connector loops: `if grid[dy][x] == ' ' { grid[dy][x] = '│' }`. -/
def fillIfBlank (x : Int) (g : Grid) (dy : Int) : Option Grid :=
  match g.get dy x with
  | none => none
  | some cur => if cur = blank then g.set dy x glyphBar else some g

section Samples

variable {F : Type} [LinearOrderedField F] [FloorRing F]

/-- Go conversion `int(f)`: truncation toward zero. -/
def truncF (f : F) : Int := if 0 ≤ f then ⌊f⌋ else ⌈f⌉

/-- The decimating loop of the resampling: `sampledData[i] = data[i * len(data) / width]`
for the given values of `i`. -/
def decimate (data : List F) (width : Int) : List Int → Option (List F)
  | [] => some []
  | i :: rest =>
    match indexAt data (Int.tdiv (wrap64 (i * len data)) width), decimate data width rest with
    | some v, some vs => some (v :: vs)
    | _, _ => none

/-- The resampling both renderers start with: one sample per column when there are
at least `width` samples, otherwise the samples right-aligned behind
`width - len(data)` columns holding `unset` (`-1` in `RenderSparkline`, `0` in
`RenderLineGraph`). -/
def resample (unset : F) (data : List F) (width : Int) : Option (List F) :=
  if len data ≥ width then
    decimate data width ((List.range width.toNat).map (fun (i : Nat) => (i : Int)))
  else
    let offset := width - len data
    some (List.replicate offset.toNat unset ++ data)

/-- The scan of `RenderSparkline` for `minVal`, `maxVal` and `hasData`. -/
def scanMinMax (sampledData : List F) : F × F × Bool :=
  sampledData.foldl
    (fun (acc : F × F × Bool) val =>
      if val < 0 then acc
      else
        (if val < acc.1 then val else acc.1, if val > acc.2.1 then val else acc.2.1, true))
    (100, 0, false)

/-- The row of one sampled value in `RenderSparkline` (0 is the bottom row), `-1`
for a negative value. -/
def rowOf (minVal rangeVal : F) (height : Int) (val : F) : Int :=
  if val < 0 then -1
  else
    let normalized0 := (val - minVal) / rangeVal
    let normalized1 := if normalized0 < 0 then 0 else normalized0
    let normalized := if normalized1 > 1 then 1 else normalized1
    truncF (normalized * ((height - 1 : Int) : F))

/-- The slice `rows` of `RenderSparkline` for the sampled data: the range is
`maxVal - minVal`, raised to 1. -/
def rowsOf (sampledData : List F) (height : Int) : List Int :=
  let scan := scanMinMax sampledData
  let rangeVal0 := scan.2.1 - scan.1
  let rangeVal := if rangeVal0 < 1 then 1 else rangeVal0
  sampledData.map (rowOf scan.1 rangeVal height)

end Samples

/-- The neighbour of column `x` at column `x1` as the drawing loop reads it: its
row when the guard `inRange` holds and the row is not negative, otherwise the
column's own row. -/
def neighbourRow (rows : List Int) (inRange : Bool) (x1 currRow : Int) : Option Int :=
  if inRange then
    match indexAt rows x1 with
    | none => none
    | some r => if r ≥ 0 then some r else some currRow
  else some currRow

/-- The chain of cases of the drawing loop for one column, the rows of the column
and of its neighbours known. -/
def drawGlyph (height : Int) (grid : Grid) (x prevRow currRow nextRow : Int) : Option Grid :=
  let y := height - 1 - currRow
  if prevRow = currRow ∧ nextRow = currRow then grid.set y x glyphFlat
  else if prevRow < currRow ∧ nextRow < currRow then
    match grid.set y x glyphArcDownLeft with
    | none => none
    | some g1 => foldOpt (fillIfBlank x) g1 (upTo (y + 1) (min (height - 1) (height - 1 - nextRow)))
  else if prevRow > currRow ∧ nextRow > currRow then grid.set y x glyphArcUpRight
  else if prevRow < currRow ∧ nextRow = currRow then grid.set y x glyphArcDownRight
  else if prevRow = currRow ∧ nextRow < currRow then
    match grid.set y x glyphArcDownLeft with
    | none => none
    | some g1 => foldOpt (fillIfBlank x) g1 (upTo (y + 1) (height - 1 - nextRow))
  else if prevRow > currRow ∧ nextRow = currRow then grid.set y x glyphArcUpLeft
  else if prevRow = currRow ∧ nextRow > currRow then
    match grid.set y x glyphArcUpRight with
    | none => none
    | some g1 => foldOpt (fillIfBlank x) g1 (downTo (y - 1) (height - 1 - nextRow))
  else if prevRow < currRow ∧ nextRow > currRow then grid.set y x glyphBar
  else if prevRow > currRow ∧ nextRow < currRow then grid.set y x glyphBar
  else grid.set y x glyphFlat

/-- The body of the drawing loop of `RenderSparkline` for column `x`. -/
def drawColumn (height width : Int) (rows : List Int) (grid : Grid) (x : Int) : Option Grid :=
  match indexAt rows x with
  | none => none
  | some currRow =>
    if currRow < 0 then some grid
    else
      match neighbourRow rows (decide (x > 0)) (x - 1) currRow,
            neighbourRow rows (decide (x < width - 1)) (x + 1) currRow with
      | some prevRow, some nextRow => drawGlyph height grid x prevRow currRow nextRow
      | _, _ => none

/-- Column `x` of the line graph drawn alone: the body of the drawing loop run on
a blank grid one column wide, with the rows of column `x` and its neighbours. -/
def columnAlone (width : Int) (rows : List Int) (x : Int) : Option Grid :=
  match indexAt rows x with
  | none => none
  | some currRow =>
    if currRow < 0 then some (newGrid 3 1 blank)
    else
      match neighbourRow rows (decide (x > 0)) (x - 1) currRow,
            neighbourRow rows (decide (x < width - 1)) (x + 1) currRow with
      | some prevRow, some nextRow => drawGlyph 3 (newGrid 3 1 blank) 0 prevRow currRow nextRow
      | _, _ => none

/-- The drawing loop of `RenderSparkline` over all columns of a blank grid. -/
def sparkDraw (rows : List Int) (width : Int) : Option Grid :=
  foldOpt (drawColumn 3 width rows) (newGrid 3 width blank)
    ((List.range width.toNat).map (fun (i : Nat) => (i : Int)))

section Samples

variable {F : Type} [LinearOrderedField F] [FloorRing F]

/-- Go `RenderSparkline`, up to colouring: the grid whose rows are rendered. -/
def RenderSparkline (data : List F) (width0 : Int) : Option Grid :=
  let height : Int := 3
  let width := if width0 < 1 then 1 else width0
  if len data = 0 then some (newGrid height width glyphFlat)
  else
    match resample (-1 : F) data width with
    | none => none
    | some sampledData =>
      if (scanMinMax sampledData).2.2 = false then some (newGrid height width blank)
      else sparkDraw (rowsOf sampledData height) width

/-- The body of the drawing loop of `RenderLineGraph` for column `x` and its value. -/
def fillColumn (height : Int) (grid : Grid) (x : Int) (val : F) : Option Grid :=
  if val ≤ 0 then some grid
  else
    let normalizedVal0 := val / 100
    let normalizedVal := if normalizedVal0 > 1 then 1 else normalizedVal0
    let totalHeight := normalizedVal * (height : F)
    let fullRows := truncF totalHeight
    let partialAmount := totalHeight - (fullRows : F)
    match foldOpt (fun g y => g.set y x (Char.ofNat 0x2588)) grid
        (downTo (height - 1) (max (height - fullRows) 0)) with
    | none => none
    | some g1 =>
      if fullRows < height ∧ partialAmount > 0 then
        let blockIndex := truncF (partialAmount * 8)
        if blockIndex > 0 then
          let y := height - 1 - fullRows
          if y ≥ 0 then
            match indexAt blocks blockIndex with
            | none => none
            | some b => g1.set y x b
          else some g1
        else some g1
      else some g1

/-- The drawing loop of `RenderLineGraph` over the sampled values, `x` counting
from the given column. -/
def fillColumns (height : Int) : Grid → Int → List F → Option Grid
  | grid, _, [] => some grid
  | grid, x, val :: rest =>
    match fillColumn height grid x val with
    | none => none
    | some g1 => fillColumns height g1 (x + 1) rest

/-- Go `RenderLineGraph`, up to colouring: the grid whose rows are rendered. -/
def RenderLineGraph (data : List F) (width0 height0 : Int) : Option Grid :=
  let height := if height0 < 1 then 1 else height0
  let width := if width0 < 1 then 1 else width0
  let grid := newGrid height width blank
  if len data = 0 then some grid
  else
    match resample (0 : F) data width with
    | none => none
    | some sampledData => fillColumns height grid 0 sampledData

end Samples

/-! ### Columns of a grid

The drawing loops of both renderers write to the column of the loop variable
only. The relation below ties a grid to a one-column grid that shows one of its
columns; the theorems use it to reduce a run of a loop body on the whole grid to
the run on a single blank column. -/

/-- The one-column grid `s` shows column `x` of `g`, and `g` differs from `g0` in
column `x` at most. -/
structure Sim (x : Int) (g0 g s : Grid) : Prop where
  height_eq : s.height = g.height
  width_one : s.width = 1
  x_lo : 0 ≤ x
  x_hi : x < g.width
  column : ∀ y, s.cell y 0 = g.cell y x
  height0 : g.height = g0.height
  width0 : g.width = g0.width
  frame : ∀ y x1, x1 ≠ x → g.cell y x1 = g0.cell y x1

/-- Two runs of a loop body panic together or end in grids related by `Sim`. -/
def SimOpt (x : Int) (g0 : Grid) : Option Grid → Option Grid → Prop
  | some g, some s => Sim x g0 g s
  | none, none => True
  | _, _ => False

end Theme

end Dktop
/-! # Theorems -/

set_option maxRecDepth 1000000

namespace Dktop

theorem wrap64_of_range {x : Int} (h1 : -2 ^ 63 ≤ x) (h2 : x < 2 ^ 63) : wrap64 x = x := by
  unfold wrap64
  omega

theorem foldl_append_filter {α : Type} (q : α → Bool) (l acc : List α) :
    l.foldl (fun filtered c => if q c then filtered ++ [c] else filtered) acc
      = acc ++ l.filter q := by
  induction l generalizing acc with
  | nil => simp
  | cons x xs ih =>
    simp only [List.foldl_cons, ih]
    by_cases hx : q x = true
    · simp [hx, List.filter_cons]
    · simp [hx, List.filter_cons]

theorem containsChars_nil (s : List Char) : containsChars s [] = true := by
  cases s <;> simp [containsChars, List.isPrefixOf]

theorem containsChars_iff_infix (s sub : List Char) :
    containsChars s sub = true ↔ sub <:+: s := by
  induction s with
  | nil => cases sub <;> simp [containsChars]
  | cons c rest ih =>
    simp only [containsChars, Bool.or_eq_true, ih, List.infix_cons_iff,
      List.isPrefixOf_iff_prefix]

namespace ContainersPanel
variable {F : Type}

theorem getFiltered_eq_filter (lower : Char → Char) (p : ContainersPanel F) :
    GetFiltered lower p = p.containers.filter (rowMatches lower (ToLower lower p.filter)) := by
  unfold GetFiltered
  by_cases hf : p.filter = ""
  · have hall : ∀ c : ContainerInfo F, rowMatches lower (ToLower lower "") c = true := by
      intro c
      have h0 : (ToLower lower "").data = [] := rfl
      simp [rowMatches, Contains, h0, containsChars_nil]
    rw [if_pos hf, hf]
    exact (List.filter_eq_self.mpr (fun c _ => hall c)).symm
  · rw [if_neg hf]
    simp [foldl_append_filter]

theorem update_containers (p : ContainersPanel F) (L : List (ContainerInfo F)) :
    (p.Update L).containers = L := by
  unfold Update
  simp only
  split_ifs <;> rfl

theorem update_filter (p : ContainersPanel F) (L : List (ContainerInfo F)) :
    (p.Update L).filter = p.filter := by
  unfold Update
  simp only
  split_ifs <;> rfl

theorem update_offset (p : ContainersPanel F) (L : List (ContainerInfo F)) :
    (p.Update L).offset = p.offset := by
  unfold Update
  simp only
  split_ifs <;> rfl

theorem update_height (p : ContainersPanel F) (L : List (ContainerInfo F)) :
    (p.Update L).height = p.height := by
  unfold Update
  simp only
  split_ifs <;> rfl

theorem update_selected (p : ContainersPanel F) (L : List (ContainerInfo F)) :
    (p.Update L).selected = max 0 (min p.selected (len L - 1)) := by
  unfold Update
  simp only [max_def, min_def]
  split_ifs <;> dsimp only at * <;> omega

/-- C2: with no filter set, `Update L` followed by `GetSelected` returns `nil` exactly
when `L` is empty; otherwise it returns the element of `L` at the old selection
clamped into `[0, len(L)-1]`, which for a non-negative old selection is
`min(old selected, len(L)-1)`: the selection is clamped, not reset. -/
theorem update_then_getSelected (lower : Char → Char) (p : ContainersPanel F)
    (L : List (ContainerInfo F)) (hf : p.filter = "") :
    ((p.Update L).GetSelected lower = none ↔ L = []) ∧
    (L ≠ [] →
      0 ≤ max 0 (min p.selected (len L - 1)) ∧ max 0 (min p.selected (len L - 1)) < len L ∧
      (p.Update L).selected = max 0 (min p.selected (len L - 1)) ∧
      (p.Update L).GetSelected lower = L[(max 0 (min p.selected (len L - 1))).toNat]? ∧
      (0 ≤ p.selected → max 0 (min p.selected (len L - 1)) = min p.selected (len L - 1))) := by
  have hfilt : GetFiltered lower (p.Update L) = L := by
    unfold GetFiltered
    rw [update_filter, if_pos hf, update_containers]
  have hsel := update_selected p L
  have hget : (p.Update L).GetSelected lower =
      if 0 ≤ (p.Update L).selected ∧ (p.Update L).selected < len L then
        L[(p.Update L).selected.toNat]? else none := by
    unfold GetSelected
    simp only [hfilt]
  have hlen : len L = (L.length : Int) := rfl
  constructor
  · constructor
    · intro hnone
      by_contra hne
      have hpos : 0 < L.length := List.length_pos.mpr hne
      rw [hget, if_pos (by rw [hsel]; omega)] at hnone
      rw [List.getElem?_eq_none_iff] at hnone
      rw [hsel] at hnone
      omega
    · intro hnil
      subst hnil
      rw [hget, if_neg]
      rw [hsel]
      simp [len]
  · intro hne
    have hpos : 0 < L.length := List.length_pos.mpr hne
    refine ⟨by omega, by omega, hsel, ?_, by omega⟩
    rw [hget, if_pos (by rw [hsel]; omega), hsel]

/-- C2 (witness): a panel with no filter whose selection is 2, refreshed with a
list of two containers, selects the second one. -/
theorem update_then_getSelected_witness :
    (run Char.toLower (NewContainersPanel : ContainersPanel ℚ)
        [.update [sampleContainer "a1" "web" "nginx" "running",
                  sampleContainer "b2" "db" "postgres" "running",
                  sampleContainer "c3" "cache" "redis" "exited"],
         .moveDown, .moveDown]).filter = "" ∧
    ((run Char.toLower (NewContainersPanel : ContainersPanel ℚ)
        [.update [sampleContainer "a1" "web" "nginx" "running",
                  sampleContainer "b2" "db" "postgres" "running",
                  sampleContainer "c3" "cache" "redis" "exited"],
         .moveDown, .moveDown]).Update
        [sampleContainer "a1" "web" "nginx" "running",
         sampleContainer "b2" "db" "postgres" "running"]).GetSelected Char.toLower
      = some (sampleContainer "b2" "db" "postgres" "running") :=
  ⟨by decide,
    (((update_then_getSelected Char.toLower
        (run Char.toLower (NewContainersPanel : ContainersPanel ℚ)
          [.update [sampleContainer "a1" "web" "nginx" "running",
                    sampleContainer "b2" "db" "postgres" "running",
                    sampleContainer "c3" "cache" "redis" "exited"],
           .moveDown, .moveDown])
        [sampleContainer "a1" "web" "nginx" "running",
         sampleContainer "b2" "db" "postgres" "running"] (by decide)).2 (by decide)).2.2.2.1).trans
      (by decide)⟩

theorem viewRows_eq (p : ContainersPanel F) :
    viewRows p = if wrap64 (p.height - 5) < 1 then 1 else wrap64 (p.height - 5) := rfl

theorem viewRows_pos (p : ContainersPanel F) : 1 ≤ viewRows p := by
  rw [viewRows_eq]
  split_ifs <;> omega

theorem moveUp_height (p : ContainersPanel F) : (MoveUp p).height = p.height := by
  unfold MoveUp
  simp only
  split_ifs <;> rfl

theorem moveUp_selected (p : ContainersPanel F) :
    (MoveUp p).selected = if p.selected > 0 then p.selected - 1 else p.selected := by
  unfold MoveUp
  simp only
  split_ifs <;> rfl

theorem moveUp_offset (p : ContainersPanel F) :
    (MoveUp p).offset =
      if p.selected > 0 ∧ p.selected - 1 < p.offset then p.selected - 1 else p.offset := by
  unfold MoveUp
  simp only
  by_cases h1 : p.selected > 0
  · by_cases h2 : p.selected - 1 < p.offset
    · rw [if_pos h1, if_pos h2, if_pos ⟨h1, h2⟩]
    · rw [if_pos h1, if_neg h2, if_neg (fun h => h2 h.2)]
  · rw [if_neg h1, if_neg (fun h => h1 h.1)]

theorem moveDown_height (lower : Char → Char) (p : ContainersPanel F) :
    (MoveDown lower p).height = p.height := by
  unfold MoveDown
  simp only
  split_ifs <;> rfl

theorem moveDown_selected (lower : Char → Char) (p : ContainersPanel F) :
    (MoveDown lower p).selected =
      if p.selected < len (GetFiltered lower p) - 1 then p.selected + 1 else p.selected := by
  unfold MoveDown
  simp only
  split_ifs <;> rfl

theorem moveDown_offset (lower : Char → Char) (p : ContainersPanel F) :
    (MoveDown lower p).offset =
      if p.selected < len (GetFiltered lower p) - 1 ∧
          p.selected + 1 ≥ wrap64 (p.offset + wrap64 (p.height - 5)) then
        wrap64 (wrap64 (p.selected + 1 - wrap64 (p.height - 5)) + 1)
      else p.offset := by
  unfold MoveDown
  simp only
  by_cases h1 : p.selected < len (GetFiltered lower p) - 1
  · by_cases h2 : p.selected + 1 ≥ wrap64 (p.offset + wrap64 (p.height - 5))
    · rw [if_pos h1, if_pos h2, if_pos ⟨h1, h2⟩]
    · rw [if_pos h1, if_neg h2, if_neg (fun h => h2 h.2)]
  · rw [if_neg h1, if_neg (fun h => h1 h.1)]

/-- One guarded call keeps the offset non-negative and the selection in the window. -/
theorem windowInv_step (lower : Char → Char) (p : ContainersPanel F) (op : ContainersOp F)
    (h0 : 0 ≤ p.offset) (hw : windowOK p) (hk : keepsWindow p op) :
    0 ≤ (step lower p op).offset ∧ windowOK (step lower p op) := by
  unfold windowOK at hw ⊢
  obtain ⟨hw1, hw2⟩ := hw
  have hpos := viewRows_pos p
  cases op with
  | setSize w h =>
    simp only [step, keepsWindow] at hk ⊢
    exact ⟨h0, hw1, hk⟩
  | update l =>
    simp only [step, keepsWindow] at hk ⊢
    have hv : viewRows (p.Update l) = viewRows p := by
      rw [viewRows_eq, viewRows_eq, update_height]
    rw [hv, update_offset, update_selected]
    have hl : 0 ≤ len l := by unfold len; omega
    refine ⟨h0, ?_, ?_⟩ <;> omega
  | setFilter f =>
    simp only [step]
    have hp := viewRows_pos (p.SetFilter f)
    have e1 : (p.SetFilter f).offset = 0 := rfl
    have e2 : (p.SetFilter f).selected = 0 := rfl
    rw [e1, e2]
    refine ⟨le_refl _, le_refl _, ?_⟩
    omega
  | moveUp =>
    simp only [step]
    have hv : viewRows (MoveUp p) = viewRows p := by
      rw [viewRows_eq, viewRows_eq, moveUp_height]
    rw [hv, moveUp_offset, moveUp_selected]
    split_ifs <;> (refine ⟨?_, ?_, ?_⟩) <;> omega
  | moveDown =>
    simp only [step, keepsWindow] at hk ⊢
    obtain ⟨hk1, hk2⟩ := hk
    have e1 : wrap64 (p.height - 5) = p.height - 5 := wrap64_of_range (by omega) (by omega)
    have hvp : viewRows p = p.height - 5 := by
      rw [viewRows_eq, e1]
      split_ifs <;> omega
    have hv : viewRows (MoveDown lower p) = viewRows p := by
      rw [viewRows_eq, viewRows_eq, moveDown_height]
    rw [hv, moveDown_offset, moveDown_selected, e1]
    have e2 : wrap64 (p.offset + (p.height - 5)) = p.offset + (p.height - 5) :=
      wrap64_of_range (by omega) (by omega)
    have e3 : wrap64 (p.selected + 1 - (p.height - 5)) = p.selected + 1 - (p.height - 5) :=
      wrap64_of_range (by omega) (by omega)
    have e4 : wrap64 (p.selected + 1 - (p.height - 5) + 1) = p.selected + 1 - (p.height - 5) + 1 :=
      wrap64_of_range (by omega) (by omega)
    rw [e2, e3, e4]
    split_ifs <;> (refine ⟨?_, ?_, ?_⟩) <;> omega

theorem windowInv_run (lower : Char → Char) (ops : List (ContainersOp F)) :
    ∀ p : ContainersPanel F, 0 ≤ p.offset → windowOK p → keepsWindowAll lower p ops →
      0 ≤ (run lower p ops).offset ∧ windowOK (run lower p ops) := by
  induction ops with
  | nil => intro p h0 hw _; exact ⟨h0, hw⟩
  | cons op rest ih =>
    intro p h0 hw hk
    obtain ⟨hk1, hk2⟩ := hk
    obtain ⟨h0', hw'⟩ := windowInv_step lower p op h0 hw hk1
    exact ih (step lower p op) h0' hw' hk2

/-- C3 (amended): starting from `NewContainersPanel`, the scroll window contains
the selection, `offset <= selected < offset + visible_rows` with the row count
of `View`, after every sequence of calls each of which satisfies `keepsWindow`:
a `SetSize` after which the window still reaches the selection, an `Update`
with a list longer than the offset (or at offset 0), a `MoveDown` at a height of
at least 6, and any `SetFilter` or `MoveUp`. -/
theorem window_holds_on_guarded_calls (lower : Char → Char) (ops : List (ContainersOp F))
    (h : keepsWindowAll lower (NewContainersPanel : ContainersPanel F) ops) :
    windowOK (run lower (NewContainersPanel : ContainersPanel F) ops) := by
  have hnew : windowOK (NewContainersPanel : ContainersPanel F) := by
    constructor <;> simp [NewContainersPanel, viewRows, wrap64]
  exact (windowInv_run lower ops NewContainersPanel (le_refl _) hnew h).2

/-- C3 (counterexample): with two containers in a panel of height 7 the selection
moves down to row 1; shrinking the panel to height 6 leaves one visible row at
offset 0, so `selected < offset + visible_rows` fails. -/
theorem window_lost_after_resize :
    ¬ windowOK (run Char.toLower NewContainersPanel
      [.setSize 80 7,
       .update [sampleContainer "a1" "web" "nginx" "running",
                sampleContainer "b2" "db" "postgres" "running"],
       .moveDown, .setSize 80 6]) := by
  decide

/-- C3 (witness): a sequence using all five calls that satisfies the guard, and
the window property after it. -/
theorem window_holds_on_guarded_calls_witness :
    keepsWindowAll Char.toLower (NewContainersPanel : ContainersPanel ℚ)
      [.setSize 80 7,
       .update [sampleContainer "a1" "web" "nginx" "running",
                sampleContainer "b2" "db" "postgres" "running",
                sampleContainer "c3" "cache" "redis" "exited"],
       .moveDown, .moveDown, .moveUp, .setFilter "re", .setSize 80 6, .update []] ∧
    windowOK (run Char.toLower (NewContainersPanel : ContainersPanel ℚ)
      [.setSize 80 7,
       .update [sampleContainer "a1" "web" "nginx" "running",
                sampleContainer "b2" "db" "postgres" "running",
                sampleContainer "c3" "cache" "redis" "exited"],
       .moveDown, .moveDown, .moveUp, .setFilter "re", .setSize 80 6, .update []]) :=
  have h : keepsWindowAll Char.toLower (NewContainersPanel : ContainersPanel ℚ)
      [.setSize 80 7,
       .update [sampleContainer "a1" "web" "nginx" "running",
                sampleContainer "b2" "db" "postgres" "running",
                sampleContainer "c3" "cache" "redis" "exited"],
       .moveDown, .moveDown, .moveUp, .setFilter "re", .setSize 80 6, .update []] := by
    simp only [keepsWindowAll]
    decide
  ⟨h, window_holds_on_guarded_calls Char.toLower _ h⟩

end ContainersPanel

namespace ImagesPanel

/-- C5 (fails in the code): an image whose tag and id both contain the filter is
appended twice by `GetFiltered`, once by the tag loop and once by the id test, so
the result is not a sub-list of the images, and filtering the result again with
the same filter does not return it unchanged. -/
theorem imagesPanel_getFiltered_duplicates :
    GetFiltered Char.toLower
        { NewImagesPanel with
          images := [sampleImage "a1b2c3d4e5f6" ["alpine:latest"]], filter := "a" }
      = [sampleImage "a1b2c3d4e5f6" ["alpine:latest"],
         sampleImage "a1b2c3d4e5f6" ["alpine:latest"]] ∧
    GetFiltered Char.toLower
        { NewImagesPanel with
          images := GetFiltered Char.toLower
            { NewImagesPanel with
              images := [sampleImage "a1b2c3d4e5f6" ["alpine:latest"]], filter := "a" },
          filter := "a" }
      ≠ GetFiltered Char.toLower
        { NewImagesPanel with
          images := [sampleImage "a1b2c3d4e5f6" ["alpine:latest"]], filter := "a" } := by
  decide

end ImagesPanel

namespace ContainersPanel

variable {F : Type}

/-- C1 (fails in the code): with the filter `web` set and the second of two matches
selected, a list refresh that removes that container leaves `selected = 1` while
the filtered list has one entry, because `Update` clamps against the unfiltered
length; `GetSelected` then returns `nil` although a row is visible. -/
theorem update_leaves_selection_outside_filtered :
    GetFiltered Char.toLower
        (run Char.toLower NewContainersPanel
          [.update [sampleContainer "a1" "web1" "nginx" "running",
                    sampleContainer "b2" "web2" "nginx" "running",
                    sampleContainer "c3" "db" "postgres" "running"],
           .setFilter "web",
           .moveDown,
           .update [sampleContainer "a1" "web1" "nginx" "running",
                    sampleContainer "c3" "db" "postgres" "running"]])
      = [sampleContainer "a1" "web1" "nginx" "running"] ∧
    (run Char.toLower NewContainersPanel
          [.update [sampleContainer "a1" "web1" "nginx" "running",
                    sampleContainer "b2" "web2" "nginx" "running",
                    sampleContainer "c3" "db" "postgres" "running"],
           .setFilter "web",
           .moveDown,
           .update [sampleContainer "a1" "web1" "nginx" "running",
                    sampleContainer "c3" "db" "postgres" "running"]]).selected = 1 ∧
    GetSelected Char.toLower
        (run Char.toLower NewContainersPanel
          [.update [sampleContainer "a1" "web1" "nginx" "running",
                    sampleContainer "b2" "web2" "nginx" "running",
                    sampleContainer "c3" "db" "postgres" "running"],
           .setFilter "web",
           .moveDown,
           .update [sampleContainer "a1" "web1" "nginx" "running",
                    sampleContainer "c3" "db" "postgres" "running"]]) = none := by
  decide

theorem rowMatches_iff (lower : Char → Char) (f : String) (c : ContainerInfo F) :
    rowMatches lower (ToLower lower f) c = true ↔
      ((ToLower lower f).data <:+: (ToLower lower c.Name).data ∨
       (ToLower lower f).data <:+: (ToLower lower c.Image).data ∨
       (ToLower lower f).data <:+: (ToLower lower c.ID).data) := by
  simp only [rowMatches, Contains, Bool.or_eq_true, containsChars_iff_infix, or_assoc]

/-- C4: `GetFiltered` returns, in list order, exactly the containers whose
lower-cased name, image or id contains the lower-cased filter as a contiguous
substring; filtering the filtered list again with the same filter returns it
unchanged, and the empty filter returns the list itself. -/
theorem getFiltered_spec (lower : Char → Char) (p : ContainersPanel F) :
    GetFiltered lower p = p.containers.filter (rowMatches lower (ToLower lower p.filter)) ∧
    (∀ c : ContainerInfo F, rowMatches lower (ToLower lower p.filter) c = true ↔
      ((ToLower lower p.filter).data <:+: (ToLower lower c.Name).data ∨
       (ToLower lower p.filter).data <:+: (ToLower lower c.Image).data ∨
       (ToLower lower p.filter).data <:+: (ToLower lower c.ID).data)) ∧
    GetFiltered lower { p with containers := GetFiltered lower p } = GetFiltered lower p ∧
    GetFiltered lower { p with filter := "" } = p.containers := by
  refine ⟨getFiltered_eq_filter lower p, rowMatches_iff lower p.filter, ?_, ?_⟩
  · rw [getFiltered_eq_filter lower { p with containers := GetFiltered lower p }]
    simp only
    rw [getFiltered_eq_filter lower p, List.filter_filter]
    simp
  · unfold GetFiltered
    simp

end ContainersPanel

end Dktop

namespace Dktop
namespace App

variable {F : Type}

theorem Update_containers [Zero F] [Add F] [Mul F] [Div F] [NatCast F] (lower : Char → Char)
    (inputUpdate : TextInput → Msg F → TextInput × Option Nat) (a : App F) (msg : Msg F) :
    (Update lower inputUpdate a msg).1.containers = (dispatch lower a msg).1.containers := by
  unfold Update
  simp only
  split_ifs <;> rfl

theorem Update_systemStats [Zero F] [Add F] [Mul F] [Div F] [NatCast F] (lower : Char → Char)
    (inputUpdate : TextInput → Msg F → TextInput × Option Nat) (a : App F) (msg : Msg F) :
    (Update lower inputUpdate a msg).1.systemStats = (dispatch lower a msg).1.systemStats := by
  unfold Update
  simp only
  split_ifs <;> rfl

theorem Update_err [Zero F] [Add F] [Mul F] [Div F] [NatCast F] (lower : Char → Char)
    (inputUpdate : TextInput → Msg F → TextInput × Option Nat) (a : App F) (msg : Msg F) :
    (Update lower inputUpdate a msg).1.err = (dispatch lower a msg).1.err := by
  unfold Update
  simp only
  split_ifs <;> rfl

theorem Update_mode [Zero F] [Add F] [Mul F] [Div F] [NatCast F] (lower : Char → Char)
    (inputUpdate : TextInput → Msg F → TextInput × Option Nat) (a : App F) (msg : Msg F) :
    (Update lower inputUpdate a msg).1.mode = (dispatch lower a msg).1.mode := by
  unfold Update
  simp only
  split_ifs <;> rfl

theorem Update_activePanel [Zero F] [Add F] [Mul F] [Div F] [NatCast F] (lower : Char → Char)
    (inputUpdate : TextInput → Msg F → TextInput × Option Nat) (a : App F) (msg : Msg F) :
    (Update lower inputUpdate a msg).1.activePanel = (dispatch lower a msg).1.activePanel := by
  unfold Update
  simp only
  split_ifs <;> rfl

theorem Update_of_normal [Zero F] [Add F] [Mul F] [Div F] [NatCast F] (lower : Char → Char)
    (inputUpdate : TextInput → Msg F → TextInput × Option Nat) (a : App F) (msg : Msg F)
    (h : (dispatch lower a msg).1.mode = .ModeNormal) :
    Update lower inputUpdate a msg = dispatch lower a msg := by
  unfold Update
  simp only [h]
  simp

theorem handleKeyPress_s (lower : Char → Char) (a : App F) (hm : a.mode = .ModeNormal)
    (hp : a.activePanel = .PanelContainers) :
    handleKeyPress lower a "s" = (a, startSelectedContainer lower a) := by
  unfold handleKeyPress
  simp [hm, hp]

theorem handleKeyPress_x (lower : Char → Char) (a : App F) (hm : a.mode = .ModeNormal)
    (hp : a.activePanel = .PanelContainers) :
    handleKeyPress lower a "x" = (a, stopSelectedContainer lower a) := by
  unfold handleKeyPress
  simp [hm, hp]

theorem handleKeyPress_r (lower : Char → Char) (a : App F) (hm : a.mode = .ModeNormal)
    (hp : a.activePanel = .PanelContainers) :
    handleKeyPress lower a "r" = (a, restartSelectedContainer lower a) := by
  unfold handleKeyPress
  simp [hm, hp]

theorem handleKeyPress_d (lower : Char → Char) (a : App F) (hm : a.mode = .ModeNormal)
    (hp : a.activePanel = .PanelContainers) :
    handleKeyPress lower a "d" = (a, deleteSelectedContainer lower a) := by
  unfold handleKeyPress
  simp [hm, hp]

end App
end Dktop

namespace Dktop
namespace App

variable {F : Type}

/-! ### Commands on the selected container -/

theorem getSelected_some_iff (lower : Char → Char) (p : ContainersPanel F) (c : ContainerInfo F) :
    p.GetSelected lower = some c ↔
      (0 ≤ p.selected ∧ p.selected < len (p.GetFiltered lower) ∧
        (p.GetFiltered lower)[p.selected.toNat]? = some c) := by
  unfold ContainersPanel.GetSelected
  simp only
  constructor
  · intro h
    by_cases hr : 0 ≤ p.selected ∧ p.selected < len (p.GetFiltered lower)
    · rw [if_pos hr] at h
      exact ⟨hr.1, hr.2, h⟩
    · rw [if_neg hr] at h
      cases h
  · rintro ⟨h1, h2, h3⟩
    rw [if_pos ⟨h1, h2⟩]
    exact h3

theorem getSelected_none_iff (lower : Char → Char) (p : ContainersPanel F) :
    p.GetSelected lower = none ↔
      ¬ (0 ≤ p.selected ∧ p.selected < len (p.GetFiltered lower)) := by
  unfold ContainersPanel.GetSelected
  simp only
  constructor
  · intro h hr
    rw [if_pos hr, List.getElem?_eq_none_iff] at h
    unfold len at hr
    omega
  · intro hr
    rw [if_neg hr]

/-- C6: in Normal mode with the Containers panel active, when the selection indexes
the filtered list at `c`, the key `s` issues `start(c.ID)` exactly when `c.State`
is not `running`, `x` issues `stop(c.ID)` exactly when it is, `r` issues
`restart(c.ID)`, and `d` issues `remove(c.ID, force)` with `force` true exactly
when `c.State` is `running`; when the selection indexes no item, none of the
four keys issues a command.  The controller state is unchanged by all four. -/
theorem container_commands_on_selected [Zero F] [Add F] [Mul F] [Div F] [NatCast F] (lower : Char → Char)
    (inputUpdate : TextInput → Msg F → TextInput × Option Nat) (a : App F)
    (hm : a.mode = .ModeNormal) (hp : a.activePanel = .PanelContainers) :
    (∀ c : ContainerInfo F,
      (0 ≤ a.containersPanel.selected ∧
        a.containersPanel.selected < len (a.containersPanel.GetFiltered lower) ∧
        (a.containersPanel.GetFiltered lower)[a.containersPanel.selected.toNat]? = some c) →
      Update lower inputUpdate a (.key "s")
        = (a, if c.State = "running" then [] else [.startContainer c.ID]) ∧
      Update lower inputUpdate a (.key "x")
        = (a, if c.State = "running" then [.stopContainer c.ID] else []) ∧
      Update lower inputUpdate a (.key "r") = (a, [.restartContainer c.ID]) ∧
      Update lower inputUpdate a (.key "d")
        = (a, [.removeContainer c.ID (decide (c.State = "running"))])) ∧
    (¬ (0 ≤ a.containersPanel.selected ∧
        a.containersPanel.selected < len (a.containersPanel.GetFiltered lower)) →
      Update lower inputUpdate a (.key "s") = (a, []) ∧
      Update lower inputUpdate a (.key "x") = (a, []) ∧
      Update lower inputUpdate a (.key "r") = (a, []) ∧
      Update lower inputUpdate a (.key "d") = (a, [])) := by
  have hs : Update lower inputUpdate a (.key "s") = (a, (startSelectedContainer lower a).toList) := by
    rw [Update_of_normal] <;> simp only [dispatch, handleKeyPress_s lower a hm hp, hm]
  have hx : Update lower inputUpdate a (.key "x") = (a, (stopSelectedContainer lower a).toList) := by
    rw [Update_of_normal] <;> simp only [dispatch, handleKeyPress_x lower a hm hp, hm]
  have hr : Update lower inputUpdate a (.key "r") = (a, (restartSelectedContainer lower a).toList) := by
    rw [Update_of_normal] <;> simp only [dispatch, handleKeyPress_r lower a hm hp, hm]
  have hd : Update lower inputUpdate a (.key "d") = (a, (deleteSelectedContainer lower a).toList) := by
    rw [Update_of_normal] <;> simp only [dispatch, handleKeyPress_d lower a hm hp, hm]
  rw [hs, hx, hr, hd]
  constructor
  · intro c hc
    have hsel : a.containersPanel.GetSelected lower = some c :=
      (getSelected_some_iff lower a.containersPanel c).mpr hc
    simp only [startSelectedContainer, stopSelectedContainer, restartSelectedContainer,
      deleteSelectedContainer, hsel]
    by_cases hrun : c.State = "running" <;> simp [hrun]
  · intro hn
    have hsel : a.containersPanel.GetSelected lower = none :=
      (getSelected_none_iff lower a.containersPanel).mpr hn
    simp only [startSelectedContainer, stopSelectedContainer, restartSelectedContainer,
      deleteSelectedContainer, hsel]
    simp

/-- C6 (witness): the list `[{id abc123, name web, state exited}]` and the key `s`
issue `start("abc123")`. -/
theorem container_commands_on_selected_witness :
    (runMsgs Char.toLower idleInput (NewApp DefaultConfig)
        [.containers [sampleContainer "abc123" "web" "nginx" "exited"]]).mode = .ModeNormal ∧
    (runMsgs Char.toLower idleInput (NewApp DefaultConfig)
        [.containers [sampleContainer "abc123" "web" "nginx" "exited"]]).activePanel
      = .PanelContainers ∧
    Update Char.toLower idleInput
        (runMsgs Char.toLower idleInput (NewApp DefaultConfig)
          [.containers [sampleContainer "abc123" "web" "nginx" "exited"]]) (.key "s")
      = (runMsgs Char.toLower idleInput (NewApp DefaultConfig)
          [.containers [sampleContainer "abc123" "web" "nginx" "exited"]],
         [.startContainer "abc123"]) :=
  ⟨by decide, by decide,
    ((container_commands_on_selected Char.toLower idleInput
      (runMsgs Char.toLower idleInput (NewApp DefaultConfig)
        [.containers [sampleContainer "abc123" "web" "nginx" "exited"]])
      (by decide) (by decide)).1
    (sampleContainer "abc123" "web" "nginx" "exited") (by decide)).1⟩

end App
end Dktop

namespace Dktop
namespace App

variable {F : Type}

/-! ### Aggregates -/

theorem runningTotals_fold [Zero F] [Add F] (l : List (ContainerInfo F)) :
    ∀ (x : F) (m : Nat),
      (l.foldl
        (fun (acc : F × Nat) c =>
          if c.State = "running" then (acc.1 + c.CPUPerc, wrapU64 (acc.2 + c.MemUsage)) else acc)
        (x, m)).1
        = ((runningContainers l).map (fun c => c.CPUPerc)).foldl (fun x y => x + y) x ∧
      (l.foldl
        (fun (acc : F × Nat) c =>
          if c.State = "running" then (acc.1 + c.CPUPerc, wrapU64 (acc.2 + c.MemUsage)) else acc)
        (x, m)).2 % 2 ^ 64
        = (m + ((runningContainers l).map (fun c => c.MemUsage)).sum) % 2 ^ 64 ∧
      (m < 2 ^ 64 →
        (l.foldl
          (fun (acc : F × Nat) c =>
            if c.State = "running" then (acc.1 + c.CPUPerc, wrapU64 (acc.2 + c.MemUsage)) else acc)
          (x, m)).2 < 2 ^ 64) := by
  induction l with
  | nil =>
    intro x m
    simp [runningContainers]
  | cons c rest ih =>
    intro x m
    by_cases hc : c.State = "running"
    · have hf : runningContainers (c :: rest) = c :: runningContainers rest := by
        simp [runningContainers, hc]
      simp only [List.foldl_cons, if_pos hc, hf, List.map_cons, List.sum_cons]
      obtain ⟨h1, h2, h3⟩ := ih (x + c.CPUPerc) (wrapU64 (m + c.MemUsage))
      refine ⟨h1, ?_, ?_⟩
      · rw [h2]
        unfold wrapU64
        omega
      · intro _
        apply h3
        unfold wrapU64
        omega
    · have hf : runningContainers (c :: rest) = runningContainers rest := by
        simp [runningContainers, hc]
      simp only [List.foldl_cons, if_neg hc, hf]
      exact ih x m

theorem runningTotals_eq [Zero F] [Add F] (l : List (ContainerInfo F)) :
    runningTotals l = (specRunningCPU l, specRunningMem l % 2 ^ 64) := by
  obtain ⟨h1, h2, h3⟩ := runningTotals_fold l (0 : F) 0
  have h4 := h3 (by norm_num)
  unfold runningTotals specRunningCPU specRunningMem
  refine Prod.ext h1 ?_
  simp only
  rw [← Nat.mod_eq_of_lt h4, h2, Nat.zero_add]

theorem systemStats_merge [Zero F] [Add F] [Mul F] [Div F] [NatCast F] (lower : Char → Char)
    (inputUpdate : TextInput → Msg F → TextInput × Option Nat) (a : App F)
    (s : SystemStats F) :
    (Update lower inputUpdate a (.systemStats (some s))).1.systemStats
      = some { s with CPUUsage := specRunningCPU a.containers,
                      MemoryUsage := specRunningMem a.containers % 2 ^ 64 } ∧
    (Update lower inputUpdate a (.systemStats (some s))).1.containers = a.containers := by
  rw [Update_systemStats, Update_containers]
  simp only [dispatch, runningTotals_eq]
  exact ⟨trivial, trivial⟩

/-- C7: after `Update` handles a non-nil system-snapshot message the held
snapshot's aggregate memory usage is the sum of `MemUsage` over the containers of
the current list whose state is `running` (in `uint64` arithmetic, hence the exact
sum whenever that fits 64 bits), and its aggregate CPU usage is their `CPUPerc`
added up in list order; for A(running, 10), B(exited, 50), C(running, 5) the
aggregate CPU is 15. -/
theorem systemStats_recomputes_aggregates [Zero F] [Add F] [Mul F] [Div F] [NatCast F] (lower : Char → Char)
    (inputUpdate : TextInput → Msg F → TextInput × Option Nat) (a : App F)
    (s : SystemStats F) :
    (∃ held : SystemStats F,
      (Update lower inputUpdate a (.systemStats (some s))).1.systemStats = some held ∧
      (Update lower inputUpdate a (.systemStats (some s))).1.containers = a.containers ∧
      held.MemoryUsage = specRunningMem a.containers % 2 ^ 64 ∧
      (specRunningMem a.containers < 2 ^ 64 → held.MemoryUsage = specRunningMem a.containers) ∧
      held.CPUUsage = specRunningCPU a.containers) ∧
    (∀ (iu : TextInput → Msg ℚ → TextInput × Option Nat) (b : App ℚ) (t : SystemStats ℚ),
      b.containers =
        [{ sampleContainer "a" "A" "img" "running" with CPUPerc := 10 },
         { sampleContainer "b" "B" "img" "exited" with CPUPerc := 50 },
         { sampleContainer "c" "C" "img" "running" with CPUPerc := 5 }] →
      ((Update lower iu b (.systemStats (some t))).1.systemStats.map (fun h => h.CPUUsage))
        = some 15) := by
  constructor
  · obtain ⟨h1, h2⟩ := systemStats_merge lower inputUpdate a s
    refine ⟨_, h1, h2, rfl, ?_, rfl⟩
    intro hlt
    exact Nat.mod_eq_of_lt hlt
  · intro iu b t hb
    rw [(systemStats_merge lower iu b t).1, hb]
    simp [specRunningCPU, runningContainers, sampleContainer]
    norm_num

/-! ### Messages that change the container list -/

theorem listMsgs_keep_systemStats [Zero F] [Add F] [Mul F] [Div F] [NatCast F]
    (lower : Char → Char) (inputUpdate : TextInput → Msg F → TextInput × Option Nat)
    (a : App F) :
    (∀ l, (Update lower inputUpdate a (.containers l)).1.systemStats = a.systemStats) ∧
    (∀ id st, (Update lower inputUpdate a (.containerStats id st)).1.systemStats
      = a.systemStats) := by
  constructor
  · intro l
    rw [Update_systemStats]
    rfl
  · intro id st
    rw [Update_systemStats]
    rfl

/-- C8 (amended): handling a container-list result or a per-container stats patch
replaces or patches the container list and leaves the held system snapshot, its
aggregate CPU and memory included, exactly as it was; the aggregates become the
sums over the running containers of the updated list when the next
system-snapshot message is handled. -/
theorem list_change_keeps_snapshot [Zero F] [Add F] [Mul F] [Div F] [NatCast F]
    (lower : Char → Char) (inputUpdate : TextInput → Msg F → TextInput × Option Nat)
    (a : App F) :
    (∀ l, (Update lower inputUpdate a (.containers l)).1.systemStats = a.systemStats ∧
      (Update lower inputUpdate a (.containers l)).1.containers = l) ∧
    (∀ id st, (Update lower inputUpdate a (.containerStats id st)).1.systemStats
        = a.systemStats ∧
      (Update lower inputUpdate a (.containerStats id st)).1.containers
        = patchStats id st a.containers) ∧
    (∀ (m : Msg F) (s : SystemStats F),
      (Update lower inputUpdate (Update lower inputUpdate a m).1
          (.systemStats (some s))).1.systemStats
        = some { s with
            CPUUsage := specRunningCPU (Update lower inputUpdate a m).1.containers,
            MemoryUsage := specRunningMem (Update lower inputUpdate a m).1.containers % 2 ^ 64 }) := by
  refine ⟨?_, ?_, ?_⟩
  · intro l
    refine ⟨(listMsgs_keep_systemStats lower inputUpdate a).1 l, ?_⟩
    rw [Update_containers]
    rfl
  · intro id st
    refine ⟨(listMsgs_keep_systemStats lower inputUpdate a).2 id st, ?_⟩
    rw [Update_containers]
    rfl
  · intro m s
    exact (systemStats_merge lower inputUpdate _ s).1

end App
end Dktop

namespace Dktop
namespace App

variable {F : Type}

/-- C8 (counterexample): a controller that listed one running container, merged
its stats (memory 100) and then a system snapshot holds the aggregate memory 100.
After a container-list result with no containers the held aggregate is still 100
while the sum over the updated list is 0; after a stats patch with memory 200 the
held aggregate is still 100 while the sum over the updated list is 200. -/
theorem aggregates_stale_after_list_change :
    ((runMsgs Char.toLower idleInput (NewApp DefaultConfig)
        [.containers [sampleContainer "a1" "web" "nginx" "running"],
         .containerStats "a1" { sampleContainer "a1" "web" "nginx" "running" with
            CPUPerc := 10, MemUsage := 100 },
         .systemStats (some sampleSystemStats),
         .containers []]).systemStats.map (fun s => s.MemoryUsage) = some 100 ∧
     specRunningMem (runMsgs Char.toLower idleInput (NewApp DefaultConfig)
        [.containers [sampleContainer "a1" "web" "nginx" "running"],
         .containerStats "a1" { sampleContainer "a1" "web" "nginx" "running" with
            CPUPerc := 10, MemUsage := 100 },
         .systemStats (some sampleSystemStats),
         .containers []]).containers = 0) ∧
    ((runMsgs Char.toLower idleInput (NewApp DefaultConfig)
        [.containers [sampleContainer "a1" "web" "nginx" "running"],
         .containerStats "a1" { sampleContainer "a1" "web" "nginx" "running" with
            CPUPerc := 10, MemUsage := 100 },
         .systemStats (some sampleSystemStats),
         .containerStats "a1" { sampleContainer "a1" "web" "nginx" "running" with
            CPUPerc := 20, MemUsage := 200 }]).systemStats.map (fun s => s.MemoryUsage)
        = some 100 ∧
     specRunningMem (runMsgs Char.toLower idleInput (NewApp DefaultConfig)
        [.containers [sampleContainer "a1" "web" "nginx" "running"],
         .containerStats "a1" { sampleContainer "a1" "web" "nginx" "running" with
            CPUPerc := 10, MemUsage := 100 },
         .systemStats (some sampleSystemStats),
         .containerStats "a1" { sampleContainer "a1" "web" "nginx" "running" with
            CPUPerc := 20, MemUsage := 200 }]).containers = 200) := by
  decide

/-! ### Frame of the per-container stats patch -/

theorem patchStats_frame (id : String) (st : ContainerInfo F) (l : List (ContainerInfo F)) :
    List.Forall₂ (statsFrame id) l (patchStats id st l) := by
  induction l with
  | nil => exact List.Forall₂.nil
  | cons c rest ih =>
    unfold patchStats
    by_cases hc : c.ID = id
    · rw [if_pos hc]
      refine List.Forall₂.cons ?_ ?_
      · exact ⟨rfl, rfl, rfl, rfl, rfl, rfl, rfl, rfl, fun h => absurd hc h⟩
      · exact List.forall₂_same.mpr
          (fun x _ => ⟨rfl, rfl, rfl, rfl, rfl, rfl, rfl, rfl, fun _ => rfl⟩)
    · rw [if_neg hc]
      exact List.Forall₂.cons ⟨rfl, rfl, rfl, rfl, rfl, rfl, rfl, rfl, fun _ => rfl⟩ ih

theorem patchStats_absent (id : String) (st : ContainerInfo F) (l : List (ContainerInfo F))
    (h : ∀ c ∈ l, c.ID ≠ id) : patchStats id st l = l := by
  induction l with
  | nil => rfl
  | cons c rest ih =>
    unfold patchStats
    rw [if_neg (h c (List.mem_cons_self _ _)),
      ih (fun x hx => h x (List.mem_cons_of_mem _ hx))]

/-- C9: handling a per-container stats message leaves every entry of the container
list in place with its id, name, image, status, state, ports, creation time and
autostart flag, and leaves every entry with another id untouched; the current
error, the mode and the active panel are unchanged, and when no entry has the
message's id the container list is unchanged as well. -/
theorem containerStats_frame [Zero F] [Add F] [Mul F] [Div F] [NatCast F]
    (lower : Char → Char) (inputUpdate : TextInput → Msg F → TextInput × Option Nat)
    (a : App F) (id : String) (st : ContainerInfo F) :
    List.Forall₂ (statsFrame id) a.containers
      (Update lower inputUpdate a (.containerStats id st)).1.containers ∧
    (Update lower inputUpdate a (.containerStats id st)).1.err = a.err ∧
    (Update lower inputUpdate a (.containerStats id st)).1.mode = a.mode ∧
    (Update lower inputUpdate a (.containerStats id st)).1.activePanel = a.activePanel ∧
    ((∀ c ∈ a.containers, c.ID ≠ id) →
      (Update lower inputUpdate a (.containerStats id st)).1.containers = a.containers) := by
  have hc : (Update lower inputUpdate a (.containerStats id st)).1.containers
      = patchStats id st a.containers := by
    rw [Update_containers]
    rfl
  refine ⟨?_, ?_, ?_, ?_, ?_⟩
  · rw [hc]
    exact patchStats_frame id st a.containers
  · rw [Update_err]
    rfl
  · rw [Update_mode]
    rfl
  · rw [Update_activePanel]
    rfl
  · intro h
    rw [hc, patchStats_absent id st a.containers h]

/-- C10 (counterexample): from a fresh controller, the list `[a1]` followed by a
stats result for `a1` leaves the patched entry, the stats result followed by the
list leaves the entry as listed; the two container lists differ. -/
theorem list_and_stats_do_not_commute :
    (runMsgs Char.toLower idleInput (NewApp DefaultConfig)
        [.containers [sampleContainer "a1" "web" "nginx" "running"],
         .containerStats "a1" { sampleContainer "a1" "web" "nginx" "running" with
            CPUPerc := 10, MemUsage := 100 }]).containers
    ≠ (runMsgs Char.toLower idleInput (NewApp DefaultConfig)
        [.containerStats "a1" { sampleContainer "a1" "web" "nginx" "running" with
            CPUPerc := 10, MemUsage := 100 },
         .containers [sampleContainer "a1" "web" "nginx" "running"]]).containers := by
  decide

/-- C10 (amended): handling the list message then the stats message leaves the
message's list with the stats patched into its first entry of that id; handling
the stats message then the list message leaves the message's list as received;
so the two orders leave the same container list whenever the list message has no
entry with the stats message's id. -/
theorem list_stats_orders [Zero F] [Add F] [Mul F] [Div F] [NatCast F]
    (lower : Char → Char) (inputUpdate : TextInput → Msg F → TextInput × Option Nat)
    (a : App F) (l : List (ContainerInfo F)) (id : String) (st : ContainerInfo F) :
    (Update lower inputUpdate (Update lower inputUpdate a (.containers l)).1
        (.containerStats id st)).1.containers = patchStats id st l ∧
    (Update lower inputUpdate (Update lower inputUpdate a (.containerStats id st)).1
        (.containers l)).1.containers = l ∧
    ((∀ c ∈ l, c.ID ≠ id) →
      (Update lower inputUpdate (Update lower inputUpdate a (.containers l)).1
          (.containerStats id st)).1.containers
        = (Update lower inputUpdate (Update lower inputUpdate a (.containerStats id st)).1
          (.containers l)).1.containers) := by
  have h1 : (Update lower inputUpdate (Update lower inputUpdate a (.containers l)).1
        (.containerStats id st)).1.containers = patchStats id st l := by
    rw [Update_containers]
    show patchStats id st (Update lower inputUpdate a (.containers l)).1.containers = _
    rw [Update_containers]
    rfl
  have h2 : (Update lower inputUpdate (Update lower inputUpdate a (.containerStats id st)).1
        (.containers l)).1.containers = l := by
    rw [Update_containers]
    rfl
  refine ⟨h1, h2, ?_⟩
  intro hl
  rw [h1, h2, patchStats_absent id st l hl]

end App
end Dktop

namespace Dktop
namespace App

variable {F : Type}

/-! ### Errors -/

/-- C11: handling a fetch-error message sets the current error to that error,
handling a container-list result clears it, and handling an image-list result, a
system-snapshot result (nil or not), a per-container stats result or a log result
leaves the current error as it was. -/
theorem current_error_after_message [Zero F] [Add F] [Mul F] [Div F] [NatCast F]
    (lower : Char → Char) (inputUpdate : TextInput → Msg F → TextInput × Option Nat)
    (a : App F) :
    (∀ e, (Update lower inputUpdate a (.err e)).1.err = some e) ∧
    (∀ l, (Update lower inputUpdate a (.containers l)).1.err = none) ∧
    (∀ l, (Update lower inputUpdate a (.images l)).1.err = a.err) ∧
    (∀ s, (Update lower inputUpdate a (.systemStats s)).1.err = a.err) ∧
    (∀ id st, (Update lower inputUpdate a (.containerStats id st)).1.err = a.err) ∧
    (∀ t, (Update lower inputUpdate a (.logs t)).1.err = a.err) := by
  refine ⟨?_, ?_, ?_, ?_, ?_, ?_⟩ <;> intros <;> rw [Update_err] <;> rfl

/-! ### Timer tick -/

theorem tickStatsCmds_eq (l : List (ContainerInfo F)) :
    tickStatsCmds l = (runningContainers l).map (fun c => Cmd.fetchContainerStats c.ID) := by
  unfold tickStatsCmds runningContainers
  have h : ∀ (l : List (ContainerInfo F)) (acc : List Cmd),
      l.foldl (fun cmds c =>
          if c.State = "running" then cmds ++ [Cmd.fetchContainerStats c.ID] else cmds) acc
        = acc ++ (l.filter (fun c => decide (c.State = "running"))).map
            (fun c => Cmd.fetchContainerStats c.ID) := by
    intro l
    induction l with
    | nil => intro acc; simp
    | cons c rest ih =>
      intro acc
      by_cases hc : c.State = "running"
      · simp [List.foldl_cons, hc, ih]
      · simp [List.foldl_cons, hc, ih]
  simpa using h l []

theorem dispatch_tick_cmds [Zero F] [Add F] [Mul F] [Div F] [NatCast F]
    (lower : Char → Char) (a : App F) :
    (dispatch lower a .tick).2 =
      [Cmd.tick, Cmd.fetchContainers, Cmd.fetchSystemStats] ++
        (runningContainers a.containers).map (fun c => Cmd.fetchContainerStats c.ID) ++
        (if a.activePanel = .PanelLogs ∨ a.activePanel = .PanelContainers then
          ((a.containersPanel.GetSelected lower).map (fun c => Cmd.fetchLogs c.ID 100)).toList
         else []) ∧
    (dispatch lower a .tick).1.mode = a.mode := by
  simp only [dispatch, tickStatsCmds_eq]
  by_cases hp : a.activePanel = .PanelLogs ∨ a.activePanel = .PanelContainers
  · rw [if_pos hp, if_pos hp]
    unfold fetchLogs
    cases hs : a.containersPanel.GetSelected lower <;> simp
  · rw [if_neg hp, if_neg hp]
    simp

/-- C12: on a timer tick, in any mode, the commands are the next tick, one
container-list fetch, one system-snapshot fetch, one stats fetch per container of
the current list whose state is `running` (with its id, in list order, and no
other stats fetch), then a log fetch for the selected container exactly when the
active panel is Containers or Logs and a container is selected; whatever follows
comes from the text-input widget and is empty in Normal mode. -/
theorem tick_commands [Zero F] [Add F] [Mul F] [Div F] [NatCast F]
    (lower : Char → Char) (inputUpdate : TextInput → Msg F → TextInput × Option Nat)
    (a : App F) :
    ∃ extra : List Cmd,
      (∀ c ∈ extra, ∃ n, c = Cmd.input n) ∧
      (a.mode = .ModeNormal → extra = []) ∧
      (Update lower inputUpdate a .tick).2 =
        [Cmd.tick, Cmd.fetchContainers, Cmd.fetchSystemStats] ++
          (runningContainers a.containers).map (fun c => Cmd.fetchContainerStats c.ID) ++
          (if a.activePanel = .PanelLogs ∨ a.activePanel = .PanelContainers then
            ((a.containersPanel.GetSelected lower).map (fun c => Cmd.fetchLogs c.ID 100)).toList
           else []) ++ extra := by
  obtain ⟨hc, hm⟩ := dispatch_tick_cmds lower a
  unfold Update
  simp only [hm, hc]
  by_cases h1 : a.mode = .ModeFilter
  · rw [if_pos h1]
    refine ⟨_, ?_, ?_, rfl⟩
    · intro c hcm
      cases hu : (inputUpdate (dispatch lower a .tick).1.filterInput .tick).2 with
      | none => simp [hu] at hcm
      | some n => simp [hu] at hcm; exact ⟨n, hcm⟩
    · intro hn
      rw [hn] at h1
      cases h1
  · rw [if_neg h1]
    by_cases h2 : a.mode = .ModePullImage
    · rw [if_pos h2]
      refine ⟨_, ?_, ?_, rfl⟩
      · intro c hcm
        cases hu : (inputUpdate (dispatch lower a .tick).1.pullInput .tick).2 with
        | none => simp [hu] at hcm
        | some n => simp [hu] at hcm; exact ⟨n, hcm⟩
      · intro hn
        rw [hn] at h2
        cases h2
    · rw [if_neg h2]
      exact ⟨[], by simp, fun _ => rfl, by simp⟩

end App
end Dktop

namespace Dktop
namespace App

variable {F : Type}

/-! ### Keys in the entry modes -/

theorem handleKeyPress_entry_other (lower : Char → Char) (a : App F) (k : String)
    (hm : a.mode = .ModeFilter ∨ a.mode = .ModePullImage) (h1 : k ≠ "enter") (h2 : k ≠ "esc") :
    handleKeyPress lower a k = (a, none) := by
  unfold handleKeyPress
  rcases hm with hm | hm <;> simp [hm, h1, h2]

theorem handleKeyPress_quit (lower : Char → Char) (a : App F) (k : String)
    (hm : a.mode = .ModeNormal) (hk : k = "q" ∨ k = "ctrl+c") :
    handleKeyPress lower a k = (a, some .quit) := by
  unfold handleKeyPress
  simp [hm, hk]

/-- C13 (amended): in Normal mode the keys `q` and ctrl+c leave the state alone and
return the quit command, and nothing else; in FilterEntry and PullImageEntry modes
the key handler returns no command for them and changes nothing, the key is only
forwarded to the text input of the mode, and no quit command is returned. -/
theorem quit_keys_by_mode [Zero F] [Add F] [Mul F] [Div F] [NatCast F]
    (lower : Char → Char) (inputUpdate : TextInput → Msg F → TextInput × Option Nat)
    (a : App F) (k : String) (hk : k = "q" ∨ k = "ctrl+c") :
    (a.mode = .ModeNormal → Update lower inputUpdate a (.key k) = (a, [.quit])) ∧
    (a.mode = .ModeFilter →
      handleKeyPress lower a k = (a, none) ∧
      (Update lower inputUpdate a (.key k)).1
        = { a with filterInput := (inputUpdate a.filterInput (.key k)).1 } ∧
      Cmd.quit ∉ (Update lower inputUpdate a (.key k)).2) ∧
    (a.mode = .ModePullImage →
      handleKeyPress lower a k = (a, none) ∧
      (Update lower inputUpdate a (.key k)).1
        = { a with pullInput := (inputUpdate a.pullInput (.key k)).1 } ∧
      Cmd.quit ∉ (Update lower inputUpdate a (.key k)).2) := by
  have hne1 : k ≠ "enter" := by rcases hk with h | h <;> rw [h] <;> decide
  have hne2 : k ≠ "esc" := by rcases hk with h | h <;> rw [h] <;> decide
  refine ⟨?_, ?_, ?_⟩
  · intro hm
    have hd : dispatch lower a (.key k) = (a, [.quit]) := by
      simp only [dispatch, handleKeyPress_quit lower a k hm hk]
      rfl
    rw [Update_of_normal lower inputUpdate a (.key k) (by rw [hd]; exact hm), hd]
  · intro hm
    have hh := handleKeyPress_entry_other lower a k (Or.inl hm) hne1 hne2
    have hd : dispatch lower a (.key k) = (a, []) := by
      simp only [dispatch, hh]
      rfl
    refine ⟨hh, ?_, ?_⟩
    · unfold Update
      simp only [hd, hm, if_true]
    · unfold Update
      simp only [hd, hm, if_true]
      cases (inputUpdate a.filterInput (.key k)).2 <;> simp
  · intro hm
    have hh := handleKeyPress_entry_other lower a k (Or.inr hm) hne1 hne2
    have hd : dispatch lower a (.key k) = (a, []) := by
      simp only [dispatch, hh]
      rfl
    refine ⟨hh, ?_, ?_⟩
    · unfold Update
      simp only [hd, hm]
      simp
    · unfold Update
      simp only [hd, hm]
      cases (inputUpdate a.pullInput (.key k)).2 <;> simp

/-- C13 (witness): a fresh controller is in Normal mode and answers `q` with the
quit command. -/
theorem quit_keys_by_mode_witness :
    (NewApp DefaultConfig : App ℚ).mode = .ModeNormal ∧
    Update Char.toLower idleInput (NewApp DefaultConfig) (.key "q")
      = (NewApp DefaultConfig, [.quit]) :=
  ⟨rfl, (quit_keys_by_mode Char.toLower idleInput (NewApp DefaultConfig) "q"
    (Or.inl rfl)).1 rfl⟩

/-- C13 (counterexample): a fresh controller that entered FilterEntry with `/`
answers the key `q` with no command at all and stays in FilterEntry. -/
theorem q_does_not_quit_in_filter_entry :
    (Update Char.toLower idleInput
        (runMsgs Char.toLower idleInput (NewApp DefaultConfig) [.key "/"]) (.key "q")).2 = [] ∧
    (Update Char.toLower idleInput
        (runMsgs Char.toLower idleInput (NewApp DefaultConfig) [.key "/"]) (.key "q")).1.mode
      = .ModeFilter ∧
    (Update Char.toLower idleInput
        (runMsgs Char.toLower idleInput (NewApp DefaultConfig) [.key "/"])
        (.key "ctrl+c")).2 = [] := by
  decide

/-! ### Committing and discarding a filter -/

theorem handleKeyPress_filter_enter (lower : Char → Char) (a : App F)
    (hm : a.mode = .ModeFilter) :
    handleKeyPress lower a "enter" =
      ({ (if a.activePanel = .PanelContainers then
            { a with containersPanel := a.containersPanel.SetFilter a.filterInput.Value }
          else if a.activePanel = .PanelImages then
            { a with imagesPanel := a.imagesPanel.SetFilter a.filterInput.Value }
          else a) with
          mode := .ModeNormal,
          filterInput := (if a.activePanel = .PanelContainers then
            { a with containersPanel := a.containersPanel.SetFilter a.filterInput.Value }
          else if a.activePanel = .PanelImages then
            { a with imagesPanel := a.imagesPanel.SetFilter a.filterInput.Value }
          else a).filterInput.Blur }, none) := by
  unfold handleKeyPress
  simp [hm]

theorem handleKeyPress_filter_esc (lower : Char → Char) (a : App F)
    (hm : a.mode = .ModeFilter) :
    handleKeyPress lower a "esc" =
      ({ a with mode := .ModeNormal, filterInput := (a.filterInput.Blur).SetValue "" }, none) := by
  unfold handleKeyPress
  simp [hm]

theorem handleKeyPress_normal_esc (lower : Char → Char) (a : App F)
    (hm : a.mode = .ModeNormal) :
    handleKeyPress lower a "esc" =
      (if a.activePanel = .PanelLogs then
        (updatePanelActive { a with activePanel := .PanelContainers }, none)
       else (a, none)) := by
  unfold handleKeyPress
  simp [hm]

/-- C14: in FilterEntry mode Enter returns to Normal and, when the active panel is
Containers (Images), sets that panel's filter to the buffer text and its
selection and offset to 0 while the Images (Containers) panel keeps its filter;
Escape returns to Normal and both panels keep their filters; in Normal mode
Escape leaves both filters and the mode as they were. -/
theorem filter_commit_and_discard [Zero F] [Add F] [Mul F] [Div F] [NatCast F]
    (lower : Char → Char) (inputUpdate : TextInput → Msg F → TextInput × Option Nat)
    (a : App F) :
    (a.mode = .ModeFilter →
      (Update lower inputUpdate a (.key "enter")).1.mode = .ModeNormal ∧
      (a.activePanel = .PanelContainers →
        (Update lower inputUpdate a (.key "enter")).1.containersPanel.filter
          = a.filterInput.value ∧
        (Update lower inputUpdate a (.key "enter")).1.containersPanel.selected = 0 ∧
        (Update lower inputUpdate a (.key "enter")).1.containersPanel.offset = 0 ∧
        (Update lower inputUpdate a (.key "enter")).1.imagesPanel = a.imagesPanel) ∧
      (a.activePanel = .PanelImages →
        (Update lower inputUpdate a (.key "enter")).1.imagesPanel.filter
          = a.filterInput.value ∧
        (Update lower inputUpdate a (.key "enter")).1.imagesPanel.selected = 0 ∧
        (Update lower inputUpdate a (.key "enter")).1.imagesPanel.offset = 0 ∧
        (Update lower inputUpdate a (.key "enter")).1.containersPanel = a.containersPanel) ∧
      (Update lower inputUpdate a (.key "esc")).1.mode = .ModeNormal ∧
      (Update lower inputUpdate a (.key "esc")).1.containersPanel = a.containersPanel ∧
      (Update lower inputUpdate a (.key "esc")).1.imagesPanel = a.imagesPanel) ∧
    (a.mode = .ModeNormal →
      (Update lower inputUpdate a (.key "esc")).1.mode = .ModeNormal ∧
      (Update lower inputUpdate a (.key "esc")).1.containersPanel.filter
        = a.containersPanel.filter ∧
      (Update lower inputUpdate a (.key "esc")).1.imagesPanel.filter
        = a.imagesPanel.filter) := by
  constructor
  · intro hm
    have he : Update lower inputUpdate a (.key "enter")
        = dispatch lower a (.key "enter") := by
      apply Update_of_normal
      simp only [dispatch, handleKeyPress_filter_enter lower a hm]
    have hs : Update lower inputUpdate a (.key "esc") = dispatch lower a (.key "esc") := by
      apply Update_of_normal
      simp only [dispatch, handleKeyPress_filter_esc lower a hm]
    rw [he, hs]
    simp only [dispatch, handleKeyPress_filter_enter lower a hm,
      handleKeyPress_filter_esc lower a hm]
    refine ⟨trivial, ?_, ?_, trivial, trivial, trivial⟩
    · intro hp
      simp [hp, ContainersPanel.SetFilter, TextInput.Value]
    · intro hp
      simp [hp, ImagesPanel.SetFilter, TextInput.Value]
  · intro hm
    have hs : Update lower inputUpdate a (.key "esc") = dispatch lower a (.key "esc") := by
      apply Update_of_normal
      simp only [dispatch, handleKeyPress_normal_esc lower a hm]
      split_ifs
      · exact hm
      · exact hm
    rw [hs]
    simp only [dispatch, handleKeyPress_normal_esc lower a hm]
    split_ifs
    · exact ⟨hm, rfl, rfl⟩
    · exact ⟨hm, rfl, rfl⟩

end App
end Dktop

namespace Dktop
namespace App

variable {F : Type}

/-! ### The scenario `ng` -/

theorem contains_lowered (lower : Char → Char) (s f : String) (h : f.data <:+: s.data) :
    Contains (ToLower lower s) (ToLower lower f) = true := by
  unfold Contains ToLower
  rw [ containsChars_iff_infix]
  obtain ⟨u, v, huv⟩ := h
  refine ⟨u.map lower, v.map lower, ?_⟩
  simp only [← List.map_append, huv]

theorem rowMatches_of_name (lower : Char → Char) (f : String) (c : ContainerInfo F)
    (h : f.data <:+: c.Name.data) :
    ContainersPanel.rowMatches lower (ToLower lower f) c = true := by
  unfold ContainersPanel.rowMatches
  rw [contains_lowered lower c.Name f h]
  rfl

/-- C15 (amended): with the Containers panel active and holding three containers
named nginx, redis and mongo, committing the filter text `ng` makes the visible
list nginx, then redis exactly when its image or id contains `ng`, then mongo:
both `nginx` and `mongo` contain `ng`. -/
theorem ng_filter_visible_list [Zero F] [Add F] [Mul F] [Div F] [NatCast F]
    (lower : Char → Char) (inputUpdate : TextInput → Msg F → TextInput × Option Nat)
    (a : App F) (c1 c2 c3 : ContainerInfo F)
    (hm : a.mode = .ModeFilter) (hp : a.activePanel = .PanelContainers)
    (hb : a.filterInput.value = "ng")
    (hl : a.containersPanel.containers = [c1, c2, c3])
    (h1 : c1.Name = "nginx") (h2 : c2.Name = "redis") (h3 : c3.Name = "mongo")
    (hng : ToLower lower "ng" = "ng") (hredis : ToLower lower "redis" = "redis") :
    (Update lower inputUpdate a (.key "enter")).1.containersPanel.GetFiltered lower
      = c1 :: ((if Contains (ToLower lower c2.Image) (ToLower lower "ng") = true ∨
                  Contains (ToLower lower c2.ID) (ToLower lower "ng") = true
                then [c2] else []) ++ [c3]) := by
  have he : Update lower inputUpdate a (.key "enter")
      = dispatch lower a (.key "enter") := by
    apply Update_of_normal
    simp only [dispatch, handleKeyPress_filter_enter lower a hm]
  have hpanel : (dispatch lower a (.key "enter")).1.containersPanel
      = a.containersPanel.SetFilter "ng" := by
    simp only [dispatch, handleKeyPress_filter_enter lower a hm, hp, if_true, TextInput.Value, hb]
  rw [he, hpanel, ContainersPanel.getFiltered_eq_filter]
  have hc : (a.containersPanel.SetFilter "ng").containers = [c1, c2, c3] := hl
  have hf : (a.containersPanel.SetFilter "ng").filter = "ng" := rfl
  rw [hc, hf]
  have m1 : ContainersPanel.rowMatches lower (ToLower lower "ng") c1 = true :=
    rowMatches_of_name lower "ng" c1 (by rw [h1]; decide)
  have m3 : ContainersPanel.rowMatches lower (ToLower lower "ng") c3 = true :=
    rowMatches_of_name lower "ng" c3 (by rw [h3]; decide)
  have n2 : Contains (ToLower lower c2.Name) (ToLower lower "ng") = false := by
    rw [h2, hredis, hng]
    decide
  have m2 : ContainersPanel.rowMatches lower (ToLower lower "ng") c2
      = decide (Contains (ToLower lower c2.Image) (ToLower lower "ng") = true ∨
          Contains (ToLower lower c2.ID) (ToLower lower "ng") = true) := by
    unfold ContainersPanel.rowMatches
    rw [n2]
    simp
  simp only [List.filter_cons, m1, m2, m3, if_true, List.filter_nil]
  by_cases hc2 : Contains (ToLower lower c2.Image) (ToLower lower "ng") = true ∨
      Contains (ToLower lower c2.ID) (ToLower lower "ng") = true
  · simp [hc2]
  · simp [hc2]

/-- C15 (counterexample): containers nginx, redis and mongo (images `web:1`,
`cache:1`, `db:1`), Containers panel active, buffer `ng`, Enter: the visible list
is nginx and mongo, not nginx alone. -/
theorem ng_filter_shows_mongo :
    (Update Char.toLower idleInput
        { runMsgs Char.toLower idleInput (NewApp DefaultConfig)
            [.containers [sampleContainer "c1" "nginx" "web:1" "running",
                          sampleContainer "c2" "redis" "cache:1" "running",
                          sampleContainer "c3" "mongo" "db:1" "running"],
             .key "/"] with
          filterInput := { value := "ng", focus := true } }
        (.key "enter")).1.containersPanel.GetFiltered Char.toLower
      = [sampleContainer "c1" "nginx" "web:1" "running",
         sampleContainer "c3" "mongo" "db:1" "running"] ∧
    (Update Char.toLower idleInput
        { runMsgs Char.toLower idleInput (NewApp DefaultConfig)
            [.containers [sampleContainer "c1" "nginx" "web:1" "running",
                          sampleContainer "c2" "redis" "cache:1" "running",
                          sampleContainer "c3" "mongo" "db:1" "running"],
             .key "/"] with
          filterInput := { value := "ng", focus := true } }
        (.key "enter")).1.containersPanel.GetFiltered Char.toLower
      ≠ [sampleContainer "c1" "nginx" "web:1" "running"] := by
  decide

/-- C15 (witness): the amended statement at the containers of the counterexample. -/
theorem ng_filter_visible_list_witness :
    (Update Char.toLower idleInput
        { runMsgs Char.toLower idleInput (NewApp DefaultConfig)
            [.containers [sampleContainer "c1" "nginx" "web:1" "running",
                          sampleContainer "c2" "redis" "cache:1" "running",
                          sampleContainer "c3" "mongo" "db:1" "running"],
             .key "/"] with
          filterInput := { value := "ng", focus := true } }
        (.key "enter")).1.containersPanel.GetFiltered Char.toLower
      = sampleContainer "c1" "nginx" "web:1" "running" ::
        ((if Contains (ToLower Char.toLower "cache:1") (ToLower Char.toLower "ng") = true ∨
              Contains (ToLower Char.toLower "c2") (ToLower Char.toLower "ng") = true
          then [sampleContainer "c2" "redis" "cache:1" "running"] else []) ++
         [sampleContainer "c3" "mongo" "db:1" "running"]) :=
  ng_filter_visible_list Char.toLower idleInput
    { runMsgs Char.toLower idleInput (NewApp DefaultConfig)
        [.containers [sampleContainer "c1" "nginx" "web:1" "running",
                      sampleContainer "c2" "redis" "cache:1" "running",
                      sampleContainer "c3" "mongo" "db:1" "running"],
         .key "/"] with
      filterInput := { value := "ng", focus := true } }
    (sampleContainer "c1" "nginx" "web:1" "running")
    (sampleContainer "c2" "redis" "cache:1" "running")
    (sampleContainer "c3" "mongo" "db:1" "running")
    (by decide) (by decide) (by decide) (by decide) (by decide) (by decide) (by decide)
    (by decide) (by decide)

end App
end Dktop

namespace Dktop
namespace App

variable {F : Type}

/-! ### Autostart toggle -/

/-- C16 (fails in the code): with the autostart list `["abc123"]` and the selected
container `{ID abc123, Name web}`, which counts as autostart through its id, the
key `a` adds the name instead of removing the id: the list becomes
`["abc123", "web"]`, the container still counts as autostart and the policy sent
is `always`.  With the list `["abc123", "web"]` the key removes the name only: the
container still counts as autostart while the policy sent is `no`. -/
theorem toggle_autostart_keeps_id_entry :
    countsAsAutostart
        { DefaultConfig with AutostartList := ["abc123"] }
        (sampleContainer "abc123" "web" "nginx" "running") = true ∧
    (Update Char.toLower idleInput
        (runMsgs Char.toLower idleInput
          (NewApp { DefaultConfig with AutostartList := ["abc123"] })
          [.containers [sampleContainer "abc123" "web" "nginx" "running"]])
        (.key "a")).1.config.AutostartList = ["abc123", "web"] ∧
    countsAsAutostart
        (Update Char.toLower idleInput
          (runMsgs Char.toLower idleInput
            (NewApp { DefaultConfig with AutostartList := ["abc123"] })
            [.containers [sampleContainer "abc123" "web" "nginx" "running"]])
          (.key "a")).1.config
        (sampleContainer "abc123" "web" "nginx" "running") = true ∧
    (Update Char.toLower idleInput
        (runMsgs Char.toLower idleInput
          (NewApp { DefaultConfig with AutostartList := ["abc123"] })
          [.containers [sampleContainer "abc123" "web" "nginx" "running"]])
        (.key "a")).2 = [.setRestartPolicy "abc123" "always"] ∧
    countsAsAutostart
        (Update Char.toLower idleInput
          (runMsgs Char.toLower idleInput
            (NewApp { DefaultConfig with AutostartList := ["abc123", "web"] })
            [.containers [sampleContainer "abc123" "web" "nginx" "running"]])
          (.key "a")).1.config
        (sampleContainer "abc123" "web" "nginx" "running") = true ∧
    (Update Char.toLower idleInput
        (runMsgs Char.toLower idleInput
          (NewApp { DefaultConfig with AutostartList := ["abc123", "web"] })
          [.containers [sampleContainer "abc123" "web" "nginx" "running"]])
        (.key "a")).2 = [.setRestartPolicy "abc123" "no"] := by
  decide

end App

namespace ContainersPanel

variable {F : Type}

/-! ### Scroll just enough -/

/-- C17: for a panel of height at least 6 whose cursor satisfies
`offset <= selected < offset + (height - 5)` (all of them Go `int`s, the window
end included), `MoveDown` and `MoveUp` leave the height alone, move the selection
by at most one, keep it inside the window, and change the offset exactly when
the new selection lies outside the old window, then by exactly one row towards
it; `MoveUp` at selection 0 and `MoveDown` at or past the last filtered item
return the panel unchanged. -/
theorem scroll_just_enough (lower : Char → Char) (p : ContainersPanel F)
    (hh : 6 ≤ p.height) (hw1 : p.offset ≤ p.selected)
    (hw2 : p.selected < p.offset + (p.height - 5))
    (hr1 : isInt64 p.height) (hr2 : isInt64 p.offset)
    (hr3 : isInt64 (p.offset + (p.height - 5))) :
    ((MoveDown lower p).height = p.height ∧
      ((MoveDown lower p).selected = p.selected ∨
        (MoveDown lower p).selected = p.selected + 1) ∧
      (MoveDown lower p).offset ≤ (MoveDown lower p).selected ∧
      (MoveDown lower p).selected < (MoveDown lower p).offset + (p.height - 5) ∧
      ((MoveDown lower p).offset ≠ p.offset ↔
        ¬ (MoveDown lower p).selected < p.offset + (p.height - 5)) ∧
      ((MoveDown lower p).offset ≠ p.offset → (MoveDown lower p).offset = p.offset + 1)) ∧
    ((MoveUp p).height = p.height ∧
      ((MoveUp p).selected = p.selected ∨ (MoveUp p).selected = p.selected - 1) ∧
      (MoveUp p).offset ≤ (MoveUp p).selected ∧
      (MoveUp p).selected < (MoveUp p).offset + (p.height - 5) ∧
      ((MoveUp p).offset ≠ p.offset ↔ ¬ p.offset ≤ (MoveUp p).selected) ∧
      ((MoveUp p).offset ≠ p.offset → (MoveUp p).offset = p.offset - 1)) ∧
    (p.selected = 0 → MoveUp p = p) ∧
    (len (GetFiltered lower p) - 1 ≤ p.selected → MoveDown lower p = p) := by
  unfold isInt64 at hr1 hr2 hr3
  have e1 : wrap64 (p.height - 5) = p.height - 5 := wrap64_of_range (by omega) (by omega)
  have e2 : wrap64 (p.offset + (p.height - 5)) = p.offset + (p.height - 5) :=
    wrap64_of_range (by omega) (by omega)
  refine ⟨?_, ?_, ?_, ?_⟩
  · rw [moveDown_height, moveDown_offset, moveDown_selected, e1, e2]
    by_cases hs : p.selected < len (GetFiltered lower p) - 1
    · by_cases ho : p.selected + 1 ≥ p.offset + (p.height - 5)
      · have e3 : wrap64 (p.selected + 1 - (p.height - 5)) = p.selected + 1 - (p.height - 5) :=
          wrap64_of_range (by omega) (by omega)
        have e4 : wrap64 (p.selected + 1 - (p.height - 5) + 1)
            = p.selected + 1 - (p.height - 5) + 1 :=
          wrap64_of_range (by omega) (by omega)
        rw [if_pos hs, if_pos ⟨hs, ho⟩, e3, e4]
        refine ⟨rfl, Or.inr rfl, ?_, ?_, ?_, ?_⟩ <;> omega
      · rw [if_pos hs, if_neg (fun h => ho h.2)]
        refine ⟨rfl, Or.inr rfl, ?_, ?_, ?_, ?_⟩ <;> omega
    · rw [if_neg hs, if_neg (fun h => hs h.1)]
      refine ⟨rfl, Or.inl rfl, ?_, ?_, ?_, ?_⟩ <;> omega
  · rw [moveUp_height, moveUp_offset, moveUp_selected]
    by_cases hs : p.selected > 0
    · by_cases ho : p.selected - 1 < p.offset
      · rw [if_pos hs, if_pos ⟨hs, ho⟩]
        refine ⟨rfl, Or.inr rfl, ?_, ?_, ?_, ?_⟩ <;> omega
      · rw [if_pos hs, if_neg (fun h => ho h.2)]
        refine ⟨rfl, Or.inr rfl, ?_, ?_, ?_, ?_⟩ <;> omega
    · rw [if_neg hs, if_neg (fun h => hs h.1)]
      refine ⟨rfl, Or.inl rfl, ?_, ?_, ?_, ?_⟩ <;> omega
  · intro h0
    unfold MoveUp
    rw [if_neg (by omega)]
  · intro hlast
    unfold MoveDown
    simp only
    rw [if_neg (by omega)]

/-- C17 (witness): three containers in a panel of height 7 (two visible rows) with
the cursor on the second row; moving down scrolls by exactly one row. -/
theorem scroll_just_enough_witness :
    6 ≤ twoRowPanel.height ∧ twoRowPanel.offset ≤ twoRowPanel.selected ∧
    twoRowPanel.selected < twoRowPanel.offset + (twoRowPanel.height - 5) ∧
    (MoveDown Char.toLower twoRowPanel).offset = twoRowPanel.offset + 1 :=
  ⟨by decide, by decide, by decide,
    (scroll_just_enough Char.toLower twoRowPanel
      (by decide) (by decide) (by decide) (by decide) (by decide) (by decide)).1.2.2.2.2.2
      (by decide)⟩

end ContainersPanel
end Dktop

namespace Dktop
namespace App

variable {F : Type}

/-! ### Layout -/

theorem remainingHeight_eq (a : App F) (h1 : -2 ^ 63 + 24 ≤ a.height) (h2 : a.height < 2 ^ 63) :
    remainingHeight a = max (a.height - 24) 2 := by
  unfold remainingHeight
  have e1 : wrap64 (a.height - 6) = a.height - 6 := wrap64_of_range (by omega) (by omega)
  have e2 : wrap64 (a.height - 6 - 17) = a.height - 6 - 17 :=
    wrap64_of_range (by omega) (by omega)
  have e3 : wrap64 (a.height - 6 - 17 - 1) = a.height - 6 - 17 - 1 :=
    wrap64_of_range (by omega) (by omega)
  simp only [e1, e2, e3]
  split_ifs <;> omega

theorem containerHeight_eq (a : App F) :
    containerHeight a =
      min (max (len a.containers) 1 + 5) (remainingHeight a - min 5 (remainingHeight a - 1)) ∧
    2 ≤ remainingHeight a := by
  have hR : 2 ≤ remainingHeight a := by
    unfold remainingHeight
    simp only
    split_ifs <;> omega
  have hn : 0 ≤ len a.containers := by unfold len; omega
  refine ⟨?_, hR⟩
  unfold containerHeight
  simp only
  split_ifs <;> omega

theorem logsHeight_eq (a : App F) :
    logsHeight a = remainingHeight a - containerHeight a := by
  obtain ⟨hc, hR⟩ := containerHeight_eq a
  unfold logsHeight
  simp only
  split_ifs <;> omega

theorem updatePanelSizes_heights (a : App F) :
    (updatePanelSizes a).containersPanel.height = containerHeight a ∧
    (updatePanelSizes a).logsPanel.height = logsHeight a ∧
    (updatePanelSizes a).statsPanel.height = 17 ∧
    (updatePanelSizes a).imagesPanel.height = 17 :=
  ⟨rfl, rfl, rfl, rfl⟩

/-- C18: for a viewport height `h` (a Go `int` for which `h - 24` does not
overflow) and `n` containers, `updatePanelSizes` gives the containers panel the
height `min(max(n,1) + 5, R - min(5, R-1))` with `R = max(h - 24, 2)`, which is at
least 1; whenever `max(n,1) + 10 <= h - 24` the panel gets exactly `max(n,1) + 5`
rows, so `View` draws `max(n,1)` rows, one for every container. -/
theorem containers_panel_height (a : App F)
    (h1 : -2 ^ 63 + 24 ≤ a.height) (h2 : a.height < 2 ^ 63) :
    (updatePanelSizes a).containersPanel.height
      = min (max (len a.containers) 1 + 5)
          (max (a.height - 24) 2 - min 5 (max (a.height - 24) 2 - 1)) ∧
    1 ≤ (updatePanelSizes a).containersPanel.height ∧
    (max (len a.containers) 1 + 10 ≤ a.height - 24 →
      (updatePanelSizes a).containersPanel.height = max (len a.containers) 1 + 5 ∧
      ContainersPanel.viewRows (updatePanelSizes a).containersPanel
        = max (len a.containers) 1 ∧
      len a.containers ≤ ContainersPanel.viewRows (updatePanelSizes a).containersPanel) := by
  obtain ⟨hc, hR⟩ := containerHeight_eq a
  have hr := remainingHeight_eq a h1 h2
  have hn : 0 ≤ len a.containers := by unfold len; omega
  rw [(updatePanelSizes_heights a).1, hc, hr]
  refine ⟨rfl, by omega, ?_⟩
  intro hfit
  have hv : ContainersPanel.viewRows (updatePanelSizes a).containersPanel
      = max (len a.containers) 1 := by
    rw [ContainersPanel.viewRows_eq, (updatePanelSizes_heights a).1, hc, hr]
    have e : wrap64 (min (max (len a.containers) 1 + 5)
          (max (a.height - 24) 2 - min 5 (max (a.height - 24) 2 - 1)) - 5)
        = max (len a.containers) 1 := by
      rw [wrap64_of_range (by omega) (by omega)]
      omega
    rw [e]
    split_ifs <;> omega
  refine ⟨by omega, hv, ?_⟩
  rw [hv]
  omega

/-- C18 (witness): a viewport of height 40 with three containers gives the
containers panel 8 rows. -/
theorem containers_panel_height_witness :
    (updatePanelSizes
        { (NewApp DefaultConfig : App ℚ) with
          height := 40,
          containers := [sampleContainer "a1" "web" "nginx" "running",
                         sampleContainer "b2" "db" "postgres" "running",
                         sampleContainer "c3" "cache" "redis" "exited"] }).containersPanel.height
      = min (max 3 1 + 5) (max (40 - 24) 2 - min 5 (max (40 - 24) 2 - 1)) :=
  (containers_panel_height
    { (NewApp DefaultConfig : App ℚ) with
      height := 40,
      containers := [sampleContainer "a1" "web" "nginx" "running",
                     sampleContainer "b2" "db" "postgres" "running",
                     sampleContainer "c3" "cache" "redis" "exited"] }
    (by decide) (by decide)).1

/-- C19: for a viewport height `h` (a Go `int` for which `h - 24` does not
overflow) and any container count, the heights `updatePanelSizes` gives the
containers and logs panels add up to `max(h - 24, 2)`, and the logs panel gets at
least `min(5, max(h - 24, 2) - 1)` rows; for `h >= 30` the logs panel keeps at
least 5 rows and banner (6), top band (17), containers, logs and help line (1)
add up to `h`. -/
theorem containers_and_logs_heights (a : App F)
    (h1 : -2 ^ 63 + 24 ≤ a.height) (h2 : a.height < 2 ^ 63) :
    (updatePanelSizes a).containersPanel.height + (updatePanelSizes a).logsPanel.height
      = max (a.height - 24) 2 ∧
    min 5 (max (a.height - 24) 2 - 1) ≤ (updatePanelSizes a).logsPanel.height ∧
    (30 ≤ a.height →
      5 ≤ (updatePanelSizes a).logsPanel.height ∧
      6 + (updatePanelSizes a).statsPanel.height + (updatePanelSizes a).containersPanel.height
        + (updatePanelSizes a).logsPanel.height + 1 = a.height ∧
      (updatePanelSizes a).imagesPanel.height = (updatePanelSizes a).statsPanel.height) := by
  obtain ⟨hc, hR⟩ := containerHeight_eq a
  have hr := remainingHeight_eq a h1 h2
  have hl := logsHeight_eq a
  have hn : 0 ≤ len a.containers := by unfold len; omega
  obtain ⟨p1, p2, p3, p4⟩ := updatePanelSizes_heights a
  rw [p1, p2, p3, p4, hl, hc, hr]
  refine ⟨by omega, by omega, ?_⟩
  intro h30
  refine ⟨by omega, by omega, rfl⟩

/-- C19 (witness): at viewport height 40 with three containers the two panels
share 16 rows. -/
theorem containers_and_logs_heights_witness :
    (updatePanelSizes
        { (NewApp DefaultConfig : App ℚ) with
          height := 40,
          containers := [sampleContainer "a1" "web" "nginx" "running",
                         sampleContainer "b2" "db" "postgres" "running",
                         sampleContainer "c3" "cache" "redis" "exited"] }).containersPanel.height
      + (updatePanelSizes
        { (NewApp DefaultConfig : App ℚ) with
          height := 40,
          containers := [sampleContainer "a1" "web" "nginx" "running",
                         sampleContainer "b2" "db" "postgres" "running",
                         sampleContainer "c3" "cache" "redis" "exited"] }).logsPanel.height
      = max (40 - 24) 2 :=
  (containers_and_logs_heights
    { (NewApp DefaultConfig : App ℚ) with
      height := 40,
      containers := [sampleContainer "a1" "web" "nginx" "running",
                     sampleContainer "b2" "db" "postgres" "running",
                     sampleContainer "c3" "cache" "redis" "exited"] }
    (by decide) (by decide)).1

end App
end Dktop

namespace Dktop
namespace LogsPanel

/-! ### Log buffer -/

theorem splitChars_length (sep : Char) (s : List Char) :
    (splitChars sep s).length = s.count sep + 1 := by
  induction s with
  | nil => rfl
  | cons c rest ih =>
    unfold splitChars
    by_cases hc : c = sep
    · rw [if_pos hc, List.length_cons, ih, hc, List.count_cons_self]
    · rw [if_neg hc]
      have hne : (c == sep) = false := by simpa using hc
      rw [List.count_cons, hne]
      cases hs : splitChars sep rest with
      | nil => rw [hs] at ih; simp at ih
      | cons l ls =>
        rw [hs] at ih
        simpa using ih

theorem splitLines_length (text : String) :
    (SplitLines text).length = text.data.count (Char.ofNat 10) + 1 := by
  unfold SplitLines
  rw [List.length_map, splitChars_length]

theorem autoScrollStep_logs (p : LogsPanel) : (autoScrollStep p).logs = p.logs := by
  unfold autoScrollStep
  simp only
  split_ifs <;> rfl

theorem update_logs (p : LogsPanel) (text : String) :
    (p.Update text).logs = SplitLines text := by
  unfold Update
  rw [autoScrollStep_logs]

theorem appendLog_logs (p : LogsPanel) (line : String) :
    (p.AppendLog line).logs =
      if p.logs.length + 1 > 1000 then (p.logs ++ [line]).drop (p.logs.length + 1 - 1000)
      else p.logs ++ [line] := by
  unfold AppendLog
  simp only
  rw [autoScrollStep_logs]
  by_cases h : p.logs.length + 1 > 1000
  · have h' : len (p.logs ++ [line]) > 1000 := by
      unfold len
      rw [List.length_append]
      simp only [List.length_singleton]
      omega
    rw [if_pos h', if_pos h]
    simp
  · have h' : ¬ len (p.logs ++ [line]) > 1000 := by
      unfold len
      rw [List.length_append]
      simp only [List.length_singleton]
      omega
    rw [if_neg h', if_neg h]

/-- C20 (amended): `AppendLog` leaves the last `min(1000, n + 1)` lines of the old
buffer followed by the new line, hence at most 1000 lines and the most recent
ones; `SetContainerName` empties the buffer for a new name and leaves it alone for
the same name; `Update` replaces the buffer by all lines of the log text, one more
than the text has newlines, whatever their number. -/
theorem log_buffer_after_operations (p : LogsPanel) :
    (∀ line : String,
      (p.AppendLog line).logs.length ≤ 1000 ∧
      (p.AppendLog line).logs.length = min 1000 (p.logs.length + 1) ∧
      (p.AppendLog line).logs <:+ p.logs ++ [line]) ∧
    (∀ name : String,
      (p.SetContainerName name).logs = if p.containerName ≠ name then [] else p.logs) ∧
    (∀ text : String,
      (p.Update text).logs = SplitLines text ∧
      (p.Update text).logs.length = text.data.count (Char.ofNat 10) + 1) := by
  refine ⟨?_, ?_, ?_⟩
  · intro line
    rw [appendLog_logs]
    by_cases h : p.logs.length + 1 > 1000
    · rw [if_pos h]
      refine ⟨?_, ?_, List.drop_suffix _ _⟩
      · rw [List.length_drop, List.length_append]
        simp only [List.length_singleton]
        omega
      · rw [List.length_drop, List.length_append]
        simp only [List.length_singleton]
        omega
    · rw [if_neg h]
      refine ⟨?_, ?_, List.suffix_refl _⟩
      · rw [List.length_append]
        simp only [List.length_singleton]
        omega
      · rw [List.length_append]
        simp only [List.length_singleton]
        omega
  · intro name
    unfold SetContainerName
    split_ifs <;> rfl
  · intro text
    rw [update_logs]
    exact ⟨rfl, splitLines_length text⟩

/-- C20 (counterexample): `Update` with a text of 1000 newlines leaves 1001 lines
in the buffer. -/
theorem update_exceeds_thousand_lines :
    (NewLogsPanel.Update (String.mk (List.replicate 1000 (Char.ofNat 10)))).logs.length
      = 1001 := by
  rw [update_logs, splitLines_length]
  show (List.replicate 1000 (Char.ofNat 10)).count (Char.ofNat 10) + 1 = 1001
  rw [List.count_replicate_self]

end LogsPanel
end Dktop

namespace Dktop
namespace LogsPanel

/-! ### Auto-scroll flag -/

theorem autoScrollStep_flag (p : LogsPanel) : (autoScrollStep p).autoScroll = p.autoScroll := by
  unfold autoScrollStep
  simp only
  split_ifs <;> rfl

theorem update_flag (p : LogsPanel) (text : String) :
    (p.Update text).autoScroll = p.autoScroll := by
  unfold Update
  rw [autoScrollStep_flag]

theorem appendLog_flag (p : LogsPanel) (line : String) :
    (p.AppendLog line).autoScroll = p.autoScroll := by
  unfold AppendLog
  simp only
  rw [autoScrollStep_flag]
  split_ifs <;> rfl

theorem scrollUp_flag (p : LogsPanel) :
    (p.ScrollUp).autoScroll = if p.offset > 0 then false else p.autoScroll := by
  unfold ScrollUp
  split_ifs <;> rfl

theorem setContainerName_flag (p : LogsPanel) (name : String) :
    (p.SetContainerName name).autoScroll
      = if p.containerName ≠ name then true else p.autoScroll := by
  unfold SetContainerName
  split_ifs <;> rfl

/-- The bound `maxOffset` of `ScrollDown`. -/
theorem scrollDown_flag (p : LogsPanel) :
    (p.ScrollDown).autoScroll =
      (if (p.ScrollDown).offset ≥
          (if wrap64 (len p.logs - wrap64 (p.height - 4)) < 0 then 0
           else wrap64 (len p.logs - wrap64 (p.height - 4)))
        then true else p.autoScroll) := by
  unfold ScrollDown
  simp only
  split_ifs <;> rfl

theorem scrollToBottom_flag (p : LogsPanel) : (p.ScrollToBottom).autoScroll = true := by
  unfold ScrollToBottom
  simp only

/-- C21 (amended): `ScrollUp` turns the auto-scroll flag off exactly when it
scrolls, that is when the offset is positive; at offset 0 (or below) it leaves the
panel, flag included, as it was.  No other operation (`Update`, `AppendLog`,
`ScrollDown`, `ScrollToBottom`, `SetContainerName`, `SetSize`) turns the flag from
on to off. -/
theorem autoscroll_off_only_on_scroll_up (p : LogsPanel) :
    (0 < p.offset → (p.ScrollUp).autoScroll = false) ∧
    (p.offset ≤ 0 → p.ScrollUp = p) ∧
    (p.autoScroll = true →
      (∀ text, (p.Update text).autoScroll = true) ∧
      (∀ line, (p.AppendLog line).autoScroll = true) ∧
      (p.ScrollDown).autoScroll = true ∧
      (p.ScrollToBottom).autoScroll = true ∧
      (∀ name, (p.SetContainerName name).autoScroll = true) ∧
      (∀ w h, (p.SetSize w h).autoScroll = true)) := by
  refine ⟨?_, ?_, ?_⟩
  · intro h
    rw [scrollUp_flag, if_pos h]
  · intro h
    unfold ScrollUp
    rw [if_neg (by omega)]
  · intro hon
    refine ⟨?_, ?_, ?_, scrollToBottom_flag p, ?_, ?_⟩
    · intro text
      rw [update_flag, hon]
    · intro line
      rw [appendLog_flag, hon]
    · rw [scrollDown_flag, hon]
      split_ifs <;> rfl
    · intro name
      rw [setContainerName_flag, hon]
      split_ifs <;> rfl
    · intro w h
      exact hon

/-- C21 (counterexample): on a fresh panel (offset 0, flag on) `ScrollUp` leaves
the flag on. -/
theorem scroll_up_at_top_keeps_autoscroll :
    NewLogsPanel.autoScroll = true ∧ (NewLogsPanel.ScrollUp).autoScroll = true := by
  decide

/-- C22 (amended): from a state with the flag off, `ScrollToBottom` turns it on;
`ScrollDown` turns it on exactly when the resulting offset is at least
`max(len(logs) - (height - 4), 0)` (the subtractions being Go `int`s);
`SetContainerName` turns it on exactly when the name differs from the current
one, the case in which it also empties the buffer; `Update`, `AppendLog`,
`ScrollUp` and `SetSize` leave it off. -/
theorem autoscroll_on_again (p : LogsPanel) (hoff : p.autoScroll = false) :
    (p.ScrollToBottom).autoScroll = true ∧
    (isInt64 (p.height - 4) → isInt64 (len p.logs - (p.height - 4)) →
      ((p.ScrollDown).autoScroll = true ↔
        max (len p.logs - (p.height - 4)) 0 ≤ (p.ScrollDown).offset)) ∧
    (∀ name, (p.SetContainerName name).autoScroll = true ↔ p.containerName ≠ name) ∧
    (∀ text, (p.Update text).autoScroll = false) ∧
    (∀ line, (p.AppendLog line).autoScroll = false) ∧
    (p.ScrollUp).autoScroll = false ∧
    (∀ w h, (p.SetSize w h).autoScroll = false) := by
  refine ⟨scrollToBottom_flag p, ?_, ?_, ?_, ?_, ?_, ?_⟩
  · intro h1 h2
    unfold isInt64 at h1 h2
    have e1 : wrap64 (p.height - 4) = p.height - 4 := wrap64_of_range h1.1 h1.2
    have e2 : wrap64 (len p.logs - (p.height - 4)) = len p.logs - (p.height - 4) :=
      wrap64_of_range h2.1 h2.2
    rw [scrollDown_flag, e1, e2, hoff]
    split_ifs <;> simp <;> omega
  · intro name
    rw [setContainerName_flag, hoff]
    split_ifs with h <;> simp [h]
  · intro text
    rw [update_flag, hoff]
  · intro line
    rw [appendLog_flag, hoff]
  · rw [scrollUp_flag, hoff]
    split_ifs <;> rfl
  · intro w h
    exact hoff

/-- C22 (counterexample): a panel showing container `web` whose flag was turned
off by scrolling up has the flag on again after `SetContainerName("db")`. -/
theorem set_container_name_turns_autoscroll_on :
    scrolledLogs.autoScroll = false ∧
    (scrolledLogs.SetContainerName "db").autoScroll = true := by
  decide

/-- C22 (witness): the same scrolled-up panel; `ScrollToBottom` turns the flag on. -/
theorem autoscroll_on_again_witness :
    scrolledLogs.autoScroll = false ∧
    (scrolledLogs.ScrollToBottom).autoScroll = true :=
  ⟨by decide,
    (autoscroll_on_again
      scrolledLogs (by decide)).1⟩

end LogsPanel
end Dktop

namespace Dktop
namespace App

variable {F : Type}

/-! ### Values pushed into the stats panel's series -/

theorem Update_statsPanel [Zero F] [Add F] [Mul F] [Div F] [NatCast F] (lower : Char → Char)
    (inputUpdate : TextInput → Msg F → TextInput × Option Nat) (a : App F) (msg : Msg F) :
    (Update lower inputUpdate a msg).1.statsPanel = (dispatch lower a msg).1.statsPanel := by
  unfold Update
  simp only
  split_ifs <;> rfl

theorem statsPanel_after_systemStats [Zero F] [Add F] [Mul F] [Div F] [NatCast F]
    (lower : Char → Char) (inputUpdate : TextInput → Msg F → TextInput × Option Nat)
    (a : App F) (s : SystemStats F) :
    (Update lower inputUpdate a (.systemStats (some s))).1.statsPanel =
      a.statsPanel.Update
        (some { s with CPUUsage := specRunningCPU a.containers,
                       MemoryUsage := specRunningMem a.containers % 2 ^ 64 }) := by
  rw [Update_statsPanel]
  simp only [dispatch, runningTotals_eq]

theorem statsPanel_pushes [Zero F] [Add F] [Mul F] [Div F] [NatCast F]
    (lower : Char → Char) (inputUpdate : TextInput → Msg F → TextInput × Option Nat)
    (a : App F) (s : SystemStats F) (hi : a.statsPanel.initialized = true) :
    (Update lower inputUpdate a (.systemStats (some s))).1.statsPanel.cpuPushed
      = a.statsPanel.cpuPushed ++ [specRunningCPU a.containers] ∧
    (Update lower inputUpdate a (.systemStats (some s))).1.statsPanel.memPushed
      = a.statsPanel.memPushed ++
        [if s.MemoryLimit > 0 then
            (((specRunningMem a.containers % 2 ^ 64 : Nat) : F) / (s.MemoryLimit : F))
              * ((100 : Nat) : F)
          else 0] := by
  rw [statsPanel_after_systemStats]
  simp [StatsPanel.Update, hi]

/-- C27 (amended): when the controller handles a system snapshot `s`, an
initialised Stats panel appends to its CPU series the recomputed aggregate CPU
(the `CPUPerc` of the running containers added up) and to its memory series
`usage / limit * 100` with the recomputed aggregate memory as usage and
`s.MemoryLimit` as limit (0 when the limit is 0); neither value is capped at 100.
A panel that was never sized appends nothing. -/
theorem stats_series_values [Zero F] [Add F] [Mul F] [Div F] [NatCast F]
    (lower : Char → Char) (inputUpdate : TextInput → Msg F → TextInput × Option Nat)
    (a : App F) (s : SystemStats F) :
    (a.statsPanel.initialized = true →
      (Update lower inputUpdate a (.systemStats (some s))).1.statsPanel.cpuPushed
        = a.statsPanel.cpuPushed ++ [specRunningCPU a.containers] ∧
      (Update lower inputUpdate a (.systemStats (some s))).1.statsPanel.memPushed
        = a.statsPanel.memPushed ++
          [if s.MemoryLimit > 0 then
              (((specRunningMem a.containers % 2 ^ 64 : Nat) : F) / (s.MemoryLimit : F))
                * ((100 : Nat) : F)
            else 0]) ∧
    (a.statsPanel.initialized = false →
      (Update lower inputUpdate a (.systemStats (some s))).1.statsPanel.cpuPushed
        = a.statsPanel.cpuPushed ∧
      (Update lower inputUpdate a (.systemStats (some s))).1.statsPanel.memPushed
        = a.statsPanel.memPushed) := by
  constructor
  · exact statsPanel_pushes lower inputUpdate a s
  · intro hi
    rw [statsPanel_after_systemStats]
    simp [StatsPanel.Update, hi]

/-- C27 (counterexample): two running containers with 80 and 70 percent CPU and
1500 and 500 bytes of memory, host memory 1000: the Stats panel is handed the
CPU value 150 and the memory value 200. -/
theorem stats_series_exceed_hundred :
    (Update Char.toLower idleInput measuredApp
        (.systemStats (some sampleSystemStats))).1.statsPanel.cpuPushed = [150] ∧
    (Update Char.toLower idleInput measuredApp
        (.systemStats (some sampleSystemStats))).1.statsPanel.memPushed = [200] ∧
    (100 : ℚ) < 150 ∧ (100 : ℚ) < 200 := by
  have hc : measuredApp.containers
      = [{ sampleContainer "a1" "web" "nginx" "running" with CPUPerc := 80, MemUsage := 1500 },
         { sampleContainer "b2" "db" "postgres" "running" with
            CPUPerc := 70, MemUsage := 500 }] := by
    decide
  have hi : measuredApp.statsPanel.initialized = true := by decide
  have h1 : measuredApp.statsPanel.cpuPushed = [] := by decide
  have h2 : measuredApp.statsPanel.memPushed = [] := by decide
  obtain ⟨p1, p2⟩ := statsPanel_pushes Char.toLower idleInput measuredApp sampleSystemStats hi
  refine ⟨?_, ?_, by norm_num, by norm_num⟩
  · rw [p1, h1, hc]
    simp [specRunningCPU, runningContainers, sampleContainer]
    norm_num
  · rw [p2, h2, hc]
    simp [specRunningMem, runningContainers, sampleContainer, sampleSystemStats]
    norm_num

end App
end Dktop

namespace Dktop
namespace App

variable {F : Type}

/-! ### The key that opens an entry mode -/

theorem handleKeyPress_slash (lower : Char → Char) (a : App F) (hm : a.mode = .ModeNormal) :
    handleKeyPress lower a "/" =
      ({ a with mode := .ModeFilter, filterInput := a.filterInput.Focus }, some .blink) := by
  unfold handleKeyPress
  simp [hm]

theorem handleKeyPress_p (lower : Char → Char) (a : App F) (hm : a.mode = .ModeNormal)
    (hp : a.activePanel = .PanelImages) :
    handleKeyPress lower a "p" =
      ({ a with mode := .ModePullImage, pullInput := a.pullInput.Focus }, some .blink) := by
  unfold handleKeyPress
  simp [hm, hp]

/-- C29 (fails in the code): in Normal mode the key `/` switches to FilterEntry and,
in the same call of `Update`, the `/` key event is handed to the filter text
input, already focused; likewise `p` with the Images panel active is handed to
the pull-image input.  With a text input that appends typed characters the keys
`/`, `n`, `g`, Enter commit the filter `/ng`. -/
theorem opening_key_reaches_text_input [Zero F] [Add F] [Mul F] [Div F] [NatCast F]
    (lower : Char → Char) (inputUpdate : TextInput → Msg F → TextInput × Option Nat)
    (a : App F) :
    (a.mode = .ModeNormal →
      (Update lower inputUpdate a (.key "/")).1 =
        { a with mode := .ModeFilter,
                 filterInput := (inputUpdate a.filterInput.Focus (.key "/")).1 }) ∧
    (a.mode = .ModeNormal → a.activePanel = .PanelImages →
      (Update lower inputUpdate a (.key "p")).1 =
        { a with mode := .ModePullImage,
                 pullInput := (inputUpdate a.pullInput.Focus (.key "p")).1 }) ∧
    (Update Char.toLower typingInput (NewApp DefaultConfig) (.key "/")).1.filterInput.value
      = "/" ∧
    (runMsgs Char.toLower typingInput (NewApp DefaultConfig)
      [.key "/", .key "n", .key "g", .key "enter"]).containersPanel.filter = "/ng" := by
  refine ⟨?_, ?_, by decide, by decide⟩
  · intro hm
    unfold Update
    simp only [dispatch, handleKeyPress_slash lower a hm]
    simp
  · intro hm hp
    unfold Update
    simp only [dispatch, handleKeyPress_p lower a hm hp]
    simp

end App

namespace LogsPanel

/-! ### Truncation of log lines in `View` -/

/-- C30 (fails in the code): at panel width 8 the line `abc` is longer than
`maxWidth = 2`, so `View` truncates it with the cut index `width - 9 = -1`, which
is outside `[0, len(line)]`: the slice expression panics, and so does the row loop
of a panel of that width that shows the line.  For every width from 9 on (a Go
`int`) the truncation succeeds. -/
theorem view_truncation_out_of_range :
    truncateLine (NewLogsPanel.SetSize 8 10) (bytesOf "abc") = none ∧
    viewRows (((NewLogsPanel.SetSize 8 10).SetContainerName "web").Update "abc") = none ∧
    (∀ (p : LogsPanel) (line : Bytes), 9 ≤ p.width → p.width < 2 ^ 63 →
      (truncateLine p line).isSome = true) := by
  refine ⟨by decide, by decide, ?_⟩
  intro p line h1 h2
  unfold truncateLine
  have e1 : wrap64 (p.width - 6) = p.width - 6 := wrap64_of_range (by omega) (by omega)
  have e2 : wrap64 (p.width - 6 - 3) = p.width - 6 - 3 := wrap64_of_range (by omega) (by omega)
  simp only [e1, e2]
  by_cases hl : len line > p.width - 6
  · rw [if_pos hl]
    unfold sliceTo
    rw [if_pos ⟨by omega, by omega⟩]
    rfl
  · rw [if_neg hl]
    rfl

end LogsPanel

/-! ### Log framing -/

/-- C28 (fails in the code): the single line `123456789` in one frame (payload
length 10, so the header ends in the newline byte) comes back as seven header
bytes, a newline and `9`; the lines `a` and `b` with an empty line between them
come back with the 8-byte header of the empty line in the output and the empty
line gone.  The lines `hello` and `world` come back as they were. -/
theorem stripLogHeaders_fails_on_framed_lines :
    stripLogHeaders (frameLines 1 [bytesOf "123456789"])
      = [1, 0, 0, 0, 0, 0, 0, 10, 57] ∧
    stripLogHeaders (frameLines 1 [bytesOf "123456789"])
      ≠ List.intercalate [10] [bytesOf "123456789"] ∧
    stripLogHeaders (frameLines 1 [bytesOf "a", bytesOf "", bytesOf "b"])
      = bytesOf "a" ++ [10] ++ [1, 0, 0, 0, 0, 0, 0, 1] ++ [10] ++ bytesOf "b" ∧
    stripLogHeaders (frameLines 1 [bytesOf "a", bytesOf "", bytesOf "b"])
      ≠ List.intercalate [10] [bytesOf "a", bytesOf "", bytesOf "b"] ∧
    stripLogHeaders (frameLines 1 [bytesOf "hello", bytesOf "world"])
      = List.intercalate [10] [bytesOf "hello", bytesOf "world"] := by
  decide

end Dktop

namespace Dktop
namespace Theme

/-! ### One column at a time -/

theorem sim_set {x : Int} {g0 g s : Grid} (h : Sim x g0 g s) (y : Int) (c : Char) :
    SimOpt x g0 (g.set y x c) (s.set y 0 c) := by
  unfold Grid.set
  have hin : g.inside y x ↔ s.inside y 0 := by
    unfold Grid.inside
    rw [h.height_eq, h.width_one]
    have := h.x_lo
    have := h.x_hi
    constructor
    · rintro ⟨a, b, _, _⟩
      exact ⟨a, b, le_refl _, by norm_num⟩
    · rintro ⟨a, b, _, _⟩
      exact ⟨a, b, h.x_lo, h.x_hi⟩
  by_cases hi : g.inside y x
  · rw [if_pos hi, if_pos (hin.mp hi)]
    refine ⟨h.height_eq, h.width_one, h.x_lo, h.x_hi, ?_, h.height0, h.width0, ?_⟩
    · intro y1
      simp only [and_true]
      by_cases hy : y1 = y
      · simp [hy]
      · simp [hy, h.column y1]
    · intro y1 x1 hx1
      simp only [hx1, and_false, if_false]
      exact h.frame y1 x1 hx1
  · rw [if_neg hi, if_neg (fun h2 => hi (hin.mpr h2))]
    trivial

theorem sim_get {x : Int} {g0 g s : Grid} (h : Sim x g0 g s) (y : Int) :
    g.get y x = s.get y 0 := by
  unfold Grid.get
  have hin : g.inside y x ↔ s.inside y 0 := by
    unfold Grid.inside
    rw [h.height_eq, h.width_one]
    constructor
    · rintro ⟨a, b, _, _⟩
      exact ⟨a, b, le_refl _, by norm_num⟩
    · rintro ⟨a, b, _, _⟩
      exact ⟨a, b, h.x_lo, h.x_hi⟩
  by_cases hi : g.inside y x
  · rw [if_pos hi, if_pos (hin.mp hi), h.column y]
  · rw [if_neg hi, if_neg (fun h2 => hi (hin.mpr h2))]

theorem sim_fillIfBlank {x : Int} {g0 g s : Grid} (h : Sim x g0 g s) (dy : Int) :
    SimOpt x g0 (fillIfBlank x g dy) (fillIfBlank 0 s dy) := by
  unfold fillIfBlank
  rw [sim_get h dy]
  cases hs : s.get dy 0 with
  | none => trivial
  | some cur =>
    simp only
    by_cases hc : cur = blank
    · rw [if_pos hc, if_pos hc]
      exact sim_set h dy glyphBar
    · rw [if_neg hc, if_neg hc]
      exact h

theorem sim_foldOpt {x : Int} {g0 : Grid} (f1 f2 : Grid → Int → Option Grid)
    (hf : ∀ g s v, Sim x g0 g s → SimOpt x g0 (f1 g v) (f2 s v)) (l : List Int) :
    ∀ g s, Sim x g0 g s → SimOpt x g0 (foldOpt f1 g l) (foldOpt f2 s l) := by
  induction l with
  | nil => intro g s h; exact h
  | cons v rest ih =>
    intro g s h
    unfold foldOpt
    have := hf g s v h
    cases h1 : f1 g v with
    | none =>
      cases h2 : f2 s v with
      | none => trivial
      | some s1 => rw [h1, h2] at this; exact this.elim
    | some g1 =>
      cases h2 : f2 s v with
      | none => rw [h1, h2] at this; exact this.elim
      | some s1 =>
        rw [h1, h2] at this
        exact ih g1 s1 this

theorem sim_fill {x : Int} {g0 : Grid} (l : List Int) (g s : Grid) (h : Sim x g0 g s) :
    SimOpt x g0 (foldOpt (fillIfBlank x) g l) (foldOpt (fillIfBlank 0) s l) :=
  sim_foldOpt (fillIfBlank x) (fillIfBlank 0) (fun _ _ v h2 => sim_fillIfBlank h2 v) l g s h

theorem sim_set_fill {x : Int} {g0 g s : Grid} (h : Sim x g0 g s) (y : Int) (c : Char)
    (l : List Int) :
    SimOpt x g0
      (match g.set y x c with
        | none => none
        | some g1 => foldOpt (fillIfBlank x) g1 l)
      (match s.set y 0 c with
        | none => none
        | some g1 => foldOpt (fillIfBlank 0) g1 l) := by
  have hs := sim_set h y c
  cases h1 : g.set y x c with
  | none =>
    cases h2 : s.set y 0 c with
    | none => trivial
    | some s1 => rw [h1, h2] at hs; exact hs.elim
  | some g1 =>
    cases h2 : s.set y 0 c with
    | none => rw [h1, h2] at hs; exact hs.elim
    | some s1 =>
      rw [h1, h2] at hs
      exact sim_fill l g1 s1 hs

theorem sim_drawGlyph {x : Int} {g0 g s : Grid} (h : Sim x g0 g s)
    (height prevRow currRow nextRow : Int) :
    SimOpt x g0 (drawGlyph height g x prevRow currRow nextRow)
      (drawGlyph height s 0 prevRow currRow nextRow) := by
  unfold drawGlyph
  simp only
  by_cases c0 : prevRow = currRow ∧ nextRow = currRow
  · rw [if_pos c0, if_pos c0]
    exact sim_set h _ _
  rw [if_neg c0, if_neg c0]
  by_cases c1 : prevRow < currRow ∧ nextRow < currRow
  · rw [if_pos c1, if_pos c1]
    exact sim_set_fill h _ _ _
  rw [if_neg c1, if_neg c1]
  by_cases c2 : prevRow > currRow ∧ nextRow > currRow
  · rw [if_pos c2, if_pos c2]
    exact sim_set h _ _
  rw [if_neg c2, if_neg c2]
  by_cases c3 : prevRow < currRow ∧ nextRow = currRow
  · rw [if_pos c3, if_pos c3]
    exact sim_set h _ _
  rw [if_neg c3, if_neg c3]
  by_cases c4 : prevRow = currRow ∧ nextRow < currRow
  · rw [if_pos c4, if_pos c4]
    exact sim_set_fill h _ _ _
  rw [if_neg c4, if_neg c4]
  by_cases c5 : prevRow > currRow ∧ nextRow = currRow
  · rw [if_pos c5, if_pos c5]
    exact sim_set h _ _
  rw [if_neg c5, if_neg c5]
  by_cases c6 : prevRow = currRow ∧ nextRow > currRow
  · rw [if_pos c6, if_pos c6]
    exact sim_set_fill h _ _ _
  rw [if_neg c6, if_neg c6]
  by_cases c7 : prevRow < currRow ∧ nextRow > currRow
  · rw [if_pos c7, if_pos c7]
    exact sim_set h _ _
  rw [if_neg c7, if_neg c7]
  by_cases c8 : prevRow > currRow ∧ nextRow < currRow
  · rw [if_pos c8, if_pos c8]
    exact sim_set h _ _
  rw [if_neg c8, if_neg c8]
  exact sim_set h _ _

end Theme
end Dktop

namespace Dktop

theorem indexAt_isSome {α : Type} (s : List α) (i : Int) (h0 : 0 ≤ i) (h1 : i < len s) :
    ∃ v, indexAt s i = some v ∧ v ∈ s := by
  unfold indexAt
  rw [if_pos ⟨h0, h1⟩]
  unfold len at h1
  have hlt : i.toNat < s.length := by omega
  refine ⟨s[i.toNat], ?_, List.getElem_mem hlt⟩
  exact List.getElem?_eq_getElem hlt

theorem indexAt_map {α β : Type} (f : α → β) (s : List α) (i : Int) :
    indexAt (s.map f) i = (indexAt s i).map f := by
  unfold indexAt len
  rw [List.length_map]
  by_cases h : 0 ≤ i ∧ i < (s.length : Int)
  · rw [if_pos h, if_pos h, List.getElem?_map]
  · rw [if_neg h, if_neg h]
    rfl

theorem indexAt_mem {α : Type} {s : List α} {i : Int} {v : α} (h : indexAt s i = some v) :
    v ∈ s ∧ 0 ≤ i ∧ i < len s := by
  unfold indexAt at h
  by_cases hc : 0 ≤ i ∧ i < len s
  · rw [if_pos hc] at h
    exact ⟨List.getElem?_mem h, hc.1, hc.2⟩
  · rw [if_neg hc] at h
    cases h

theorem indexAt_append_right {α : Type} (a b : List α) (i : Int) (h0 : 0 ≤ i) :
    indexAt (a ++ b) (len a + i) = indexAt b i := by
  unfold indexAt len
  rw [List.length_append]
  by_cases h : i < (b.length : Int)
  · rw [if_pos ⟨by omega, by push_cast; omega⟩, if_pos ⟨h0, h⟩]
    have e : ((a.length : Int) + i).toNat = a.length + i.toNat := by omega
    rw [e, List.getElem?_append_right (by omega)]
    simp
  · rw [if_neg (fun hc => h (by have := hc.2; push_cast at this; omega)),
      if_neg (fun hc => h hc.2)]

theorem indexAt_append_left {α : Type} (a b : List α) (i : Int) (h1 : i < len a) :
    indexAt (a ++ b) i = indexAt a i := by
  unfold indexAt len
  unfold len at h1
  rw [List.length_append]
  by_cases h : 0 ≤ i
  · rw [if_pos ⟨h, by push_cast; omega⟩, if_pos ⟨h, h1⟩]
    exact List.getElem?_append_left (by omega)
  · rw [if_neg (fun hc => h hc.1), if_neg (fun hc => h hc.1)]

namespace Theme

theorem foldOpt_append {α β : Type} (f : β → α → Option β) (l1 l2 : List α) (b : β) :
    foldOpt f b (l1 ++ l2)
      = match foldOpt f b l1 with
        | none => none
        | some b1 => foldOpt f b1 l2 := by
  induction l1 generalizing b with
  | nil => rfl
  | cons a rest ih =>
    simp only [List.cons_append, foldOpt]
    cases f b a with
    | none => rfl
    | some b1 => exact ih b1

/-- Every case of the drawing chain stays inside a blank column of height 3 when
the three rows lie in 0..2. -/
theorem drawGlyph_alone_isSome :
    ∀ p ∈ ([0, 1, 2] : List Int), ∀ c ∈ ([0, 1, 2] : List Int), ∀ n ∈ ([0, 1, 2] : List Int),
      (drawGlyph 3 (newGrid 3 1 blank) 0 p c n).isSome = true := by
  decide

theorem mem_rows_of_bounds {r : Int} (h0 : 0 ≤ r) (h2 : r ≤ 2) : r ∈ ([0, 1, 2] : List Int) := by
  have : r = 0 ∨ r = 1 ∨ r = 2 := by omega
  rcases this with h | h | h <;> simp [h]

theorem neighbourRow_isSome (rows : List Int) (hrows : ∀ r ∈ rows, -1 ≤ r ∧ r ≤ 2)
    (b : Bool) (x1 c : Int) (hc0 : 0 ≤ c) (hc2 : c ≤ 2)
    (hb : b = true → 0 ≤ x1 ∧ x1 < len rows) :
    ∃ r, neighbourRow rows b x1 c = some r ∧ 0 ≤ r ∧ r ≤ 2 := by
  unfold neighbourRow
  cases b with
  | false => exact ⟨c, by simp, hc0, hc2⟩
  | true =>
    obtain ⟨v, hv, hmem⟩ := indexAt_isSome rows x1 (hb rfl).1 (hb rfl).2
    rw [if_pos rfl, hv]
    by_cases hr : v ≥ 0
    · exact ⟨v, by simp [hr], hr, (hrows v hmem).2⟩
    · exact ⟨c, by simp [hr], hc0, hc2⟩

theorem sim_blank_column (g : Grid) (x : Int) (h3 : g.height = 3) (hx0 : 0 ≤ x)
    (hx1 : x < g.width) (hb : ∀ y, g.cell y x = blank) : Sim x g g (newGrid 3 1 blank) :=
  ⟨h3.symm, rfl, hx0, hx1, fun y => (hb y).symm, rfl, rfl, fun _ _ _ => rfl⟩

/-- One round of the drawing loop on a grid whose column `x` is still blank: the
round succeeds, leaves the other columns alone, and column `x` becomes the column
drawn alone. -/
theorem drawColumn_step (rows : List Int) (W : Int) (hlen : len rows = W)
    (hrows : ∀ r ∈ rows, -1 ≤ r ∧ r ≤ 2) (g : Grid) (x : Int) (h3 : g.height = 3)
    (hw : g.width = W) (hx0 : 0 ≤ x) (hx1 : x < W) (hb : ∀ y, g.cell y x = blank) :
    ∃ g1 s, drawColumn 3 W rows g x = some g1 ∧ columnAlone W rows x = some s ∧
      g1.height = 3 ∧ g1.width = W ∧ (∀ y, g1.cell y x = s.cell y 0) ∧
      ∀ y x1, x1 ≠ x → g1.cell y x1 = g.cell y x1 := by
  obtain ⟨c, hc, hcmem⟩ := indexAt_isSome rows x hx0 (by rw [hlen]; exact hx1)
  unfold drawColumn columnAlone
  rw [hc]
  simp only
  by_cases hneg : c < 0
  · rw [if_pos hneg, if_pos hneg]
    exact ⟨g, newGrid 3 1 blank, rfl, rfl, h3, hw, hb, fun _ _ _ => rfl⟩
  · rw [if_neg hneg, if_neg hneg]
    have hc0 : 0 ≤ c := by omega
    have hc2 : c ≤ 2 := (hrows c hcmem).2
    obtain ⟨p, hp, hp0, hp2⟩ := neighbourRow_isSome rows hrows (decide (x > 0)) (x - 1) c hc0 hc2
      (by intro h; have := of_decide_eq_true h; rw [hlen]; omega)
    obtain ⟨n, hn, hn0, hn2⟩ := neighbourRow_isSome rows hrows (decide (x < W - 1)) (x + 1) c
      hc0 hc2 (by intro h; have := of_decide_eq_true h; rw [hlen]; omega)
    rw [hp, hn]
    simp only
    have hsim := sim_drawGlyph (sim_blank_column g x h3 hx0 (by rw [hw]; exact hx1) hb) 3 p c n
    have hsome := drawGlyph_alone_isSome p (mem_rows_of_bounds hp0 hp2) c
      (mem_rows_of_bounds hc0 hc2) n (mem_rows_of_bounds hn0 hn2)
    cases hs : drawGlyph 3 (newGrid 3 1 blank) 0 p c n with
    | none => rw [hs] at hsome; cases hsome
    | some s =>
      cases hg : drawGlyph 3 g x p c n with
      | none => rw [hs, hg] at hsim; exact hsim.elim
      | some g1 =>
        rw [hs, hg] at hsim
        have hsim : Sim x g g1 s := hsim
        exact ⟨g1, s, rfl, rfl, by rw [hsim.height0, h3], by rw [hsim.width0, hw],
          fun y => (hsim.column y).symm, hsim.frame⟩

theorem sparkDraw_first_columns (rows : List Int) (W : Int) (hlen : len rows = W)
    (hrows : ∀ r ∈ rows, -1 ≤ r ∧ r ≤ 2) (k : Nat) (hk : (k : Int) ≤ W) :
    ∃ g, foldOpt (drawColumn 3 W rows) (newGrid 3 W blank)
        ((List.range k).map (fun (i : Nat) => (i : Int))) = some g ∧
      g.height = 3 ∧ g.width = W ∧
      (∀ x, 0 ≤ x → x < (k : Int) →
        ∃ s, columnAlone W rows x = some s ∧ ∀ y, g.cell y x = s.cell y 0) ∧
      ∀ x, (k : Int) ≤ x → ∀ y, g.cell y x = blank := by
  induction k with
  | zero =>
    refine ⟨newGrid 3 W blank, rfl, rfl, rfl, ?_, fun _ _ _ => rfl⟩
    intro x h0 h1
    simp at h1
    omega
  | succ k ih =>
    obtain ⟨g, hg, h3, hw, hdone, htodo⟩ := ih (by push_cast at hk; omega)
    obtain ⟨g1, s, hstep, halone, h13, h1w, hcol, hframe⟩ :=
      drawColumn_step rows W hlen hrows g (k : Int) h3 hw (by omega) (by push_cast at hk; omega)
        (htodo (k : Int) (le_refl _))
    refine ⟨g1, ?_, h13, h1w, ?_, ?_⟩
    · rw [List.range_succ, List.map_append, foldOpt_append, hg]
      simp only [List.map_cons, List.map_nil, foldOpt, hstep]
    · intro x h0 h1
      by_cases hx : x = (k : Int)
      · subst hx
        exact ⟨s, halone, hcol⟩
      · obtain ⟨s0, hs0, hc0⟩ := hdone x h0 (by push_cast at h1; omega)
        exact ⟨s0, hs0, fun y => by rw [hframe y x hx]; exact hc0 y⟩
    · intro x hx y
      rw [hframe y x (by push_cast at hx; omega)]
      exact htodo x (by push_cast at hx; omega) y

/-- The drawing loop succeeds on rows in `-1..2`, one per column, and each column
of the result is the column drawn alone. -/
theorem sparkDraw_columns (rows : List Int) (W : Int) (hlen : len rows = W)
    (hrows : ∀ r ∈ rows, -1 ≤ r ∧ r ≤ 2) :
    ∃ g, sparkDraw rows W = some g ∧ g.height = 3 ∧ g.width = W ∧
      ∀ x, 0 ≤ x → x < W →
        ∃ s, columnAlone W rows x = some s ∧ ∀ y, g.cell y x = s.cell y 0 := by
  have hW : 0 ≤ W := by rw [← hlen]; unfold len; omega
  obtain ⟨g, hg, h3, hw, hdone, _⟩ := sparkDraw_first_columns rows W hlen hrows W.toNat (by omega)
  refine ⟨g, hg, h3, hw, ?_⟩
  intro x h0 h1
  exact hdone x h0 (by omega)

end Theme
end Dktop

namespace Dktop
namespace Theme

theorem decimate_index (N W i : Int) (hN : 0 < N) (hW : 0 < W) (hi0 : 0 ≤ i) (hi1 : i < W)
    (hmul : W * N < 2 ^ 63) :
    Int.tdiv (wrap64 (i * N)) W = i * N / W ∧ 0 ≤ i * N / W ∧ i * N / W < N := by
  have h0 : 0 ≤ i * N := mul_nonneg hi0 (le_of_lt hN)
  have h1 : i * N < W * N := mul_lt_mul_of_pos_right hi1 hN
  rw [wrap64_of_range (by omega) (by omega), Int.tdiv_eq_ediv h0 (le_of_lt hW)]
  refine ⟨rfl, Int.ediv_nonneg h0 (le_of_lt hW), ?_⟩
  exact Int.ediv_lt_of_lt_mul hW (by rw [mul_comm N W]; exact h1)

theorem decimate_spec {F : Type} (data : List F) (W : Int) (hne : data ≠ []) (hW : 0 < W)
    (hmul : W * len data < 2 ^ 63) (l : List Int) (hl : ∀ i ∈ l, 0 ≤ i ∧ i < W) :
    ∃ out, decimate data W l = some out ∧ out.length = l.length ∧
      ∀ k : Nat, k < l.length → ∃ i, l[k]? = some i ∧ out[k]? = indexAt data (i * len data / W) := by
  have hN : 0 < len data := by
    unfold len
    have := List.length_pos.mpr hne
    omega
  induction l with
  | nil => exact ⟨[], rfl, rfl, fun k hk => absurd hk (by simp)⟩
  | cons i rest ih =>
    obtain ⟨out, ho, hlen, hk⟩ := ih (fun j hj => hl j (List.mem_cons_of_mem _ hj))
    obtain ⟨hi0, hi1⟩ := hl i (List.mem_cons_self _ _)
    obtain ⟨e, e0, e1⟩ := decimate_index (len data) W i hN hW hi0 hi1 hmul
    obtain ⟨v, hv, _⟩ := indexAt_isSome data (i * len data / W) e0 e1
    refine ⟨v :: out, ?_, by simp [hlen], ?_⟩
    · unfold decimate
      rw [e, hv, ho]
    · intro k hk1
      cases k with
      | zero => exact ⟨i, by simp, by simp [hv]⟩
      | succ k =>
        obtain ⟨j, hj, hjo⟩ := hk k (by simpa using hk1)
        exact ⟨j, by simpa using hj, by simpa using hjo⟩

/-- What the resampling puts in each column: right-aligned samples behind unset
columns when the series is no longer than the width, otherwise the sample at
index `c * len(data) / width`, which is a valid index. -/
theorem resample_spec {F : Type} (unset : F) (data : List F) (W : Int) (hne : data ≠ []) (hW : 1 ≤ W)
    (hmul : W ≤ len data → W * len data < 2 ^ 63) :
    ∃ sampled, resample unset data W = some sampled ∧ len sampled = W ∧
      (len data ≤ W →
        (∀ c, 0 ≤ c → c < W - len data → indexAt sampled c = some unset) ∧
        ∀ i, 0 ≤ i → i < len data → indexAt sampled (W - len data + i) = indexAt data i) ∧
      (W ≤ len data → ∀ c, 0 ≤ c → c < W →
        0 ≤ c * len data / W ∧ c * len data / W < len data ∧
        indexAt sampled c = indexAt data (c * len data / W)) := by
  have hN : 0 < len data := by
    unfold len
    have := List.length_pos.mpr hne
    omega
  unfold resample
  by_cases hge : len data ≥ W
  · rw [if_pos hge]
    obtain ⟨out, ho, hlen, hk⟩ := decimate_spec data W hne (by omega) (hmul hge)
      ((List.range W.toNat).map (fun (i : Nat) => (i : Int)))
      (by
        intro i hi
        rw [List.mem_map] at hi
        obtain ⟨k, hk, rfl⟩ := hi
        rw [List.mem_range] at hk
        omega)
    have hlenW : len out = W := by
      unfold len
      rw [hlen, List.length_map, List.length_range]
      omega
    have hdec : ∀ c, 0 ≤ c → c < W →
        0 ≤ c * len data / W ∧ c * len data / W < len data ∧
        indexAt out c = indexAt data (c * len data / W) := by
      intro c hc0 hc1
      obtain ⟨_, e0, e1⟩ := decimate_index (len data) W c hN (by omega) hc0 hc1 (hmul hge)
      refine ⟨e0, e1, ?_⟩
      obtain ⟨i, hi, hio⟩ := hk c.toNat (by rw [List.length_map, List.length_range]; omega)
      rw [List.getElem?_map, List.getElem?_range (by omega)] at hi
      simp at hi
      have hci : i = c := by rw [← hi]; omega
      rw [hci] at hio
      unfold indexAt
      rw [if_pos ⟨hc0, by rw [hlenW]; exact hc1⟩]
      rw [hio]
      unfold indexAt
      rfl
    refine ⟨out, ho, hlenW, ?_, fun _ => hdec⟩
    intro hle
    have hEq : len data = W := le_antisymm hle hge
    refine ⟨fun c h0 h1 => by omega, ?_⟩
    intro i hi0 hi1
    obtain ⟨_, _, e⟩ := hdec i hi0 (by omega)
    have hidx : i * len data / W = i := by
      rw [hEq]
      exact Int.mul_ediv_cancel i (by omega)
    rw [hEq, sub_self, zero_add, e, hidx]
  · rw [if_neg hge]
    have hlt : len data < W := by omega
    have hrep : len (List.replicate (W - len data).toNat unset) = W - len data := by
      simp only [len, List.length_replicate] at hlt ⊢
      omega
    refine ⟨_, rfl, ?_, fun _ => ⟨?_, ?_⟩, fun h => absurd h (by omega)⟩
    · simp only [len, List.length_append, List.length_replicate] at hlt ⊢
      push_cast
      omega
    · intro c hc0 hc1
      rw [indexAt_append_left _ _ _ (by rw [hrep]; exact hc1)]
      obtain ⟨v, hv, hmem⟩ := indexAt_isSome (List.replicate (W - len data).toNat unset) c hc0
        (by rw [hrep]; exact hc1)
      rw [hv, List.eq_of_mem_replicate hmem]
    · intro i hi0 _
      have := indexAt_append_right (List.replicate (W - len data).toNat unset) data i hi0
      rw [hrep] at this
      exact this

end Theme
end Dktop

namespace Dktop
namespace Theme

theorem scan_flag {F : Type} [LinearOrderedField F] (l : List F) (acc : F × F × Bool) :
    (l.foldl
      (fun (acc : F × F × Bool) val =>
        if val < 0 then acc
        else
          (if val < acc.1 then val else acc.1, if val > acc.2.1 then val else acc.2.1, true))
      acc).2.2 = false → ∀ v ∈ l, v < 0 := by
  induction l generalizing acc with
  | nil => intro _ v hv; cases hv
  | cons a rest ih =>
    intro h v hv
    rw [List.foldl_cons] at h
    by_cases ha : a < 0
    · rw [if_pos ha] at h
      rcases List.mem_cons.mp hv with e | e
      · rw [e]; exact ha
      · exact ih acc h v e
    · rw [if_neg ha] at h
      exfalso
      have hflag : ∀ (l : List F) (acc : F × F × Bool), acc.2.2 = true →
          (l.foldl
            (fun (acc : F × F × Bool) val =>
              if val < 0 then acc
              else
                (if val < acc.1 then val else acc.1,
                  if val > acc.2.1 then val else acc.2.1, true))
            acc).2.2 = true := by
        intro l
        induction l with
        | nil => intro acc h; exact h
        | cons b rest ih2 =>
          intro acc hacc
          rw [List.foldl_cons]
          by_cases hb : b < 0
          · rw [if_pos hb]; exact ih2 acc hacc
          · rw [if_neg hb]; exact ih2 _ rfl
      have := hflag rest _ (rfl : ((if a < acc.1 then a else acc.1,
        if a > acc.2.1 then a else acc.2.1, true) : F × F × Bool).2.2 = true)
      rw [this] at h
      cases h

theorem scanMinMax_no_data {F : Type} [LinearOrderedField F] (sampled : List F) (h : (scanMinMax sampled).2.2 = false) :
    ∀ v ∈ sampled, v < 0 :=
  scan_flag sampled _ h

section Samples

variable {F : Type} [LinearOrderedField F] [FloorRing F]

theorem truncF_of_nonneg {f : F} (h : 0 ≤ f) : truncF f = ⌊f⌋ := by
  unfold truncF
  rw [if_pos h]

/-- The clamped, scaled value of a sample that is not negative. -/
theorem rowOf_bounds (minVal rangeVal val : F) :
    -1 ≤ rowOf minVal rangeVal 3 val ∧ rowOf minVal rangeVal 3 val ≤ 2 ∧
      (rowOf minVal rangeVal 3 val < 0 ↔ val < 0) := by
  unfold rowOf
  by_cases hv : val < 0
  · rw [if_pos hv]
    exact ⟨le_refl _, by norm_num, by simp [hv]⟩
  · rw [if_neg hv]
    simp only
    have key : ∀ t : F, 0 ≤ t → t ≤ 1 →
        0 ≤ truncF (t * (((3 - 1 : Int) : Int) : F)) ∧ truncF (t * (((3 - 1 : Int) : Int) : F)) ≤ 2 := by
      intro t h0 h1
      have e : (((3 - 1 : Int) : Int) : F) = 2 := by norm_num
      rw [e, truncF_of_nonneg (by positivity)]
      constructor
      · exact Int.floor_nonneg.mpr (by positivity)
      · have : t * 2 ≤ ((2 : Int) : F) := by push_cast; linarith
        exact Int.cast_le.mp (le_trans (Int.floor_le _) this)
    have hk : ∀ t : F, 0 ≤ (if (if t < 0 then 0 else t) > 1 then (1 : F) else (if t < 0 then 0 else t)) ∧
        (if (if t < 0 then 0 else t) > 1 then (1 : F) else (if t < 0 then 0 else t)) ≤ 1 := by
      intro t
      split_ifs <;> constructor <;> linarith
    obtain ⟨a, b⟩ := key _ (hk ((val - minVal) / rangeVal)).1 (hk ((val - minVal) / rangeVal)).2
    refine ⟨by omega, b, ?_⟩
    constructor
    · intro h; omega
    · intro h; exact absurd h hv

theorem rowOf_mono (minVal rangeVal a b : F) (hr : 0 < rangeVal) (ha : 0 ≤ a) (hab : a ≤ b) :
    rowOf minVal rangeVal 3 a ≤ rowOf minVal rangeVal 3 b := by
  unfold rowOf
  rw [if_neg (not_lt.mpr ha), if_neg (not_lt.mpr (le_trans ha hab))]
  simp only
  have e : (((3 - 1 : Int) : Int) : F) = 2 := by norm_num
  rw [e]
  have hdiv : (a - minVal) / rangeVal ≤ (b - minVal) / rangeVal :=
    div_le_div_of_nonneg_right (by linarith) (le_of_lt hr)
  have hclamp : ∀ s t : F, s ≤ t →
      (if (if s < 0 then 0 else s) > 1 then (1 : F) else (if s < 0 then 0 else s)) ≤
      (if (if t < 0 then 0 else t) > 1 then (1 : F) else (if t < 0 then 0 else t)) ∧
      0 ≤ (if (if s < 0 then 0 else s) > 1 then (1 : F) else (if s < 0 then 0 else s)) := by
    intro s t hst
    split_ifs <;> constructor <;> linarith
  obtain ⟨h1, h0⟩ := hclamp _ _ hdiv
  rw [truncF_of_nonneg (by positivity), truncF_of_nonneg (by
    have := le_trans h0 h1
    positivity)]
  exact Int.floor_mono (by linarith)

theorem rowsOf_length (sampled : List F) : len (rowsOf sampled 3) = len sampled := by
  unfold rowsOf len
  simp

theorem rowsOf_bounds (sampled : List F) : ∀ r ∈ rowsOf sampled 3, -1 ≤ r ∧ r ≤ 2 := by
  intro r hr
  unfold rowsOf at hr
  simp only [List.mem_map] at hr
  obtain ⟨v, _, rfl⟩ := hr
  exact ⟨(rowOf_bounds _ _ v).1, (rowOf_bounds _ _ v).2.1⟩

/-- The row of column `x` is the row of the sample of column `x`. -/
theorem rowsOf_index (sampled : List F) (x : Int) :
    indexAt (rowsOf sampled 3) x
      = (indexAt sampled x).map
          (rowOf (scanMinMax sampled).1
            (if (scanMinMax sampled).2.1 - (scanMinMax sampled).1 < 1 then 1
              else (scanMinMax sampled).2.1 - (scanMinMax sampled).1) 3) := by
  unfold rowsOf
  exact indexAt_map _ _ _

theorem renderSparkline_clamp (data : List F) (width0 : Int) :
    RenderSparkline data width0 = RenderSparkline data (max width0 1) := by
  unfold RenderSparkline
  have e : (if width0 < 1 then 1 else width0) = max width0 1 := by
    split_ifs <;> omega
  have e2 : (if max width0 1 < 1 then 1 else max width0 1) = max width0 1 := by
    split_ifs <;> omega
  simp only [e, e2]

/-- `RenderSparkline` returns a grid of 3 rows and `W` columns whose column `x` is
the column drawn alone from the rows of the resampled series. -/
theorem renderSparkline_columns (data : List F) (W : Int) (hne : data ≠ []) (hW : 1 ≤ W)
    (hmul : W ≤ len data → W * len data < 2 ^ 63) :
    ∃ sampled g, resample (-1 : F) data W = some sampled ∧ len sampled = W ∧
      RenderSparkline data W = some g ∧ g.height = 3 ∧ g.width = W ∧
      ∀ x, 0 ≤ x → x < W →
        ∃ s, columnAlone W (rowsOf sampled 3) x = some s ∧ ∀ y, g.cell y x = s.cell y 0 := by
  obtain ⟨sampled, hs, hlen, _, _⟩ := resample_spec (-1 : F) data W hne hW hmul
  have hN : len data ≠ 0 := by
    unfold len
    have := List.length_pos.mpr hne
    omega
  unfold RenderSparkline
  simp only
  rw [if_neg (not_lt.mpr hW), if_neg hN, hs]
  simp only
  by_cases hflag : (scanMinMax sampled).2.2 = false
  · rw [if_pos hflag]
    refine ⟨sampled, newGrid 3 W blank, rfl, hlen, rfl, rfl, rfl, ?_⟩
    intro x h0 h1
    obtain ⟨v, hv, hmem⟩ := indexAt_isSome sampled x h0 (by rw [hlen]; exact h1)
    refine ⟨newGrid 3 1 blank, ?_, fun _ => rfl⟩
    unfold columnAlone
    rw [rowsOf_index, hv]
    simp only [Option.map_some']
    rw [if_pos ((rowOf_bounds _ _ v).2.2.mpr (scanMinMax_no_data sampled hflag v hmem))]
  · rw [if_neg hflag]
    obtain ⟨g, hg, h3, hw, hcols⟩ := sparkDraw_columns (rowsOf sampled 3) W
      (by rw [rowsOf_length, hlen]) (rowsOf_bounds sampled)
    exact ⟨sampled, g, rfl, hlen, hg, h3, hw, hcols⟩

end Samples

/-- A column whose row is set is drawn by the chain of cases from its own row
and the rows its neighbours count as. -/
theorem columnAlone_set (rows : List Int) (W : Int) (hlen : len rows = W)
    (hrows : ∀ r ∈ rows, -1 ≤ r ∧ r ≤ 2) (x c : Int) (hx : indexAt rows x = some c)
    (hc : 0 ≤ c) :
    ∃ p n, neighbourRow rows (decide (x > 0)) (x - 1) c = some p ∧
      neighbourRow rows (decide (x < W - 1)) (x + 1) c = some n ∧
      p ∈ ([0, 1, 2] : List Int) ∧ c ∈ ([0, 1, 2] : List Int) ∧ n ∈ ([0, 1, 2] : List Int) ∧
      columnAlone W rows x = drawGlyph 3 (newGrid 3 1 blank) 0 p c n := by
  obtain ⟨hmem, hx0, hx1⟩ := indexAt_mem hx
  have hc2 : c ≤ 2 := (hrows c hmem).2
  obtain ⟨p, hp, hp0, hp2⟩ := neighbourRow_isSome rows hrows (decide (x > 0)) (x - 1) c hc hc2
    (by intro h; have := of_decide_eq_true h; omega)
  obtain ⟨n, hn, hn0, hn2⟩ := neighbourRow_isSome rows hrows (decide (x < W - 1)) (x + 1) c
    hc hc2 (by intro h; have := of_decide_eq_true h; omega)
  refine ⟨p, n, hp, hn, mem_rows_of_bounds hp0 hp2, mem_rows_of_bounds hc hc2,
    mem_rows_of_bounds hn0 hn2, ?_⟩
  unfold columnAlone
  rw [hx]
  simp only
  rw [if_neg (not_lt.mpr hc), hp, hn]

theorem columnAlone_unset (rows : List Int) (W : Int) (x c : Int)
    (hx : indexAt rows x = some c) (hc : c < 0) :
    columnAlone W rows x = some (newGrid 3 1 blank) := by
  unfold columnAlone
  rw [hx]
  simp only
  rw [if_pos hc]

/-- A column drawn alone has a glyph in its own row, and every glyph it holds
lies between the smallest and the largest of the three rows. -/
theorem drawGlyph_alone_cells :
    ∀ p ∈ ([0, 1, 2] : List Int), ∀ c ∈ ([0, 1, 2] : List Int), ∀ n ∈ ([0, 1, 2] : List Int),
      (drawGlyph 3 (newGrid 3 1 blank) 0 p c n).all (fun s => decide
        (s.cell (2 - c) 0 ≠ blank ∧
          ∀ y ∈ ([0, 1, 2] : List Int), s.cell y 0 ≠ blank →
            min p (min c n) ≤ 2 - y ∧ 2 - y ≤ max p (max c n))) = true := by
  decide

/-- A flat stretch followed by a rise draws the bar up to the next row. -/
theorem drawGlyph_alone_rise :
    (drawGlyph 3 (newGrid 3 1 blank) 0 0 0 2).all (fun s => decide (s.cell 1 0 ≠ blank))
      = true := by
  decide

end Theme
end Dktop

namespace Dktop
namespace Theme

/-- C26 (counterexample): the two samples `-5` and `50` at width 2 are kept as
they are by the resampling, and the row computed for the negative sample is `-1`,
outside `0..2`; its column stays blank. -/
theorem negative_sample_row_is_unset :
    resample (-1 : ℚ) [-5, 50] 2 = some [-5, 50] ∧
    rowsOf ([-5, 50] : List ℚ) 3 = [-1, 0] ∧
    (RenderSparkline ([-5, 50] : List ℚ) 2).map Grid.render
      = some ["  ".toList, "  ".toList, " ─".toList] := by
  have h1 : resample (-1 : ℚ) [-5, 50] 2 = some [-5, 50] := by decide
  have h2 : scanMinMax ([-5, 50] : List ℚ) = (50, 50, true) := by
    simp [scanMinMax]
    norm_num
  have h3 : rowsOf ([-5, 50] : List ℚ) 3 = [-1, 0] := by
    unfold rowsOf
    rw [h2]
    simp [rowOf, truncF]
    norm_num
  refine ⟨h1, h3, ?_⟩
  unfold RenderSparkline
  simp only
  rw [if_neg (by decide), if_neg (by decide), h1]
  simp only
  rw [h2, h3]
  decide

section Samples

variable {F : Type} [LinearOrderedField F] [FloorRing F]

/-- C26 (amended): for a non-empty series and a width of at least 1 (the product
of width and length a Go int when the series is decimated), `RenderSparkline`
returns its grid of 3 rows and `width` columns, so every cell it reads or
writes is inside the grid; the row computed for a column is `-1` when the
column's sample is negative and lies in `0..2` otherwise; and a cell of column
`x` that is not blank belongs to a column whose row is set and lies in a row
between the smallest and the largest of the rows of columns `x-1`, `x` and
`x+1`, a neighbour that is missing or unset counting as the column's own row. -/
theorem sparkline_stays_within_rows (data : List F) (width : Int) (hne : data ≠ [])
    (hW : 1 ≤ width) (hmul : width ≤ len data → width * len data < 2 ^ 63) :
    ∃ sampled g, resample (-1 : F) data width = some sampled ∧
      RenderSparkline data width = some g ∧ g.height = 3 ∧ g.width = width ∧
      len (rowsOf sampled 3) = width ∧
      (∀ x v r, indexAt sampled x = some v → indexAt (rowsOf sampled 3) x = some r →
        (v < 0 → r = -1) ∧ (0 ≤ v → 0 ≤ r ∧ r ≤ 2)) ∧
      ∀ x y, 0 ≤ x → x < width → 0 ≤ y → y < 3 → g.cell y x ≠ blank →
        ∃ p c n, indexAt (rowsOf sampled 3) x = some c ∧ 0 ≤ c ∧
          neighbourRow (rowsOf sampled 3) (decide (x > 0)) (x - 1) c = some p ∧
          neighbourRow (rowsOf sampled 3) (decide (x < width - 1)) (x + 1) c = some n ∧
          min p (min c n) ≤ 2 - y ∧ 2 - y ≤ max p (max c n) := by
  obtain ⟨sampled, g, hs, hlen, hg, h3, hw, hcols⟩ := renderSparkline_columns data width hne hW hmul
  have hrl : len (rowsOf sampled 3) = width := by rw [rowsOf_length, hlen]
  refine ⟨sampled, g, hs, hg, h3, hw, hrl, ?_, ?_⟩
  · intro x v r hv hr
    rw [rowsOf_index, hv] at hr
    simp only [Option.map_some', Option.some.injEq] at hr
    obtain ⟨b1, b2, b3⟩ := rowOf_bounds (scanMinMax sampled).1
      (if (scanMinMax sampled).2.1 - (scanMinMax sampled).1 < 1 then 1
        else (scanMinMax sampled).2.1 - (scanMinMax sampled).1) v
    rw [hr] at b1 b2 b3
    constructor
    · intro hneg
      have := b3.mpr hneg
      omega
    · intro hpos
      have : ¬ r < 0 := fun h => absurd (b3.mp h) (not_lt.mpr hpos)
      omega
  · intro x y hx0 hx1 hy0 hy1 hcell
    obtain ⟨s, hsome, hcol⟩ := hcols x hx0 hx1
    obtain ⟨c, hc, _⟩ := indexAt_isSome (rowsOf sampled 3) x hx0 (by rw [hrl]; exact hx1)
    by_cases hneg : c < 0
    · rw [columnAlone_unset _ _ x c hc hneg] at hsome
      cases hsome
      exact absurd (hcol y) hcell
    · have hc0 : 0 ≤ c := by omega
      obtain ⟨p, n, hp, hn, mp, mc, mn, halone⟩ :=
        columnAlone_set (rowsOf sampled 3) width hrl (rowsOf_bounds sampled) x c hc hc0
      have hfin := drawGlyph_alone_cells p mp c mc n mn
      rw [← halone, hsome] at hfin
      have hfin2 := (of_decide_eq_true hfin).2 y (mem_rows_of_bounds hy0 (by omega))
        (by rw [← hcol y]; exact hcell)
      exact ⟨p, c, n, hc, hc0, hp, hn, hfin2⟩

end Samples

/-- C26 (witness): the series 50, 0, 100 at width 3. -/
theorem sparkline_stays_within_rows_witness :
    ([50, 0, 100] : List ℚ) ≠ [] ∧ (1 : Int) ≤ 3 ∧
    ∃ g, RenderSparkline ([50, 0, 100] : List ℚ) 3 = some g ∧ g.height = 3 ∧ g.width = 3 := by
  refine ⟨by decide, by decide, ?_⟩
  obtain ⟨_, g, _, hg, h3, hw, _⟩ :=
    sparkline_stays_within_rows ([50, 0, 100] : List ℚ) 3 (by decide) (by decide)
      (fun _ => by decide)
  exact ⟨g, hg, h3, hw⟩

/-- C25: for the oscillating series 50, 0, 100 at width 3 the rows are 1, 0, 2;
column 1 is a valley (its glyph in the bottom row only) and column 2 draws its
corner in the top row only, so the middle row is blank in both columns: the line
has a gap between the adjacent set columns 1 and 2. -/
theorem sparkline_gap_after_valley :
    resample (-1 : ℚ) [50, 0, 100] 3 = some [50, 0, 100] ∧
    rowsOf ([50, 0, 100] : List ℚ) 3 = [1, 0, 2] ∧
    (RenderSparkline ([50, 0, 100] : List ℚ) 3).map Grid.render
      = some ["  ╭".toList, "╮  ".toList, "│╰ ".toList] ∧
    (RenderSparkline ([50, 0, 100] : List ℚ) 3).map
        (fun g => (decide (g.cell 1 1 = blank), decide (g.cell 1 2 = blank)))
      = some (true, true) := by
  have h1 : resample (-1 : ℚ) [50, 0, 100] 3 = some [50, 0, 100] := by decide
  have h2 : scanMinMax ([50, 0, 100] : List ℚ) = (0, 100, true) := by
    simp [scanMinMax]
    norm_num
  have h3 : rowsOf ([50, 0, 100] : List ℚ) 3 = [1, 0, 2] := by
    unfold rowsOf
    rw [h2]
    simp [rowOf, truncF]
    norm_num [Int.floor_eq_iff]
  have h4 : RenderSparkline ([50, 0, 100] : List ℚ) 3 = sparkDraw [1, 0, 2] 3 := by
    unfold RenderSparkline
    simp only
    rw [if_neg (by decide), if_neg (by decide), h1]
    simp only
    rw [h2, h3]
    rfl
  refine ⟨h1, h3, ?_, ?_⟩
  · rw [h4]
    decide
  · rw [h4]
    decide

end Theme
end Dktop

namespace Dktop
namespace Theme

theorem increasing_index {F : Type} [LinearOrderedField F] (data : List F)
    (hinc : data.Pairwise (fun a b => a < b)) (i j : Int) (a b : F)
    (hi : indexAt data i = some a) (hj : indexAt data j = some b) (hij : i ≤ j) : a ≤ b := by
  obtain ⟨_, hi0, hi1⟩ := indexAt_mem hi
  obtain ⟨_, hj0, hj1⟩ := indexAt_mem hj
  unfold indexAt at hi hj
  rw [if_pos ⟨hi0, hi1⟩] at hi
  rw [if_pos ⟨hj0, hj1⟩] at hj
  unfold len at hi1 hj1
  have hil : i.toNat < data.length := by omega
  have hjl : j.toNat < data.length := by omega
  rw [List.getElem?_eq_getElem hil] at hi
  rw [List.getElem?_eq_getElem hjl] at hj
  cases hi
  cases hj
  by_cases he : i.toNat = j.toNat
  · simp only [he]
    exact le_refl _
  · exact le_of_lt (List.pairwise_iff_getElem.mp hinc i.toNat j.toNat hil hjl (by omega))

/-- The samples of two adjacent columns of a resampled increasing series, the
left one not negative, are in order. -/
theorem resample_increasing {F : Type} [LinearOrderedField F] (data : List F) (W : Int) (hne : data ≠ []) (hW : 1 ≤ W)
    (hmul : W ≤ len data → W * len data < 2 ^ 63)
    (hinc : data.Pairwise (fun a b => a < b)) (sampled : List F)
    (hs : resample (-1 : F) data W = some sampled) (x : Int) (a b : F)
    (ha : indexAt sampled x = some a) (hb : indexAt sampled (x + 1) = some b) (h0 : 0 ≤ a) :
    a ≤ b := by
  obtain ⟨sampled1, hs1, hlen, hright, hdec⟩ := resample_spec (-1 : F) data W hne hW hmul
  rw [hs] at hs1
  cases hs1
  obtain ⟨_, hx0, _⟩ := indexAt_mem ha
  obtain ⟨_, _, hx1⟩ := indexAt_mem hb
  rw [hlen] at hx1
  have hN : 0 < len data := by
    unfold len
    have := List.length_pos.mpr hne
    omega
  by_cases hle : len data ≤ W
  · obtain ⟨hunset, hdata⟩ := hright hle
    by_cases hx : x < W - len data
    · rw [hunset x hx0 hx] at ha
      cases ha
      exact absurd h0 (by norm_num)
    · have e1 := hdata (x - (W - len data)) (by omega) (by omega)
      have e2 := hdata (x + 1 - (W - len data)) (by omega) (by omega)
      rw [show W - len data + (x - (W - len data)) = x by ring, ha] at e1
      rw [show W - len data + (x + 1 - (W - len data)) = x + 1 by ring, hb] at e2
      exact increasing_index data hinc _ _ a b e1.symm e2.symm (by omega)
  · have hWN : W ≤ len data := by omega
    obtain ⟨_, _, e1⟩ := hdec hWN x hx0 (by omega)
    obtain ⟨_, _, e2⟩ := hdec hWN (x + 1) (by omega) hx1
    rw [ha] at e1
    rw [hb] at e2
    refine increasing_index data hinc _ _ a b e1.symm e2.symm ?_
    apply Int.ediv_le_ediv (by omega)
    nlinarith

section Samples

variable {F : Type} [LinearOrderedField F] [FloorRing F]

/-- C24: for a non-empty strictly increasing series and every width (the product
of width and length a Go int when the series is decimated), `RenderSparkline`
returns a grid without a gap: for two adjacent columns `x` and `x+1` whose rows
are set, every row from the row of column `x` to the row of column `x+1` (row
`r` counted from the bottom is grid row `2 - r`) holds a glyph that is not blank
in column `x` or in column `x+1`. -/
theorem increasing_series_has_no_gap (data : List F) (width : Int) (hne : data ≠ [])
    (hinc : data.Pairwise (fun a b => a < b))
    (hmul : max width 1 ≤ len data → max width 1 * len data < 2 ^ 63) :
    ∃ sampled g, resample (-1 : F) data (max width 1) = some sampled ∧
      RenderSparkline data width = some g ∧ g.height = 3 ∧ g.width = max width 1 ∧
      ∀ x rx rx1, indexAt (rowsOf sampled 3) x = some rx →
        indexAt (rowsOf sampled 3) (x + 1) = some rx1 → 0 ≤ rx → 0 ≤ rx1 →
        ∀ r, min rx rx1 ≤ r → r ≤ max rx rx1 →
          g.cell (2 - r) x ≠ blank ∨ g.cell (2 - r) (x + 1) ≠ blank := by
  have hW : 1 ≤ max width 1 := le_max_right _ _
  obtain ⟨sampled, g, hs, hlen, hg, h3, hw, hcols⟩ :=
    renderSparkline_columns data (max width 1) hne hW hmul
  have hrl : len (rowsOf sampled 3) = max width 1 := by rw [rowsOf_length, hlen]
  refine ⟨sampled, g, hs, by rw [renderSparkline_clamp]; exact hg, h3, hw, ?_⟩
  have hrange : (0 : F) < (if (scanMinMax sampled).2.1 - (scanMinMax sampled).1 < 1 then 1
      else (scanMinMax sampled).2.1 - (scanMinMax sampled).1) := by
    split_ifs <;> linarith
  -- the rows of adjacent set columns are in order
  have hmono : ∀ x r1 r2, indexAt (rowsOf sampled 3) x = some r1 →
      indexAt (rowsOf sampled 3) (x + 1) = some r2 → 0 ≤ r1 → 0 ≤ r2 → r1 ≤ r2 := by
    intro x r1 r2 h1 h2 p1 _
    obtain ⟨_, hx0, hx1⟩ := indexAt_mem h1
    obtain ⟨_, hy0, hy1⟩ := indexAt_mem h2
    rw [hrl] at hx1 hy1
    obtain ⟨a, ha, _⟩ := indexAt_isSome sampled x hx0 (by rw [hlen]; exact hx1)
    obtain ⟨b, hb, _⟩ := indexAt_isSome sampled (x + 1) hy0 (by rw [hlen]; exact hy1)
    rw [rowsOf_index, ha] at h1
    rw [rowsOf_index, hb] at h2
    simp only [Option.map_some', Option.some.injEq] at h1 h2
    have ha0 : 0 ≤ a := by
      by_contra hneg
      have := (rowOf_bounds (scanMinMax sampled).1
        (if (scanMinMax sampled).2.1 - (scanMinMax sampled).1 < 1 then 1
          else (scanMinMax sampled).2.1 - (scanMinMax sampled).1) a).2.2.mpr (not_le.mp hneg)
      rw [h1] at this
      omega
    have hab := resample_increasing data (max width 1) hne hW hmul hinc sampled hs x a b ha hb ha0
    rw [← h1, ← h2]
    exact rowOf_mono _ _ a b hrange ha0 hab
  intro x rx rx1 hx hx1 p0 p1 r hr0 hr1
  have hle := hmono x rx rx1 hx hx1 p0 p1
  rw [min_eq_left hle] at hr0
  rw [max_eq_right hle] at hr1
  obtain ⟨hmemx, hx0, hxl⟩ := indexAt_mem hx
  obtain ⟨hmemx1, hy0, hyl⟩ := indexAt_mem hx1
  rw [hrl] at hxl hyl
  obtain ⟨s, hsome, hcol⟩ := hcols x hx0 hxl
  obtain ⟨s1, hsome1, hcol1⟩ := hcols (x + 1) hy0 hyl
  obtain ⟨p, n, hp, hn, mp, mc, mn, halone⟩ :=
    columnAlone_set (rowsOf sampled 3) (max width 1) hrl (rowsOf_bounds sampled) x rx hx p0
  obtain ⟨q, m, _, _, mq, mc1, mm, halone1⟩ :=
    columnAlone_set (rowsOf sampled 3) (max width 1) hrl (rowsOf_bounds sampled) (x + 1) rx1 hx1 p1
  have hown := drawGlyph_alone_cells p mp rx mc n mn
  rw [← halone, hsome] at hown
  have hown := (of_decide_eq_true hown).1
  have hown1 := drawGlyph_alone_cells q mq rx1 mc1 m mm
  rw [← halone1, hsome1] at hown1
  have hown1 := (of_decide_eq_true hown1).1
  by_cases e0 : r = rx
  · left
    rw [e0, hcol]
    exact hown
  by_cases e1 : r = rx1
  · right
    rw [e1, hcol1]
    exact hown1
  -- the only rise that skips a row is from 0 to 2
  have b2 := (rowsOf_bounds sampled rx1 hmemx1).2
  have hrx : rx = 0 := by omega
  have hrx1 : rx1 = 2 := by omega
  have hr : r = 1 := by omega
  subst hrx hrx1 hr
  left
  have hn2 : n = 2 := by
    unfold neighbourRow at hn
    rw [if_pos (decide_eq_true (by omega)), hx1] at hn
    simp at hn
    exact hn.symm
  have hp0 : p = 0 := by
    unfold neighbourRow at hp
    by_cases hxpos : x > 0
    · rw [if_pos (decide_eq_true hxpos)] at hp
      obtain ⟨v, hv, _⟩ := indexAt_isSome (rowsOf sampled 3) (x - 1) (by omega)
        (by rw [hrl]; omega)
      rw [hv] at hp
      simp only at hp
      by_cases hv0 : v ≥ 0
      · rw [if_pos hv0] at hp
        cases hp
        have := hmono (x - 1) p 0 hv (by rw [sub_add_cancel]; exact hx) hv0 (le_refl _)
        omega
      · rw [if_neg hv0] at hp
        cases hp
        rfl
    · rw [if_neg (by simpa using hxpos)] at hp
      cases hp
      rfl
  rw [hp0, hn2] at halone
  have hrise := drawGlyph_alone_rise
  rw [← halone, hsome] at hrise
  have hrise := of_decide_eq_true hrise
  rw [show (2 : Int) - 1 = 1 by norm_num, hcol]
  exact hrise

end Samples

/-- C24 (witness): the increasing series 0, 50, 100 at width 3. -/
theorem increasing_series_has_no_gap_witness :
    ([0, 50, 100] : List ℚ) ≠ [] ∧
    ([0, 50, 100] : List ℚ).Pairwise (fun a b => a < b) ∧
    ∃ g, RenderSparkline ([0, 50, 100] : List ℚ) 3 = some g ∧ g.height = 3 ∧ g.width = 3 := by
  have hinc : ([0, 50, 100] : List ℚ).Pairwise (fun a b => a < b) := by
    simp
    norm_num
  refine ⟨by decide, hinc, ?_⟩
  obtain ⟨_, g, _, hg, h3, hw, _⟩ :=
    increasing_series_has_no_gap ([0, 50, 100] : List ℚ) 3 (by decide) hinc (fun _ => by decide)
  exact ⟨g, hg, h3, hw⟩

end Theme
end Dktop

namespace Dktop
namespace Theme

theorem foldOpt_set_isSome (x : Int) (c : Char) (l : List Int) :
    ∀ g : Grid, 0 ≤ x → x < g.width → (∀ y ∈ l, 0 ≤ y ∧ y < g.height) →
      ∃ g1, foldOpt (fun (g : Grid) y => g.set y x c) g l = some g1 ∧
        g1.height = g.height ∧ g1.width = g.width := by
  induction l with
  | nil => intro g _ _ _; exact ⟨g, rfl, rfl, rfl⟩
  | cons y rest ih =>
    intro g hx0 hx1 hl
    obtain ⟨hy0, hy1⟩ := hl y (List.mem_cons_self _ _)
    unfold foldOpt
    unfold Grid.set
    rw [if_pos (show g.inside y x from ⟨hy0, hy1, hx0, hx1⟩)]
    simp only
    obtain ⟨g1, h1, h2, h3⟩ := ih
      { g with cell := fun y1 x1 => if y1 = y ∧ x1 = x then c else g.cell y1 x1 } hx0 hx1
      (fun z hz => hl z (List.mem_cons_of_mem _ hz))
    exact ⟨g1, h1, h2, h3⟩

theorem mem_downTo {hi lo y : Int} (h : y ∈ downTo hi lo) : lo ≤ y ∧ y ≤ hi := by
  unfold downTo at h
  rw [List.mem_map] at h
  obtain ⟨k, hk, rfl⟩ := h
  rw [List.mem_range] at hk
  omega

theorem indexAt_cons_succ {α : Type} (a : α) (l : List α) (i : Int) (h : 0 ≤ i) :
    indexAt (a :: l) (1 + i) = indexAt l i := by
  have := indexAt_append_right [a] l i h
  simpa [len] using this

theorem indexAt_cons_zero {α : Type} (a : α) (l : List α) : indexAt (a :: l) 0 = some a := by
  unfold indexAt len
  rw [if_pos ⟨le_refl _, by simp⟩]
  simp

section Samples

variable {F : Type} [LinearOrderedField F] [FloorRing F]

theorem sim_fillColumn {x : Int} {g0 g s : Grid} (h : Sim x g0 g s) (height : Int) (val : F) :
    SimOpt x g0 (fillColumn height g x val) (fillColumn height s 0 val) := by
  unfold fillColumn
  by_cases hv : val ≤ 0
  · rw [if_pos hv, if_pos hv]
    exact h
  · rw [if_neg hv, if_neg hv]
    simp only
    generalize (if val / 100 > 1 then (1 : F) else val / 100) = nv
    generalize truncF (nv * (height : F)) = fullRows
    generalize truncF ((nv * (height : F) - (fullRows : F)) * 8) = blockIndex
    have hf := sim_foldOpt (fun (g : Grid) y => g.set y x (Char.ofNat 0x2588))
      (fun (g : Grid) y => g.set y 0 (Char.ofNat 0x2588))
      (fun g s v h => sim_set h v _)
      (downTo (height - 1) (max (height - fullRows) 0)) g s h
    revert hf
    generalize foldOpt (fun (g : Grid) y => g.set y x (Char.ofNat 0x2588)) g
      (downTo (height - 1) (max (height - fullRows) 0)) = o1
    generalize foldOpt (fun (g : Grid) y => g.set y 0 (Char.ofNat 0x2588)) s
      (downTo (height - 1) (max (height - fullRows) 0)) = o2
    intro hf
    cases o1 with
    | none =>
      cases o2 with
      | none => trivial
      | some s1 => exact hf.elim
    | some g1 =>
      cases o2 with
      | none => exact hf.elim
      | some s1 =>
        have hf : Sim x g0 g1 s1 := hf
        simp only
        by_cases c1 : fullRows < height ∧ nv * (height : F) - (fullRows : F) > 0
        · rw [if_pos c1, if_pos c1]
          by_cases c2 : blockIndex > 0
          · rw [if_pos c2, if_pos c2]
            by_cases c3 : height - 1 - fullRows ≥ 0
            · rw [if_pos c3, if_pos c3]
              cases indexAt blocks blockIndex with
              | none => trivial
              | some b => exact sim_set hf _ _
            · rw [if_neg c3, if_neg c3]
              exact hf
          · rw [if_neg c2, if_neg c2]
            exact hf
        · rw [if_neg c1, if_neg c1]
          exact hf

/-- The body of the drawing loop of `RenderLineGraph` stays inside a grid of the
given height. -/
theorem fillColumn_isSome (height : Int) (hH : 1 ≤ height) (g : Grid) (x : Int) (val : F)
    (hh : g.height = height) (hx0 : 0 ≤ x) (hx1 : x < g.width) :
    ∃ g1, fillColumn height g x val = some g1 := by
  unfold fillColumn
  by_cases hv : val ≤ 0
  · rw [if_pos hv]
    exact ⟨g, rfl⟩
  · rw [if_neg hv]
    simp only
    have hvpos : 0 < val := not_le.mp hv
    have hnorm : 0 ≤ (if val / 100 > 1 then (1 : F) else val / 100) := by
      split_ifs
      · norm_num
      · positivity
    generalize (if val / 100 > 1 then (1 : F) else val / 100) = nv at hnorm ⊢
    have hHF : (0 : F) ≤ (height : F) := by
      have : (0 : Int) ≤ height := by omega
      exact_mod_cast this
    have htot : 0 ≤ nv * (height : F) := mul_nonneg hnorm hHF
    have hfull : 0 ≤ truncF (nv * (height : F)) := by
      rw [truncF_of_nonneg htot]
      exact Int.floor_nonneg.mpr htot
    have hpart0 : 0 ≤ nv * (height : F) - ((truncF (nv * (height : F)) : Int) : F) := by
      rw [truncF_of_nonneg htot]
      linarith [Int.floor_le (nv * (height : F))]
    have hpart1 : nv * (height : F) - ((truncF (nv * (height : F)) : Int) : F) < 1 := by
      rw [truncF_of_nonneg htot]
      linarith [Int.lt_floor_add_one (nv * (height : F))]
    generalize truncF (nv * (height : F)) = fullRows at hfull hpart0 hpart1 ⊢
    have hb0 : 0 ≤ truncF ((nv * (height : F) - (fullRows : F)) * 8) := by
      rw [truncF_of_nonneg (by positivity)]
      exact Int.floor_nonneg.mpr (by positivity)
    have hb1 : truncF ((nv * (height : F) - (fullRows : F)) * 8) < 9 := by
      rw [truncF_of_nonneg (by positivity)]
      rw [Int.floor_lt]
      push_cast
      linarith
    generalize truncF ((nv * (height : F) - (fullRows : F)) * 8) = blockIndex at hb0 hb1 ⊢
    obtain ⟨g1, hg1, hg1h, hg1w⟩ := foldOpt_set_isSome x (Char.ofNat 0x2588)
      (downTo (height - 1) (max (height - fullRows) 0)) g hx0 hx1
      (by
        intro y hy
        have := mem_downTo hy
        rw [hh]
        omega)
    rw [hg1]
    simp only
    by_cases c1 : fullRows < height ∧ nv * (height : F) - (fullRows : F) > 0
    · rw [if_pos c1]
      by_cases c2 : blockIndex > 0
      · rw [if_pos c2]
        by_cases c3 : height - 1 - fullRows ≥ 0
        · rw [if_pos c3]
          obtain ⟨b, hb, _⟩ := indexAt_isSome blocks blockIndex hb0
            (by unfold len blocks; simpa using hb1)
          rw [hb]
          simp only
          unfold Grid.set
          rw [if_pos (show g1.inside (height - 1 - fullRows) x from
            ⟨c3, by rw [hg1h, hh]; omega, hx0, by rw [hg1w]; exact hx1⟩)]
          exact ⟨_, rfl⟩
        · rw [if_neg c3]
          exact ⟨g1, rfl⟩
      · rw [if_neg c2]
        exact ⟨g1, rfl⟩
    · rw [if_neg c1]
      exact ⟨g1, rfl⟩

/-- One round of the drawing loop of `RenderLineGraph` on a grid whose column `x`
is still blank: the round succeeds, leaves the other columns alone, and column
`x` becomes the column drawn alone from the value. -/
theorem fillColumn_step (height : Int) (hH : 1 ≤ height) (g : Grid) (x : Int) (val : F)
    (hh : g.height = height) (hx0 : 0 ≤ x) (hx1 : x < g.width)
    (hb : ∀ y, g.cell y x = blank) :
    ∃ g1 s, fillColumn height g x val = some g1 ∧
      fillColumn height (newGrid height 1 blank) 0 val = some s ∧
      g1.height = height ∧ g1.width = g.width ∧ (∀ y, g1.cell y x = s.cell y 0) ∧
      ∀ y x1, x1 ≠ x → g1.cell y x1 = g.cell y x1 := by
  obtain ⟨g1, hg1⟩ := fillColumn_isSome height hH g x val hh hx0 hx1
  have hsim0 : Sim x g g (newGrid height 1 blank) :=
    ⟨hh.symm, rfl, hx0, hx1, fun y => (hb y).symm, rfl, rfl, fun _ _ _ => rfl⟩
  have hsim := sim_fillColumn hsim0 height val
  rw [hg1] at hsim
  cases hs : fillColumn height (newGrid height 1 blank) 0 val with
  | none => rw [hs] at hsim; exact hsim.elim
  | some s =>
    rw [hs] at hsim
    have hsim : Sim x g g1 s := hsim
    exact ⟨g1, s, hg1, rfl, by rw [hsim.height0, hh], hsim.width0,
      fun y => (hsim.column y).symm, hsim.frame⟩

theorem fillColumns_columns (height : Int) (hH : 1 ≤ height) (vals : List F) :
    ∀ (g : Grid) (x0 : Int), g.height = height → 0 ≤ x0 → x0 + len vals ≤ g.width →
      (∀ x, x0 ≤ x → ∀ y, g.cell y x = blank) →
      ∃ g1, fillColumns height g x0 vals = some g1 ∧ g1.height = height ∧
        g1.width = g.width ∧ (∀ x, x < x0 → ∀ y, g1.cell y x = g.cell y x) ∧
        ∀ i, 0 ≤ i → i < len vals →
          ∃ v s, indexAt vals i = some v ∧
            fillColumn height (newGrid height 1 blank) 0 v = some s ∧
            ∀ y, g1.cell y (x0 + i) = s.cell y 0 := by
  induction vals with
  | nil =>
    intro g x0 hh _ _ _
    refine ⟨g, rfl, hh, rfl, fun _ _ _ => rfl, ?_⟩
    intro i h0 h1
    simp [len] at h1
    omega
  | cons v rest ih =>
    intro g x0 hh hx0 hfit hblank
    have hl : len (v :: rest) = 1 + len rest := by
      simp [len]
      omega
    have hr0 : 0 ≤ len rest := by simp [len]
    rw [hl] at hfit
    obtain ⟨g1, s, hstep, halone, h1h, h1w, hcol, hframe⟩ :=
      fillColumn_step height hH g x0 v hh hx0 (by omega) (hblank x0 (le_refl _))
    obtain ⟨g2, hrestrun, h2h, h2w, hkeep, hcols⟩ := ih g1 (x0 + 1) h1h (by omega)
      (by rw [h1w]; omega)
      (fun x hx y => by rw [hframe y x (by omega)]; exact hblank x (by omega) y)
    refine ⟨g2, ?_, h2h, by rw [h2w, h1w], ?_, ?_⟩
    · unfold fillColumns
      rw [hstep]
      exact hrestrun
    · intro x hx y
      rw [hkeep x (by omega) y, hframe y x (by omega)]
    · intro i hi0 hi1
      rw [hl] at hi1
      by_cases hi : i = 0
      · subst hi
        refine ⟨v, s, indexAt_cons_zero v rest, halone, ?_⟩
        intro y
        rw [add_zero, hkeep x0 (by omega) y]
        exact hcol y
      · obtain ⟨w, s1, hw, hs1, hc1⟩ := hcols (i - 1) (by omega) (by omega)
        refine ⟨w, s1, ?_, hs1, ?_⟩
        · have := indexAt_cons_succ v rest (i - 1) (by omega)
          rw [show (1 : Int) + (i - 1) = i by ring] at this
          rw [this]
          exact hw
        · intro y
          have := hc1 y
          rw [show x0 + 1 + (i - 1) = x0 + i by ring] at this
          exact this

/-- `RenderLineGraph` returns a grid of `max height 1` rows and `W` columns whose
column `x` is the column drawn alone from the resampled value of column `x`. -/
theorem renderLineGraph_columns (data : List F) (W height : Int) (hne : data ≠ [])
    (hW : 1 ≤ W) (hmul : W ≤ len data → W * len data < 2 ^ 63) :
    ∃ sampled g, resample (0 : F) data W = some sampled ∧ len sampled = W ∧
      RenderLineGraph data W height = some g ∧ g.height = max height 1 ∧ g.width = W ∧
      ∀ x, 0 ≤ x → x < W →
        ∃ v s, indexAt sampled x = some v ∧
          fillColumn (max height 1) (newGrid (max height 1) 1 blank) 0 v = some s ∧
          ∀ y, g.cell y x = s.cell y 0 := by
  obtain ⟨sampled, hs, hlen, _, _⟩ := resample_spec (0 : F) data W hne hW hmul
  have hN : len data ≠ 0 := by
    unfold len
    have := List.length_pos.mpr hne
    omega
  have e : (if height < 1 then 1 else height) = max height 1 := by
    split_ifs <;> omega
  unfold RenderLineGraph
  simp only
  rw [e, if_neg (not_lt.mpr hW), if_neg hN, hs]
  simp only
  obtain ⟨g, hg, hgh, hgw, _, hcols⟩ := fillColumns_columns (max height 1) (le_max_right _ _)
    sampled (newGrid (max height 1) W blank) 0 rfl (le_refl _)
    (by rw [hlen, zero_add]; exact le_refl _) (fun _ _ _ => rfl)
  refine ⟨sampled, g, rfl, hlen, hg, hgh, hgw, ?_⟩
  intro x hx0 hx1
  obtain ⟨v, s, hv, hs1, hc⟩ := hcols x hx0 (by rw [hlen]; exact hx1)
  refine ⟨v, s, hv, hs1, ?_⟩
  intro y
  have := hc y
  rw [zero_add] at this
  exact this

end Samples

end Theme
end Dktop

namespace Dktop
namespace Theme

section Samples

variable {F : Type} [LinearOrderedField F] [FloorRing F]

/-- C23: for a non-empty series of `N` samples and a width `W` of at least 1 (the
product `W * N` a Go int when the series is decimated), both renderers return
their grid, and column `x` of it is what the round of the drawing loop for
column `x` draws alone: in `RenderSparkline` from the rows of the resampled
series, in `RenderLineGraph` from the resampled value of column `x`. When
`N ≤ W` the resampled series holds sample `i` at column `W - N + i` and every
cell of the first `W - N` columns is blank in both grids; when `W ≤ N` column
`c` holds the sample at index `c * N / W`, which is a valid index. -/
theorem resampling_places_samples (data : List F) (W H : Int) (hne : data ≠ [])
    (hW : 1 ≤ W) (hmul : W ≤ len data → W * len data < 2 ^ 63) :
    ∃ sa sb spark line,
      resample (-1 : F) data W = some sa ∧ resample (0 : F) data W = some sb ∧
      RenderSparkline data W = some spark ∧ RenderLineGraph data W H = some line ∧
      spark.height = 3 ∧ spark.width = W ∧ line.height = max H 1 ∧ line.width = W ∧
      (∀ x, 0 ≤ x → x < W →
        (∃ s, columnAlone W (rowsOf sa 3) x = some s ∧ ∀ y, spark.cell y x = s.cell y 0) ∧
        (∃ v s, indexAt sb x = some v ∧
          fillColumn (max H 1) (newGrid (max H 1) 1 blank) 0 v = some s ∧
          ∀ y, line.cell y x = s.cell y 0)) ∧
      (len data ≤ W →
        (∀ i, 0 ≤ i → i < len data →
          indexAt sa (W - len data + i) = indexAt data i ∧
          indexAt sb (W - len data + i) = indexAt data i) ∧
        (∀ c y, 0 ≤ c → c < W - len data →
          spark.cell y c = blank ∧ line.cell y c = blank)) ∧
      (W ≤ len data → ∀ c, 0 ≤ c → c < W →
        0 ≤ c * len data / W ∧ c * len data / W < len data ∧
        indexAt sa c = indexAt data (c * len data / W) ∧
        indexAt sb c = indexAt data (c * len data / W)) := by
  obtain ⟨sa, spark, hsa, _, hspark, hs3, hsw, hscols⟩ :=
    renderSparkline_columns data W hne hW hmul
  obtain ⟨sb, line, hsb, _, hline, hlh, hlw, hlcols⟩ :=
    renderLineGraph_columns data W H hne hW hmul
  obtain ⟨sa1, hsa1, _, haright, hadec⟩ := resample_spec (-1 : F) data W hne hW hmul
  obtain ⟨sb1, hsb1, _, hbright, hbdec⟩ := resample_spec (0 : F) data W hne hW hmul
  rw [hsa] at hsa1
  rw [hsb] at hsb1
  cases hsa1
  cases hsb1
  refine ⟨sa, sb, spark, line, hsa, hsb, hspark, hline, hs3, hsw, hlh, hlw,
    fun x h0 h1 => ⟨hscols x h0 h1, hlcols x h0 h1⟩, ?_, ?_⟩
  · intro hle
    obtain ⟨haunset, hadata⟩ := haright hle
    obtain ⟨hbunset, hbdata⟩ := hbright hle
    refine ⟨fun i h0 h1 => ⟨hadata i h0 h1, hbdata i h0 h1⟩, ?_⟩
    intro c y hc0 hc1
    constructor
    · obtain ⟨s, hs, hcol⟩ := hscols c hc0 (by
        have : 0 ≤ len data := by simp [len]
        omega)
      have hrow : indexAt (rowsOf sa 3) c = some (-1) := by
        rw [rowsOf_index, haunset c hc0 hc1]
        simp [rowOf]
      rw [columnAlone_unset _ _ c (-1) hrow (by norm_num)] at hs
      cases hs
      exact hcol y
    · obtain ⟨v, s, hv, hs, hcol⟩ := hlcols c hc0 (by
        have : 0 ≤ len data := by simp [len]
        omega)
      rw [hbunset c hc0 hc1] at hv
      cases hv
      unfold fillColumn at hs
      rw [if_pos (le_refl _)] at hs
      cases hs
      exact hcol y
  · intro hge c hc0 hc1
    obtain ⟨e0, e1, ea⟩ := hadec hge c hc0 hc1
    obtain ⟨_, _, eb⟩ := hbdec hge c hc0 hc1
    exact ⟨e0, e1, ea, eb⟩

end Samples

/-- C23 (witness): the series 50, 0, 100 at width 5 and graph height 4. -/
theorem resampling_places_samples_witness :
    ([50, 0, 100] : List ℚ) ≠ [] ∧ (1 : Int) ≤ 5 ∧
    ∃ spark line, RenderSparkline ([50, 0, 100] : List ℚ) 5 = some spark ∧
      RenderLineGraph ([50, 0, 100] : List ℚ) 5 4 = some line ∧
      spark.width = 5 ∧ line.width = 5 := by
  refine ⟨by decide, by decide, ?_⟩
  obtain ⟨_, _, spark, line, _, _, h1, h2, _, h3, _, h4, _⟩ :=
    resampling_places_samples ([50, 0, 100] : List ℚ) 5 4 (by decide) (by decide)
      (fun _ => by decide)
  exact ⟨spark, line, h1, h2, h3, h4⟩

end Theme
end Dktop
